import Mathlib

/-!
# Whizard monitoring gateway: admission registry, tenant handlers, write fan-out

A shallow embedding of `pkg/monitoring-gateway/handler.go`.

* Go strings are modelled by `String`; `len` of a Go string is the length of its
  UTF-8 byte sequence.
* `sync.Map` is modelled by its lookup function; `Load`, `Store` and `Delete` are the
  only operations the handlers use.
* `http.ResponseWriter` is modelled by the `Outcome` of a handler: the response it
  wrote, the upstream it handed the request to, or nothing at all.
* Calls into libraries (URL and form parsing, header canonicalisation) and into
  functions of the package that live outside `handler.go` are parameters, collected
  in `Env`.
-/

namespace Whizard

/-! ## Go strings -/

/-- UTF-8 encoding of one code point, as a list of byte values. -/
def utf8Bytes (c : Char) : List Nat :=
  let n := c.toNat
  if n < 128 then [n]
  else if n < 2048 then [192 + n / 64, 128 + n % 64]
  else if n < 65536 then [224 + n / 4096, 128 + (n / 64) % 64, 128 + n % 64]
  else [240 + n / 262144, 128 + (n / 4096) % 64, 128 + (n / 64) % 64, 128 + n % 64]

/-- The bytes of a Go string. -/
def bytes (s : String) : List Nat :=
  (s.toList.map utf8Bytes).flatten

/-- Go `len(s)` for a string `s`: its number of bytes. -/
def len (s : String) : Nat :=
  (bytes s).length

/-- Byte-wise lexicographic order, the order `slices.Sort` puts Go strings in. -/
def bytesLe : List Nat → List Nat → Bool
  | [], _ => true
  | _ :: _, [] => false
  | a :: as, b :: bs => if a < b then true else if b < a then false else bytesLe as bs

/-- Go `strings.HasSuffix`. -/
def HasSuffix (s suffix : String) : Bool :=
  (bytes suffix).isSuffixOf (bytes s)

/-! ## `url.Values` -/

/-- Go `url.Values`, a `map[string][]string`. The first entry for a key is the
binding of that key. -/
structure Values where
  entries : List (String × List String)
  deriving DecidableEq, Repr

namespace Values

/-- Go `v[k]`: the slice bound to `k`, empty when `k` is not a key. -/
def index (v : Values) (k : String) : List String :=
  (v.entries.lookup k).getD []

/-- Go `Values.Get`: the first value bound to `k`, or the empty string. -/
def Get (v : Values) (k : String) : String :=
  match v.index k with
  | [] => ""
  | x :: _ => x

/-- Rebinding of a key in an association list. -/
def assignEntries (k : String) (vs : List String) :
    List (String × List String) → List (String × List String)
  | [] => [(k, vs)]
  | (k1, vs1) :: rest =>
    if k1 = k then (k, vs) :: rest else (k1, vs1) :: assignEntries k vs rest

/-- Go `v[k] = vs`. -/
def assign (v : Values) (k : String) (vs : List String) : Values :=
  ⟨assignEntries k vs v.entries⟩

/-- Go `Values.Set`: `v[k] = []string{x}`. -/
def Set (v : Values) (k : String) (x : String) : Values :=
  v.assign k [x]

/-- The keys of the map, each once. -/
def keys (v : Values) : List String :=
  (v.entries.map Prod.fst).dedup

/-- Go `len(v)` for a map `v`: its number of keys. -/
def len (v : Values) : Nat :=
  v.keys.length

end Values

/-- Whether `url.QueryEscape` leaves the byte as it is: letters, digits and `-_.~`. -/
def unreserved (b : Nat) : Bool :=
  (97 ≤ b && b ≤ 122) || (65 ≤ b && b ≤ 90) || (48 ≤ b && b ≤ 57) ||
    b = 45 || b = 95 || b = 46 || b = 126

/-- Upper-case hexadecimal digit. -/
def upperhex (n : Nat) : Char :=
  "0123456789ABCDEF".toList.getD n '0'

/-- Escaping of one byte by `url.QueryEscape`. -/
def escapeByte (b : Nat) : List Char :=
  if unreserved b then [Char.ofNat b]
  else if b = 32 then ['+']
  else ['%', upperhex (b / 16), upperhex (b % 16)]

/-- Go `url.QueryEscape`. -/
def QueryEscape (s : String) : String :=
  String.mk ((bytes s).map escapeByte).flatten

/-- Go `Values.Encode`: keys in sorted order, every value of a key as `key=value`,
the pairs joined by `&`. -/
def Values.Encode (v : Values) : String :=
  let keys := List.insertionSort (fun a b => bytesLe (bytes a) (bytes b) = true) v.keys
  "&".intercalate
    ((keys.map fun k => (v.index k).map fun x => QueryEscape k ++ "=" ++ QueryEscape x).flatten)

/-! ## `http.Header` -/

/-- Go `http.Header`; keys are stored in canonical form. -/
structure Header where
  entries : List (String × List String)
  deriving DecidableEq, Repr

namespace Header

/-- Go `make(http.Header)`. -/
def empty : Header := ⟨[]⟩

/-- Go `Header.Get`, with `canon` the canonical form of a header key. -/
def Get (canon : String → String) (h : Header) (k : String) : String :=
  match (h.entries.lookup (canon k)).getD [] with
  | [] => ""
  | x :: _ => x

/-- Go `Header.Set`, with `canon` the canonical form of a header key. -/
def Set (canon : String → String) (h : Header) (k : String) (x : String) : Header :=
  ⟨Values.assignEntries (canon k) [x] h.entries⟩

end Header

/-! ## Requests and outcomes -/

/-- The value `withRequestInfo` attaches to the request context. -/
structure RequestInfo where
  TenantId : String
  deriving DecidableEq, Repr

/-- The body stream of a request: the bytes reading it yields, or the read error. -/
inductive Body where
  | content (data : String)
  | failing (err : String)
  deriving DecidableEq, Repr

/-- The parts of `*http.Request` the handlers read or write. `requestInfo` is what
`requestInfoFrom(req.Context())` returns (`none` when not found). -/
structure Request where
  Method : String
  Path : String
  RawQuery : String
  Header : Header
  Body : Body
  ContentLength : Int
  requestInfo : Option RequestInfo
  deriving DecidableEq, Repr

/-- The upstreams of `Handler`. -/
inductive Upstream where
  | queryProxy
  | rulesQueryProxy
  | remoteWriteHander
  deriving DecidableEq, Repr

/-- What a handler did with the request: wrote a response, handed the request to an
upstream (`ServeHTTP` of that upstream), returned without writing anything, or
panicked in `WriteHeader` before anything was written (the server recovers the panic of
a handler and sends no response). -/
inductive Outcome where
  | respond (code : Int) (body : String)
  | forward (upstream : Upstream) (req : Request)
  | silent
  | panics
  deriving DecidableEq, Repr

/-- Go `http.Error(w, msg, code)`: it calls `w.WriteHeader(code)`, which panics for a
code outside 100..999 (`checkWriteHeaderCode` of net/http), and then writes the
message and a newline. -/
def httpError (msg : String) (code : Int) : Outcome :=
  if code < 100 ∨ code > 999 then .panics else .respond code (msg ++ "\n")

/-- Go `http.NotFound(w, req)`. -/
def httpNotFound : Outcome :=
  httpError "404 page not found" 404

/-- Go `w.WriteHeader(code)`, which panics for a code outside 100..999
(`checkWriteHeaderCode` of net/http: `if code < 100 || code > 999`). -/
def writeHeader (code : Int) : Outcome :=
  if code < 100 ∨ code > 999 then .panics else .respond code ""

/-- The status code the outcome wrote, if it wrote one. -/
def Outcome.status : Outcome → Option Int
  | .respond code _ => some code
  | _ => none

/-- Whether the outcome handed the request to an upstream. -/
def Outcome.invokesUpstream : Outcome → Bool
  | .forward _ _ => true
  | _ => false

/-! ## Label matchers and the enforcement interface -/

/-- Prometheus `labels.MatchType`. -/
inductive MatchType where
  | MatchEqual
  | MatchNotEqual
  | MatchRegexp
  | MatchNotRegexp
  deriving DecidableEq, Repr

/-- Prometheus `labels.Matcher`. -/
structure Matcher where
  Typ : MatchType
  Name : String
  Value : String
  deriving DecidableEq, Repr

/-- The `injectproxy.Enforcer` as built by `injectproxy.NewEnforcer`. -/
structure Enforcer where
  errorOnReplace : Bool
  labelMatchers : List Matcher
  deriving DecidableEq, Repr

/-- Go `injectproxy.NewEnforcer(errorOnReplace, ms...)`. -/
def NewEnforcer (errorOnReplace : Bool) (ms : List Matcher) : Enforcer :=
  ⟨errorOnReplace, ms⟩

/-- The dynamic type of an error returned by the enforcement step, as far as the type
switch of `Handler.query` tells errors apart. -/
inductive EnforceError where
  | IllegalLabelMatcherError (msg : String)
  | queryParseError (msg : String)
  | enforceLabelError (msg : String)
  | otherError (msg : String)
  deriving DecidableEq, Repr

/-- Go `err.Error()`. -/
def EnforceError.Error : EnforceError → String
  | .IllegalLabelMatcherError msg => msg
  | .queryParseError msg => msg
  | .enforceLabelError msg => msg
  | .otherError msg => msg

/-- Modelled from the spec: the constant `queryParam`, declared outside `handler.go`;
the name of the parameter that carries the query expression (`?query=up`). -/
def queryParam : String := "query"

/-- What `handler.go` calls but does not define.
* `urlQuery raw` is `req.URL.Query()` for `req.URL.RawQuery = raw`;
* `parseForm req` is `req.ParseForm()` followed by reading `req.PostForm`;
* `formBody req` is `req.Body` after `req.ParseForm()`, which reads the body of a
  form-encoded request to its end;
* `canonicalHeaderKey` is the canonical form `http.Header` stores keys in;
* `enforceQueryValues` and `injectMatcher` are the two enforcement functions of the
  package; `injectMatcher` returns the updated map (Go updates it in place). -/
structure Env where
  urlQuery : String → Values
  parseForm : Request → Except String Values
  formBody : Request → Body
  canonicalHeaderKey : String → String
  enforceQueryValues : Enforcer → Values → Except EnforceError (String × Bool)
  injectMatcher : Values → Matcher → String → Except String Values

/-! ## The admission registry -/

/-- What `tenantsAdmissionMap` holds: the tenant list (under the sentinel key), the flag
`true` (under a tenant name), or a nil interface value. -/
inductive Stored where
  | tenants (list : List String)
  | flag (b : Bool)
  | nilValue
  deriving DecidableEq, Repr

/-- Go `sync.Map` with string keys, given by its lookup function. -/
structure SyncMap where
  lookup : String → Option Stored

namespace SyncMap

/-- The zero value of `sync.Map`. -/
def empty : SyncMap := ⟨fun _ => none⟩

/-- Go `m.Load(k)`: `some v` for `(v, true)`, `none` for `(nil, false)`. -/
def Load (m : SyncMap) (k : String) : Option Stored :=
  m.lookup k

/-- Go `m.Store(k, v)`. -/
def Store (m : SyncMap) (k : String) (v : Stored) : SyncMap :=
  ⟨fun k1 => if k1 = k then some v else m.lookup k1⟩

/-- Go `m.Delete(k)`. -/
def Delete (m : SyncMap) (k : String) : SyncMap :=
  ⟨fun k1 => if k1 = k then none else m.lookup k1⟩

end SyncMap

/-- The first loop of `difference`: `hash[v] = struct{}{}` for every `v` of `b`. The
map with empty values is a set, kept as the list of its keys. -/
def differenceHash (b : List String) : List String :=
  b.foldl (fun hash v => if v ∈ hash then hash else v :: hash) []

/-- Go `difference(a, b)`: the set of `b` is built first; then every `v` of `a` that is
not in it is appended to the result, in the order of `a`. -/
def difference (a b : List String) : List String :=
  let hash := differenceHash b
  a.foldl (fun set v => if v ∈ hash then set else set ++ [v]) []

/-- The reload message; only the field `Tenants` is used. -/
structure AdmissionControlConfig where
  Tenants : List String
  deriving DecidableEq, Repr

/-! ## The write fan-out handler -/

/-- The outcome of one forward: `code` and `err` of the Go struct `result`. -/
structure result where
  code : Int
  err : Option String
  deriving DecidableEq, Repr

/-- A write target. `Send body header` is the outcome of `Send(ctx, body, header)`. -/
structure remoteWriteClient where
  Endpoint : String
  Send : String → Header → result

/-- Go `remoteWriteHandler`. -/
structure remoteWriteHandler where
  writeClients : List remoteWriteClient
  tenantHeader : String

/-- Go `errors.Wrapf(err, "forwarding request to endpoint %v", ep)` on a result. -/
def wrapResult (ep : String) (r : result) : result :=
  match r.err with
  | some e => { r with err := some ("forwarding request to endpoint " ++ ep ++ ": " ++ e) }
  | none => r

/-- The header set handed to every `Send`: the tenant header of the request, when it
is not empty. -/
def fanoutHeader (canon : String → String) (h : remoteWriteHandler) (req : Request) : Header :=
  let tenantId := req.Header.Get canon h.tenantHeader
  if tenantId ≠ "" then Header.empty.Set canon h.tenantHeader tenantId else Header.empty

/-- The slice `results` after `wg.Wait()`: slot `i` holds the outcome of client `i`. -/
def fanoutResults (canon : String → String) (h : remoteWriteHandler) (req : Request)
    (body : String) : List result :=
  h.writeClients.map fun c => wrapResult c.Endpoint (c.Send body (fanoutHeader canon h req))

/-- One round of the reduction loop: `if result.code > code { code, err = ... }`. -/
def reduceStep (acc : Int × Option String) (r : result) : Int × Option String :=
  if r.code > acc.1 then (r.code, r.err) else acc

/-- The reduction loop of `ServeHTTP`, from `code = 0` and `err = nil`. -/
def reduceResults (results : List result) : Int × Option String :=
  results.foldl reduceStep (0, none)

/-- The end of `ServeHTTP`: default to 204, then write the error or the header. -/
def writeReduced (acc : Int × Option String) : Outcome :=
  let code := if acc.1 ≤ 0 then 204 else acc.1
  match acc.2 with
  | some e => httpError e code
  | none => writeHeader code

/-- Go `remoteWriteHandler.ServeHTTP`. -/
def remoteWriteHandler.ServeHTTP (env : Env) (h : remoteWriteHandler) (req : Request) : Outcome :=
  if h.writeClients.length = 0 then .silent
  else
    match req.Body with
    | .failing e => httpError e 500
    | .content body =>
      writeReduced (reduceResults (fanoutResults env.canonicalHeaderKey h req body))

/-! ## The gateway handler -/

/-- Go `httputil.ReverseProxy`, reduced to its target. -/
structure ReverseProxy where
  target : String
  deriving DecidableEq, Repr

/-- Go `Options`, without the listener and TLS settings. -/
structure Options where
  TenantHeader : String
  TenantLabelName : String
  RemoteWriteHandler : Option remoteWriteHandler
  QueryProxy : Option ReverseProxy
  RulesQueryProxy : Option ReverseProxy
  EnabledTenantsAdmission : Bool

/-- Go `Handler`, without logger and router. -/
structure Handler where
  options : Options
  tenantsAdmissionMap : SyncMap
  remoteWriteHander : Option remoteWriteHandler
  queryProxy : Option ReverseProxy
  rulesQueryProxy : Option ReverseProxy

/-- Go `NewHandler`: the registry starts empty. -/
def NewHandler (o : Options) : Handler :=
  { options := o
    tenantsAdmissionMap := SyncMap.empty
    remoteWriteHander := o.RemoteWriteHandler
    queryProxy := o.QueryProxy
    rulesQueryProxy := o.RulesQueryProxy }

/-- The loops `for _, tenant := range ts { m.Store(tenant, true) }`. -/
def storeAll (m : SyncMap) (ts : List String) : SyncMap :=
  ts.foldl (fun acc tenant => acc.Store tenant (.flag true)) m

/-- The loop `for _, tenant := range ts { m.Delete(tenant) }`. -/
def deleteAll (m : SyncMap) (ts : List String) : SyncMap :=
  ts.foldl (fun acc tenant => acc.Delete tenant) m

/-- Go `Handler.SetAdmissionControlHandler`. The result is `none` when the type
assertion `v.([]string)` panics, and the handler after the call otherwise (the Go
function returns a nil error on every path). -/
def Handler.SetAdmissionControlHandler (h : Handler) (c : AdmissionControlConfig) :
    Option Handler :=
  if h.options.EnabledTenantsAdmission then
    match h.tenantsAdmissionMap.Load "/-/" with
    | none | some .nilValue =>
      some { h with
        tenantsAdmissionMap :=
          storeAll (h.tenantsAdmissionMap.Store "/-/" (.tenants c.Tenants)) c.Tenants }
    | some (.flag _) => none
    | some (.tenants tenants) =>
      let addTenantset := difference c.Tenants tenants
      let m1 := storeAll h.tenantsAdmissionMap addTenantset
      let rmTenantset := difference tenants c.Tenants
      let m2 := deleteAll m1 rmTenantset
      some { h with tenantsAdmissionMap := m2.Store "/-/" (.tenants c.Tenants) }
  else some h

/-- The admission test of the handlers:
`_, ok := m.Load(id); h.options.EnabledTenantsAdmission && !ok`. -/
def Handler.rejects (h : Handler) (tenantId : String) : Bool :=
  h.options.EnabledTenantsAdmission && (h.tenantsAdmissionMap.Load tenantId).isNone

/-- The 403 response of the handlers. -/
def forbidden (tenantId : String) : Outcome :=
  httpError ("tenant " ++ tenantId ++ " is not allowed to access") 403

/-- The tenant matcher both handlers build. -/
def tenantMatcher (h : Handler) (ri : RequestInfo) : Matcher :=
  { Typ := .MatchEqual, Name := h.options.TenantLabelName, Value := ri.TenantId }

/-- The type switch of `Handler.query` on an enforcement error; an error of any other
type falls through the switch and the handler returns without writing. -/
def enforceErrorResponse (err : EnforceError) : Outcome :=
  match err with
  | .IllegalLabelMatcherError _ => httpError err.Error 400
  | .queryParseError _ => httpError err.Error 400
  | .enforceLabelError _ => httpError err.Error 500
  | .otherError _ => .silent

/-- The tenant checks, the same block in `query`, `matcher` and `remoteWrite`:
`requestInfoFrom`, 404 without a tenant, 403 for a tenant the registry rejects; `next`
is the rest of the handler. -/
def Handler.withTenant (h : Handler) (req : Request) (next : RequestInfo → Outcome) : Outcome :=
  match req.requestInfo with
  | none => httpNotFound
  | some requestInfo =>
    if requestInfo.TenantId = "" then httpNotFound
    else if h.rejects requestInfo.TenantId then forbidden requestInfo.TenantId
    else next requestInfo

/-- The start of `Handler.query`: for a POST request `req.ParseForm()` and
`postForm = req.PostForm`; for any other method `postForm` stays nil (`none`). -/
def postFormOf (env : Env) (req : Request) : Except String (Option Values) :=
  if req.Method = "POST" then
    match env.parseForm req with
    | .error e => .error e
    | .ok form => .ok (some form)
  else .ok none

/-- Go `postForm.Get(k)` on a map that may be nil. -/
def getOrNil (postForm : Option Values) (k : String) : String :=
  match postForm with
  | some form => form.Get k
  | none => ""

/-- The end of `Handler.query`, from the construction of the enforcer on: enforcement
of the URL parameters, then of the POST form, then the query upstream. -/
def Handler.queryEnforced (env : Env) (h : Handler) (req : Request) (query : Values)
    (postForm : Option Values) (requestInfo : RequestInfo) : Outcome :=
  let enforcer := NewEnforcer false [tenantMatcher h requestInfo]
  match env.enforceQueryValues enforcer query with
  | .error err => enforceErrorResponse err
  | .ok (q, found) =>
    let req1 := if found then { req with RawQuery := q } else req
    match postForm with
    | none => .forward .queryProxy req1
    | some form =>
      match env.enforceQueryValues enforcer form with
      | .error err => enforceErrorResponse err
      | .ok (q2, found2) =>
        .forward .queryProxy
          (if found2 then { req1 with Body := .content q2, ContentLength := (len q2 : Int) }
           else req1)

/-- The request after the first block of `Handler.query`: `req.ParseForm()` of a POST
request has read the body, and `req.Body` is what is left of it. -/
def parsedRequest (env : Env) (req : Request) : Request :=
  if req.Method = "POST" then { req with Body := env.formBody req } else req

/-- Go `Handler.query`. -/
def Handler.query (env : Env) (h : Handler) (req : Request) : Outcome :=
  match h.queryProxy with
  | none => httpError "The query target is not configured for the server" 406
  | some _ =>
    let query := env.urlQuery req.RawQuery
    match postFormOf env req with
    | .error e => httpError e 400
    | .ok postForm =>
      if query.Get queryParam = "" ∧ getOrNil postForm queryParam = "" then .silent
      else
        h.withTenant req fun requestInfo =>
          h.queryEnforced env (parsedRequest env req) query postForm requestInfo

/-- The end of `Handler.matcher`: the rules upstream for `/rules` and `/alerts` when
it is configured, the query upstream otherwise. -/
def Handler.route (h : Handler) (req : Request) : Outcome :=
  if (HasSuffix req.Path "/rules" || HasSuffix req.Path "/alerts") &&
      h.rulesQueryProxy.isSome then
    .forward .rulesQueryProxy req
  else .forward .queryProxy req

/-- The part of `Handler.matcher` after the tenant checks: injection into the URL
parameters, for a POST request into the form as well, then the upstream. -/
def Handler.matcherInjected (env : Env) (h : Handler) (matchersParam : String) (req : Request)
    (requestInfo : RequestInfo) : Outcome :=
  let matcher := tenantMatcher h requestInfo
  match env.injectMatcher (env.urlQuery req.RawQuery) matcher matchersParam with
  | .error _ => .silent
  | .ok q =>
    let req1 := { req with RawQuery := q.Encode }
    if req.Method = "POST" then
      match env.parseForm req1 with
      | .error _ => .silent
      | .ok form =>
        match env.injectMatcher form matcher matchersParam with
        | .error _ => .silent
        | .ok q2 =>
          h.route { req1 with Body := .content q2.Encode, ContentLength := (q2.len : Int) }
    else h.route req1

/-- Go `Handler.matcher(matchersParam)`. -/
def Handler.matcher (env : Env) (h : Handler) (matchersParam : String) (req : Request) :
    Outcome :=
  match h.queryProxy with
  | none => httpError "The query target is not configured for the server" 406
  | some _ =>
    h.withTenant req fun requestInfo => h.matcherInjected env matchersParam req requestInfo

/-- Go `Handler.remoteWrite`. -/
def Handler.remoteWrite (env : Env) (h : Handler) (req : Request) : Outcome :=
  match h.remoteWriteHander with
  | none => httpError "There is no remote write targets configured for the server" 406
  | some _ =>
    h.withTenant req fun requestInfo =>
      .forward .remoteWriteHander
        { req with
          Header := req.Header.Set env.canonicalHeaderKey h.options.TenantHeader
            requestInfo.TenantId }

/-- Options with admission control enabled and no upstream configured. -/
def admissionOptions : Options :=
  { TenantHeader := "WHIZARD-TENANT"
    TenantLabelName := "tenant_id"
    RemoteWriteHandler := none
    QueryProxy := none
    RulesQueryProxy := none
    EnabledTenantsAdmission := true }

/-- Two reloads in a row on a fresh handler: first `old`, then `new`. -/
def reloadTwice (o : Options) (old new : List String) : Option Handler :=
  ((NewHandler o).SetAdmissionControlHandler ⟨old⟩).bind
    fun h => h.SetAdmissionControlHandler ⟨new⟩

/-- The admission lookup of the handlers: `_, ok := m.Load(t)`. -/
def Handler.admits (h : Handler) (t : String) : Bool :=
  (h.tenantsAdmissionMap.Load t).isSome

/-! ## The label enforcer -/

/-- A query expression, as far as enforcement looks into it: selectors, each with its
matcher set, and the operators that combine sub-expressions. -/
inductive Expr where
  | selector (matchers : List Matcher)
  | literal (text : String)
  | unary (op : String) (arg : Expr)
  | binary (op : String) (lhs rhs : Expr)
  deriving DecidableEq, Repr

/-- The query language of the upstream, which the gateway only reaches through its
parser and its serializer: expressions for the `query` parameter, selectors (matcher
sets) for the matcher-list parameters. -/
structure Lang where
  ParseExpr : String → Except String Expr
  exprString : Expr → String
  ParseMetricSelector : String → Except String (List Matcher)
  matchersToString : List Matcher → String

/-- Modelled from the spec: the matcher-injection primitive, which `handler.go` reaches
through `enforceQueryValues` and `injectMatcher` and does not define. "Injection first
checks whether an equivalent matcher for that label is already present and replaces it
in place instead of appending a duplicate": the first matcher on the label of `m`
becomes `m` and a later matcher on that label is removed (the enforcer "never removes
a matcher on a label other than the tenant label"); when the label has no matcher, `m`
is appended. -/
def overrideMatcher (m : Matcher) : List Matcher → List Matcher
  | [] => [m]
  | x :: xs =>
    if x.Name = m.Name then m :: xs.filter (fun y => decide (y.Name ≠ m.Name))
    else x :: overrideMatcher m xs

/-- Whether the matcher set has a matcher on the label of `m` other than `m`. -/
def conflicts (m : Matcher) (ms : List Matcher) : Bool :=
  ms.any fun x => decide (x.Name = m.Name ∧ x ≠ m)

/-- Modelled from the spec: one enforced matcher applied to one selector. In override
mode (`errorOnReplace` false: "replace, do not error") a client-supplied matcher on
the label "is silently overridden, not rejected"; otherwise a conflicting matcher is
rejected as an illegal label matcher. -/
def enforceOne (errorOnReplace : Bool) (acc : List Matcher) (m : Matcher) :
    Except EnforceError (List Matcher) :=
  if errorOnReplace && conflicts m acc then
    .error (.IllegalLabelMatcherError ("label matcher value conflicts with injected value for label " ++ m.Name))
  else .ok (overrideMatcher m acc)

/-- Modelled from the spec: the enforcer applied to the matcher set of one selector
("inject or override the tenant label matcher"), one enforced matcher after the other. -/
def Enforcer.EnforceMatchers (e : Enforcer) (targets : List Matcher) :
    Except EnforceError (List Matcher) :=
  e.labelMatchers.foldl
    (fun acc m =>
      match acc with
      | .error err => .error err
      | .ok ms => enforceOne e.errorOnReplace ms m)
    (.ok targets)

/-- Modelled from the spec: the enforcer applied to an expression: "locate every
selector, inject or override the tenant label matcher on each selector". -/
def Enforcer.EnforceNode (e : Enforcer) : Expr → Except EnforceError Expr
  | .selector ms =>
    match e.EnforceMatchers ms with
    | .error err => .error err
    | .ok ms1 => .ok (.selector ms1)
  | .literal text => .ok (.literal text)
  | .unary op a =>
    match e.EnforceNode a with
    | .error err => .error err
    | .ok a1 => .ok (.unary op a1)
  | .binary op l r =>
    match e.EnforceNode l with
    | .error err => .error err
    | .ok l1 =>
      match e.EnforceNode r with
      | .error err => .error err
      | .ok r1 => .ok (.binary op l1 r1)

/-- Modelled from the spec: the parameter set rewritten by `enforceQueryValues`, and
its "changed" flag. Expression-parameter style: "parse the expression, locate every
selector, inject or override the tenant label matcher on each selector, re-serialize.
Parsing failure → QueryParseError". A parameter set without an expression is left as
it is, with the flag false. -/
def enforceValues (L : Lang) (e : Enforcer) (v : Values) :
    Except EnforceError (Values × Bool) :=
  if v.Get queryParam = "" then .ok (v, false)
  else
    match L.ParseExpr (v.Get queryParam) with
    | .error msg => .error (.queryParseError msg)
    | .ok expr =>
      match e.EnforceNode expr with
      | .error err => .error err
      | .ok expr1 => .ok (v.Set queryParam (L.exprString expr1), true)

/-- Modelled from the spec: `enforceQueryValues`, a function of the package outside
`handler.go`. Its result is the EnforcementResult of the spec: "the rewritten
parameter string plus a boolean changed flag plus an error classification". -/
def enforceQueryValues (L : Lang) (e : Enforcer) (v : Values) :
    Except EnforceError (String × Bool) :=
  match enforceValues L e v with
  | .error err => .error err
  | .ok (v1, found) => .ok (v1.Encode, found)

/-- The occurrences of the matcher parameter, each parsed, injected and serialized. -/
def injectOccurrences (L : Lang) (matcher : Matcher) : List String → Except String (List String)
  | [] => .ok []
  | s :: rest =>
    match L.ParseMetricSelector s with
    | .error msg => .error msg
    | .ok ms =>
      match injectOccurrences L matcher rest with
      | .error msg => .error msg
      | .ok out => .ok (L.matchersToString (overrideMatcher matcher ms) :: out)

/-- Modelled from the spec: `injectMatcher`, a function of the package outside
`handler.go`. Matcher-list style: "for every occurrence of the matcher parameter,
append the tenant matcher to the existing matcher set for that occurrence; if no such
parameter exists, create one containing only the tenant matcher", the tenant matcher
entering a matcher set through the injection primitive `overrideMatcher`. -/
def injectMatcher (L : Lang) (q : Values) (matcher : Matcher) (matchersParam : String) :
    Except String Values :=
  match q.index matchersParam with
  | [] => .ok (q.Set matchersParam (L.matchersToString [matcher]))
  | s :: rest =>
    match injectOccurrences L matcher (s :: rest) with
    | .error msg => .error msg
    | .ok out => .ok (q.assign matchersParam out)

/-- What the isolation property asks of an enforced matcher set `out` for the matcher
set `ms` of the client: the label of `m` is constrained by `m` alone, and the matchers
on every other label are those of `ms`, in their order. -/
def Scoped (m : Matcher) (ms out : List Matcher) : Prop :=
  out.filter (fun x => decide (x.Name = m.Name)) = [m] ∧
    out.filter (fun x => decide (x.Name ≠ m.Name)) = ms.filter (fun x => decide (x.Name ≠ m.Name))

/-- The isolation property for expressions: same shape, every selector scoped. -/
def ScopedExpr (m : Matcher) : Expr → Expr → Prop
  | .selector ms, .selector out => Scoped m ms out
  | .literal t, .literal t1 => t = t1
  | .unary op a, .unary op1 a1 => op = op1 ∧ ScopedExpr m a a1
  | .binary op l r, .binary op1 l1 r1 => op = op1 ∧ ScopedExpr m l l1 ∧ ScopedExpr m r r1
  | _, _ => False

/-- The expression with the matcher `m` injected into every selector. -/
def scopeExpr (m : Matcher) : Expr → Expr
  | .selector ms => .selector (overrideMatcher m ms)
  | .literal text => .literal text
  | .unary op a => .unary op (scopeExpr m a)
  | .binary op l r => .binary op (scopeExpr m l) (scopeExpr m r)

/-- The isolation property for matcher-list parameters: `out` is `q` with every
occurrence of the matcher parameter replaced by the text of a scoped matcher set (one
occurrence holding `m` alone when `q` has none), every other parameter as in `q`. -/
def Injected (L : Lang) (m : Matcher) (matchersParam : String) (q out : Values) : Prop :=
  (∀ k, k ≠ matchersParam → out.index k = q.index k) ∧
    ((q.index matchersParam = [] ∧ out.index matchersParam = [L.matchersToString [m]]) ∨
      (q.index matchersParam ≠ [] ∧
        List.Forall₂
          (fun s s1 => ∃ ms ms1, L.ParseMetricSelector s = .ok ms ∧ Scoped m ms ms1 ∧
            s1 = L.matchersToString ms1)
          (q.index matchersParam) (out.index matchersParam)))

/-! ## A small instance: one metric, one tenant -/

/-- The text of a matcher: name, operator, quoted value. -/
def Matcher.String (m : Matcher) : String :=
  let op := match m.Typ with
    | .MatchEqual => "="
    | .MatchNotEqual => "!="
    | .MatchRegexp => "=~"
    | .MatchNotRegexp => "!~"
  m.Name ++ op ++ "\"" ++ m.Value ++ "\""

/-- The text of a matcher set: the matchers between braces, separated by commas. -/
def matchersText (ms : List Matcher) : String :=
  "\x7b" ++ ",".intercalate (ms.map Matcher.String) ++ "\x7d"

/-- The selector of the metric `up`. -/
def upSelector : List Matcher :=
  [⟨.MatchEqual, "__name__", "up"⟩]

/-- The selector of the metric `up`, scoped to the tenant `acme`. -/
def upAcmeSelector : List Matcher :=
  [⟨.MatchEqual, "__name__", "up"⟩, ⟨.MatchEqual, "tenant_id", "acme"⟩]

/-- The selector of the metric `up` with a matcher for the tenant `other`. -/
def upOtherSelector : List Matcher :=
  [⟨.MatchEqual, "__name__", "up"⟩, ⟨.MatchEqual, "tenant_id", "other"⟩]

/-- The selectors the sample language reads: `up`, and the text of `up` with a matcher
for the tenant `acme` or for the tenant `other`. -/
def sampleSelector (s : String) : Except String (List Matcher) :=
  if s = "up" then .ok upSelector
  else if s = matchersText upAcmeSelector then .ok upAcmeSelector
  else if s = matchersText upOtherSelector then .ok upOtherSelector
  else .error "parse error"

/-- A language whose expressions are the selectors of `sampleSelector`. -/
def sampleLang : Lang :=
  { ParseExpr := fun s =>
      match sampleSelector s with
      | .ok ms => .ok (.selector ms)
      | .error msg => .error msg
    exprString := fun e =>
      match e with
      | .selector ms => matchersText ms
      | .literal t => t
      | _ => ""
    ParseMetricSelector := sampleSelector
    matchersToString := matchersText }

/-- The parameter sets of the sample requests: `query=up`, `match[]=up`, the two with
a matcher for the tenant `other` added to `up`, and the two whose value is an opening
parenthesis, which the sample language does not read. -/
def sampleValues (raw : String) : Values :=
  if raw = "query=up" then ⟨[("query", ["up"])]⟩
  else if raw = "match[]=up" then ⟨[("match[]", ["up"])]⟩
  else if raw = "query=%7B__name__%3D%22up%22%2Ctenant_id%3D%22other%22%7D" then
    ⟨[("query", [matchersText upOtherSelector])]⟩
  else if raw = "match%5B%5D=%7B__name__%3D%22up%22%2Ctenant_id%3D%22other%22%7D" then
    ⟨[("match[]", [matchersText upOtherSelector])]⟩
  else if raw = "query=%28" then ⟨[("query", ["("])]⟩
  else if raw = "match%5B%5D=%28" then ⟨[("match[]", ["("])]⟩
  else ⟨[]⟩

/-- An environment for the sample requests: URL and form parsing know the sample
parameter strings, and the form `%zz` is an invalid escape; the sample bodies are
form-encoded, so parsing the form leaves an empty body; header keys are their own
canonical form, and enforcement is the one modelled from the spec over `sampleLang`. -/
def sampleEnv : Env :=
  { urlQuery := sampleValues
    parseForm := fun req =>
      match req.Body with
      | .content data =>
        if data = "%zz" then .error "invalid URL escape \"%zz\"" else .ok (sampleValues data)
      | .failing err => .error err
    formBody := fun _ => .content ""
    canonicalHeaderKey := id
    enforceQueryValues := enforceQueryValues sampleLang
    injectMatcher := injectMatcher sampleLang }

/-- A handler with every upstream configured, admission control enabled and the
tenant `acme` admitted. -/
def sampleHandler : Handler :=
  { options :=
      { TenantHeader := "WHIZARD-TENANT"
        TenantLabelName := "tenant_id"
        RemoteWriteHandler := some ⟨[], "WHIZARD-TENANT"⟩
        QueryProxy := some ⟨"query"⟩
        RulesQueryProxy := some ⟨"rules"⟩
        EnabledTenantsAdmission := true }
    tenantsAdmissionMap :=
      (SyncMap.empty.Store "/-/" (.tenants ["acme"])).Store "acme" (.flag true)
    remoteWriteHander := some ⟨[], "WHIZARD-TENANT"⟩
    queryProxy := some ⟨"query"⟩
    rulesQueryProxy := some ⟨"rules"⟩ }

/-- A request of the given method, path, query string and body, resolved to `tenant`
(`none` when the context carries no RequestInfo). -/
def sampleRequest (method path raw body : String) (tenant : Option String) : Request :=
  { Method := method
    Path := path
    RawQuery := raw
    Header := Header.empty
    Body := .content body
    ContentLength := (len body : Int)
    requestInfo := tenant.map RequestInfo.mk }

/-- A write target that answers every forward with the given code. -/
def sampleClient (ep : String) (code : Int) (err : Option String) : remoteWriteClient :=
  { Endpoint := ep, Send := fun _ _ => ⟨code, err⟩ }

/-- The sample query request `GET /{tenant}/api/v1/query?query=up`. -/
def sampleQuery (tenant : Option String) : Request :=
  sampleRequest "GET" "/tenant/api/v1/query" "query=up" "" tenant

/-- The sample query request without a `query` parameter. -/
def sampleEmptyQuery (tenant : Option String) : Request :=
  sampleRequest "GET" "/tenant/api/v1/query" "" "" tenant

/-- The sample series request `POST /{tenant}/api/v1/series` with the form `match[]=up`. -/
def sampleSeries (tenant : Option String) : Request :=
  sampleRequest "POST" "/tenant/api/v1/series" "" "match[]=up" tenant

/-- The sample query request whose expression asks for the tenant `other`. -/
def sampleHostileQuery (tenant : Option String) : Request :=
  sampleRequest "GET" "/tenant/api/v1/query"
    "query=%7B__name__%3D%22up%22%2Ctenant_id%3D%22other%22%7D" "" tenant

/-- The sample series request whose matcher asks for the tenant `other`, in the URL
and in the form. -/
def sampleHostileSeries (tenant : Option String) : Request :=
  sampleRequest "POST" "/tenant/api/v1/series"
    "match%5B%5D=%7B__name__%3D%22up%22%2Ctenant_id%3D%22other%22%7D"
    "match%5B%5D=%7B__name__%3D%22up%22%2Ctenant_id%3D%22other%22%7D" tenant

/-- The tenant matcher of the sample handler for the tenant `acme`. -/
def acmeMatcher : Matcher :=
  ⟨.MatchEqual, "tenant_id", "acme"⟩

/-- A handler without any upstream. -/
def bareHandler : Handler :=
  NewHandler admissionOptions

/-- The request gets past the guards `Handler.query` sets before its tenant checks:
for a POST request the form parses, and the `query` parameter is not empty in the URL
or in the form. -/
def queryPresent (env : Env) (req : Request) : Prop :=
  ∃ postForm, postFormOf env req = .ok postForm ∧
    ¬ ((env.urlQuery req.RawQuery).Get queryParam = "" ∧ getOrNil postForm queryParam = "")

/-- The context carries no RequestInfo, or one with an empty TenantId. -/
def unresolved (req : Request) : Prop :=
  req.requestInfo = none ∨ ∃ ri, req.requestInfo = some ri ∧ ri.TenantId = ""

/-- The sample handler with admission control disabled and an empty registry. -/
def openHandler : Handler :=
  { sampleHandler with
    options := { sampleHandler.options with EnabledTenantsAdmission := false }
    tenantsAdmissionMap := SyncMap.empty }

/-! ## The fan-out loop, round by round -/

/-- The state of the fan-out loop of `ServeHTTP`: the counter `i`, the slice `results`,
and the `Send` calls started so far, each with the index of its client, the body and
the header set it is given. -/
structure FanoutState where
  i : Nat
  results : List result
  sends : List (Nat × String × Header)

/-- One round of `for _, writeClient := range h.writeClients`: the goroutine started
with `idx = i` calls `Send` of `writeClient` once and stores the result, its error
wrapped, in `results[idx]`; then `i++`. -/
def fanoutStep (body : String) (header : Header) (s : FanoutState) (c : remoteWriteClient) :
    FanoutState :=
  { i := s.i + 1
    results := s.results.set s.i (wrapResult c.Endpoint (c.Send body header))
    sends := s.sends ++ [(s.i, body, header)] }

/-- The fan-out of `ServeHTTP` up to `wg.Wait()`, from `results = make([]result, n)`
and `i = 0`. Every goroutine writes a slot of its own, so the state after the wait does
not depend on the order the goroutines run in. -/
def fanoutLoop (canon : String → String) (h : remoteWriteHandler) (req : Request)
    (body : String) : FanoutState :=
  h.writeClients.foldl (fanoutStep body (fanoutHeader canon h req))
    ⟨0, List.replicate h.writeClients.length ⟨0, none⟩, []⟩

/-! ## The UI handler -/

/-- Go `strings.CutPrefix(s, pre)`: `s` without the leading `pre` and true, or `s` and
false. A Lean string is a sequence of code points, and a string starts with the bytes
of `pre` exactly when it starts with its code points. -/
def CutPrefix (s pre : String) : String × Bool :=
  if pre.toList.isPrefixOf s.toList then (String.mk (s.toList.drop pre.toList.length), true)
  else (s, false)

/-- Whether `sub` occurs in the list, at its head or further on. -/
def containsAt (sub : List Char) : List Char → Bool
  | [] => sub.isPrefixOf []
  | c :: cs => sub.isPrefixOf (c :: cs) || containsAt sub cs

/-- Go `strings.Contains(s, substr)`. -/
def Contains (s substr : String) : Bool :=
  containsAt substr.toList s.toList

/-- The handler `queryUIHander` dispatches to, with the request it hands over. -/
inductive UIDispatch where
  | queryHanler (req : Request)
  | uiHandler (req : Request)
  deriving DecidableEq, Repr

/-- Go `Handler.queryUIHander(prefix, queryHanler, uiHandler)`, as a function of the
request. -/
def queryUIHander (pre : String) (req : Request) : UIDispatch :=
  let req1 := { req with Path := (CutPrefix req.Path pre).1 }
  if Contains req1.Path "/api/v1" then .queryHanler req1 else .uiHandler req1

/-- The constant `apiUIPrefix`. -/
def apiUIPrefix : String := "/-/ui"

/-- The sample query request whose expression does not parse. -/
def sampleBadQuery (tenant : Option String) : Request :=
  sampleRequest "GET" "/tenant/api/v1/query" "query=%28" "" tenant

/-- The sample series request (GET) whose matcher does not parse. -/
def sampleBadSeries (tenant : Option String) : Request :=
  sampleRequest "GET" "/tenant/api/v1/series" "match%5B%5D=%28" "" tenant

/-- The sample rules request `GET /{tenant}/api/v1/rules?match[]=up`. -/
def sampleRules (tenant : Option String) : Request :=
  sampleRequest "GET" "/tenant/api/v1/rules" "match[]=up" "" tenant

/-- The sample write request with a tenant header supplied by the client. -/
def sampleWrite (tenant : Option String) : Request :=
  { sampleRequest "POST" "/tenant/api/v1/receive" "" "data" tenant with
    Header := ⟨[("WHIZARD-TENANT", ["other"])]⟩ }

/-- Three write targets: two answer 500 with an error each, the third answers 200. -/
def sampleTargets : remoteWriteHandler :=
  ⟨[sampleClient "a" 500 (some "first"), sampleClient "b" 500 (some "second"),
      sampleClient "c" 200 none], "WHIZARD-TENANT"⟩

/-! ## The reload, step by step -/

/-- One write to the registry: `m.Store(k, v)` or `m.Delete(k)`. -/
inductive RegistryStep where
  | store (k : String) (v : Stored)
  | delete (k : String)
  deriving DecidableEq, Repr

/-- The registry after the step. -/
def RegistryStep.apply (m : SyncMap) : RegistryStep → SyncMap
  | .store k v => m.Store k v
  | .delete k => m.Delete k

/-- The writes of `SetAdmissionControlHandler`, in the order it makes them, when the
sentinel key holds the list `tenants`: a store for each added tenant, a delete for
each removed one, the store of the new list. -/
def reloadSteps (tenants new : List String) : List RegistryStep :=
  (difference new tenants).map (fun tenant => .store tenant (.flag true)) ++
    (difference tenants new).map .delete ++ [.store "/-/" (.tenants new)]

/-- The registry after the given steps. -/
def runSteps (m : SyncMap) (steps : List RegistryStep) : SyncMap :=
  steps.foldl RegistryStep.apply m

/-! ## `indexByteNth` -/

/-- The loop `for i, c := range s` of `indexByteNth`: `i` is the byte offset of the code
point `c`, `num` the count so far. The loop variable `c` hides the parameter `c`, and it
is compared with the constant `'/'`. -/
def indexByteNthLoop (nth : Int) : List Char → Nat → Int → Int
  | [], _, _ => -1
  | c :: cs, i, num =>
    if c = '/' then
      if num + 1 = nth then (i : Int)
      else indexByteNthLoop nth cs (i + (utf8Bytes c).length) (num + 1)
    else indexByteNthLoop nth cs (i + (utf8Bytes c).length) num

/-- Go `indexByteNth(s, c, nth)`. The parameter `c` is not read by the body. -/
def indexByteNth (s : String) (_c : Nat) (nth : Int) : Int :=
  indexByteNthLoop nth s.toList 0 0

/-! ## Kubernetes objects, as far as the component builders set them -/

/-- Go `map[string]string`. The first entry for a key is the binding of that key. -/
structure StringMap where
  entries : List (String × String)
  deriving DecidableEq, Repr

namespace StringMap

/-- Go `v, ok := m[k]`. -/
def get? (m : StringMap) (k : String) : Option String :=
  m.entries.lookup k

/-- Rebinding of a key in an association list. -/
def setEntries (k v : String) : List (String × String) → List (String × String)
  | [] => [(k, v)]
  | (k1, v1) :: rest => if k1 = k then (k, v) :: rest else (k1, v1) :: setEntries k v rest

/-- Go `m[k] = v`. -/
def set (m : StringMap) (k v : String) : StringMap :=
  ⟨setEntries k v m.entries⟩

/-- The keys of the map, each once: what `for k := range m` runs over. -/
def keys (m : StringMap) : List String :=
  (m.entries.map Prod.fst).dedup

end StringMap

/-- Go `m[k]` on a map that may be nil. -/
def lookupLabel (m : Option StringMap) (k : String) : Option String :=
  match m with
  | some d => d.get? k
  | none => none

/-- The loop `for k, v := range src { dst[k] = v }`; a nil `src` has no keys. -/
def copyInto (dst : StringMap) (src : Option StringMap) : StringMap :=
  match src with
  | none => dst
  | some s =>
    s.keys.foldl
      (fun d k =>
        match s.get? k with
        | some v => d.set k v
        | none => d)
      dst

/-- Go `mergeStringMap(dst, sources...)`: a nil `dst` is replaced by a new map, every
source is copied into it in turn, and the map is returned. -/
def mergeStringMap (dst : Option StringMap) (sources : List (Option StringMap)) : StringMap :=
  sources.foldl copyInto (dst.getD ⟨[]⟩)

/-- What a variable holds after the statement `mergeStringMap(dst, sources...)`, whose
result is dropped: a non-nil map is merged into in place, a nil one stays nil. -/
def mergedInPlace (dst : Option StringMap) (sources : List (Option StringMap)) :
    Option StringMap :=
  match dst with
  | none => none
  | some d => some (mergeStringMap (some d) sources)

/-- Go `metav1.OwnerReference`. -/
structure OwnerReference where
  APIVersion : String
  Kind : String
  Name : String
  UID : String
  Controller : Option Bool
  deriving DecidableEq, Repr

/-- Go `metav1.ObjectMeta`. -/
structure ObjectMeta where
  Name : String
  Namespace : String
  Labels : Option StringMap
  Annotations : Option StringMap
  OwnerReferences : List OwnerReference
  deriving DecidableEq, Repr

/-- Go `corev1.Toleration`. -/
structure Toleration where
  Key : String
  deriving DecidableEq, Repr

/-- Go `corev1.LocalObjectReference`. -/
structure LocalObjectReference where
  Name : String
  deriving DecidableEq, Repr

/-- Go `corev1.PodSecurityContext`. -/
structure PodSecurityContext where
  FSGroup : Option Int
  deriving DecidableEq, Repr

/-- Go `corev1.Affinity`, kept as its text. -/
structure Affinity where
  rules : String
  deriving DecidableEq, Repr

/-- Go `corev1.Probe`. -/
structure Probe where
  TimeoutSeconds : Int
  deriving DecidableEq, Repr

/-- Go `corev1.ContainerPort`. -/
structure ContainerPort where
  Name : String
  ContainerPort : Int
  deriving DecidableEq, Repr

/-- Go `corev1.ResourceRequirements`; a resource list is a map from resource name to
quantity. -/
structure ResourceRequirements where
  Limits : Option StringMap
  Requests : Option StringMap
  deriving DecidableEq, Repr

/-- Go `corev1.Container`. -/
structure Container where
  Name : String
  Image : String
  ImagePullPolicy : String
  Resources : ResourceRequirements
  Args : List String
  Ports : List ContainerPort
  VolumeMounts : List String
  LivenessProbe : Option Probe
  ReadinessProbe : Option Probe
  StartupProbe : Option Probe
  deriving DecidableEq, Repr

/-- Go `corev1.PodSpec`. -/
structure PodSpec where
  Volumes : List String
  InitContainers : List Container
  Containers : List Container
  NodeSelector : Option StringMap
  ServiceAccountName : String
  SecurityContext : Option PodSecurityContext
  ImagePullSecrets : List LocalObjectReference
  Tolerations : Option (List Toleration)
  Affinity : Option Affinity
  deriving DecidableEq, Repr

/-- Go `corev1.PodTemplateSpec`. -/
structure PodTemplateSpec where
  ObjectMeta : ObjectMeta
  Spec : PodSpec
  deriving DecidableEq, Repr

/-- Go `appsv1.StatefulSetSpec`, with the label selector reduced to `MatchLabels`. -/
structure StatefulSetSpec where
  Replicas : Option Int
  MatchLabels : Option StringMap
  Template : PodTemplateSpec
  VolumeClaimTemplates : List String
  ServiceName : String
  deriving DecidableEq, Repr

/-- Go `appsv1.StatefulSet`. -/
structure StatefulSet where
  ObjectMeta : ObjectMeta
  Spec : StatefulSetSpec
  deriving DecidableEq, Repr

/-- Go `appsv1.DeploymentSpec`, with the label selector reduced to `MatchLabels`. -/
structure DeploymentSpec where
  Replicas : Option Int
  MatchLabels : Option StringMap
  Template : PodTemplateSpec
  deriving DecidableEq, Repr

/-- Go `appsv1.Deployment`. -/
structure Deployment where
  ObjectMeta : ObjectMeta
  Spec : DeploymentSpec
  deriving DecidableEq, Repr

/-- Go `corev1.Service`, with the selector and the ports of its spec. -/
structure Service where
  ObjectMeta : ObjectMeta
  Selector : Option StringMap
  Ports : List String
  deriving DecidableEq, Repr

/-- The type `EmbeddedObjectMetadata` of the API package. -/
structure EmbeddedObjectMetadata where
  Labels : Option StringMap
  Annotations : Option StringMap
  deriving DecidableEq, Repr

/-- Go `runtime.RawExtension`: the raw bytes of the embedded containers. -/
structure RawExtension where
  Raw : String
  deriving DecidableEq, Repr

/-- The type `CommonSpec` of the API package, with the fields the builders and
`CommonOptions.Override` read or write. -/
structure CommonSpec where
  Image : String
  ImagePullPolicy : String
  Replicas : Option Int
  Affinity : Option Affinity
  Tolerations : Option (List Toleration)
  NodeSelector : Option StringMap
  Resources : ResourceRequirements
  LogLevel : String
  LogFormat : String
  Flags : Option (List String)
  SecurityContext : Option PodSecurityContext
  ImagePullSecrets : List LocalObjectReference
  PodMetadata : Option EmbeddedObjectMetadata
  Containers : RawExtension
  deriving DecidableEq, Repr

/-- What the builders ask of the `client.Object` they build for. -/
structure Instance where
  Name : String
  Namespace : String
  UID : String
  APIVersion : String
  Kind : String
  deriving DecidableEq, Repr

/-- Go `Component`. -/
structure Component where
  AppName : String
  Instance : Instance
  CommonSpec : CommonSpec
  deriving DecidableEq, Repr

/-- What `compoments.go` uses and does not define: the constants of the package
`constants`, `util.DecodeRawToContainers`, and `k8sutil.MergePatchContainers`. -/
structure BuildEnv where
  LabelNameAppName : String
  LabelNameAppManagedBy : String
  LabelDefaultContainer : String
  ServiceNameSuffix : String
  DecodeRawToContainers : RawExtension → Except String (List Container)
  MergePatchContainers : List Container → List Container → Except String (List Container)

/-- Go `Component.MakeObjectMeta`. -/
def Component.MakeObjectMeta (env : BuildEnv) (c : Component) : ObjectMeta :=
  { Name := c.Instance.Name
    Namespace := c.Instance.Namespace
    Labels := some ⟨[(env.LabelNameAppName, c.AppName),
      (env.LabelNameAppManagedBy, c.Instance.Name)]⟩
    Annotations := none
    OwnerReferences :=
      [{ APIVersion := c.Instance.APIVersion
         Kind := c.Instance.Kind
         Name := c.Instance.Name
         UID := c.Instance.UID
         Controller := some true }] }

/-- The pod template `makePodTemplate` starts from. -/
def Component.basePodTemplate (env : BuildEnv) (c : Component) : PodTemplateSpec :=
  let objectmeta := c.MakeObjectMeta env
  { ObjectMeta :=
      { Name := ""
        Namespace := ""
        Annotations := some ⟨[(env.LabelDefaultContainer, c.AppName)]⟩
        Labels := objectmeta.Labels
        OwnerReferences := [] }
    Spec :=
      { Volumes := []
        InitContainers := []
        Containers :=
          [{ Name := c.AppName
             Image := c.CommonSpec.Image
             ImagePullPolicy := c.CommonSpec.ImagePullPolicy
             Resources := c.CommonSpec.Resources
             Args := []
             Ports := []
             VolumeMounts := []
             LivenessProbe := some ⟨0⟩
             ReadinessProbe := none
             StartupProbe := none }]
        NodeSelector := c.CommonSpec.NodeSelector
        ServiceAccountName := ""
        SecurityContext := c.CommonSpec.SecurityContext
        ImagePullSecrets := c.CommonSpec.ImagePullSecrets
        Tolerations := c.CommonSpec.Tolerations
        Affinity := c.CommonSpec.Affinity } }

/-- The pod template after the merge of `PodMetadata`, when there is one. -/
def Component.labelledPodTemplate (env : BuildEnv) (c : Component) : PodTemplateSpec :=
  let podTemplate := c.basePodTemplate env
  match c.CommonSpec.PodMetadata with
  | none => podTemplate
  | some pm =>
    { podTemplate with
      ObjectMeta :=
        { podTemplate.ObjectMeta with
          Annotations := mergedInPlace podTemplate.ObjectMeta.Annotations [pm.Annotations]
          Labels := mergedInPlace podTemplate.ObjectMeta.Labels [pm.Labels] } }

/-- Go `Component.makePodTemplate`: the template and the error it returns. -/
def Component.makePodTemplate (env : BuildEnv) (c : Component) :
    PodTemplateSpec × Option String :=
  let podTemplate := c.labelledPodTemplate env
  if len c.CommonSpec.Containers.Raw > 0 then
    match env.DecodeRawToContainers c.CommonSpec.Containers with
    | .error err => (podTemplate, some ("failed to decode containers: " ++ err))
    | .ok embeddedContainers =>
      match env.MergePatchContainers podTemplate.Spec.Containers embeddedContainers with
      | .error err => (podTemplate, some ("failed to merge containers spec: " ++ err))
      | .ok containers =>
        ({ podTemplate with Spec := { podTemplate.Spec with Containers := containers } }, none)
  else (podTemplate, none)

/-- Go `Component.MakeService`. -/
def Component.MakeService (env : BuildEnv) (c : Component) : Service :=
  let objectmeta := c.MakeObjectMeta env
  let objectmeta := { objectmeta with Name := objectmeta.Name ++ env.ServiceNameSuffix }
  { ObjectMeta := objectmeta
    Selector := objectmeta.Labels
    Ports := [] }

/-- Go `Component.MakeStatefulset`: the StatefulSet, or the error (with a nil object). -/
def Component.MakeStatefulset (env : BuildEnv) (c : Component) : Except String StatefulSet :=
  let objectmeta := c.MakeObjectMeta env
  let service := c.MakeService env
  match c.makePodTemplate env with
  | (_, some err) => .error err
  | (podTemplate, none) =>
    .ok
      { ObjectMeta := objectmeta
        Spec :=
          { Replicas := c.CommonSpec.Replicas
            MatchLabels := objectmeta.Labels
            Template := podTemplate
            VolumeClaimTemplates := []
            ServiceName := service.ObjectMeta.Name } }

/-- Go `Component.MakeDeployment`: the Deployment, or the error (with a nil object). -/
def Component.MakeDeployment (env : BuildEnv) (c : Component) : Except String Deployment :=
  let objectmeta := c.MakeObjectMeta env
  match c.makePodTemplate env with
  | (_, some err) => .error err
  | (podTemplate, none) =>
    .ok
      { ObjectMeta := objectmeta
        Spec :=
          { Replicas := c.CommonSpec.Replicas
            MatchLabels := objectmeta.Labels
            Template := podTemplate } }

/-- Go `WithPodLabels(labels)`. -/
def WithPodLabels (labels : Option StringMap) (t : PodTemplateSpec) : PodTemplateSpec :=
  { t with ObjectMeta := { t.ObjectMeta with Labels := some (mergeStringMap t.ObjectMeta.Labels [labels]) } }

/-- Go `WithPodAnnotations(annotations)`. -/
def WithPodAnnotations (annotations : Option StringMap) (t : PodTemplateSpec) : PodTemplateSpec :=
  { t with
    ObjectMeta :=
      { t.ObjectMeta with
        Annotations := some (mergeStringMap t.ObjectMeta.Annotations [annotations]) } }

/-- The inner loop of `ForContainer`: the mutators that are not nil, in their order. -/
def applyContainerMutators (mutators : List (Option (Container → Container))) (c : Container) :
    Container :=
  mutators.foldl
    (fun c mutate =>
      match mutate with
      | none => c
      | some f => f c)
    c

/-- One round of `for i := range spec.Containers` in `ForContainer`. -/
def forContainerStep (name : String) (mutators : List (Option (Container → Container)))
    (containers : List Container) (i : Nat) : List Container :=
  match containers[i]? with
  | none => containers
  | some c =>
    if c.Name ≠ name then containers
    else containers.set i (applyContainerMutators mutators c)

/-- Go `ForContainer(name, mutators...)`. -/
def ForContainer (name : String) (mutators : List (Option (Container → Container)))
    (spec : PodSpec) : PodSpec :=
  { spec with
    Containers :=
      (List.range spec.Containers.length).foldl (forContainerStep name mutators) spec.Containers }

/-- Go `WithLivenessProbe(probe)`. -/
def WithLivenessProbe (probe : Option Probe) (c : Container) : Container :=
  { c with LivenessProbe := probe }

/-- Go `AppendPorts(ports...)`. -/
def AppendPorts (ports : List ContainerPort) (c : Container) : Container :=
  { c with Ports := c.Ports ++ ports }

/-- The right-biased union of the maps `D` and `L`, read at the key `k`: the binding of
`L` when there is one, else the binding of `D`, if any. -/
def unionAt (D L : Option StringMap) (k : String) : Option String :=
  match lookupLabel L k with
  | some v => some v
  | none => lookupLabel D k

/-- The main container `makePodTemplate` writes for a component. -/
def Component.mainContainer (c : Component) : Container :=
  { Name := c.AppName
    Image := c.CommonSpec.Image
    ImagePullPolicy := c.CommonSpec.ImagePullPolicy
    Resources := c.CommonSpec.Resources
    Args := []
    Ports := []
    VolumeMounts := []
    LivenessProbe := some ⟨0⟩
    ReadinessProbe := none
    StartupProbe := none }

/-- A container patch as the sample of `DecodeRawToContainers` reads it. -/
def samplePatch : Container :=
  { Name := "compactor"
    Image := "other:2.0"
    ImagePullPolicy := ""
    Resources := ⟨none, none⟩
    Args := []
    Ports := []
    VolumeMounts := []
    LivenessProbe := none
    ReadinessProbe := none
    StartupProbe := none }

/-- The raw containers of the samples: one patch, for the container `compactor`. -/
def sampleRaw : RawExtension :=
  ⟨"[\x7b\"name\":\"compactor\",\"image\":\"other:2.0\"\x7d]"⟩

/-- A sample of `util.DecodeRawToContainers`, which knows the text of `sampleRaw`. -/
def sampleDecodeRawToContainers (raw : RawExtension) : Except String (List Container) :=
  if raw = sampleRaw then .ok [samplePatch] else .error "invalid character"

/-- A patch laid over a container of the same name: the fields the patch sets win. -/
def patchContainer (base patch : Container) : Container :=
  { base with
    Image := if patch.Image = "" then base.Image else patch.Image
    ImagePullPolicy :=
      if patch.ImagePullPolicy = "" then base.ImagePullPolicy else patch.ImagePullPolicy }

/-- A sample of `k8sutil.MergePatchContainers`: every base container is patched by the
patch of its name, and the patches without a base container follow. -/
def sampleMergePatchContainers (base patches : List Container) :
    Except String (List Container) :=
  .ok
    (base.map
        (fun b =>
          match patches.find? (fun p => p.Name = b.Name) with
          | some p => patchContainer b p
          | none => b) ++
      patches.filter (fun p => !(base.any fun b => b.Name = p.Name)))

/-- Sample constants and library functions of the builders. -/
def sampleBuildEnv : BuildEnv :=
  { LabelNameAppName := "app.kubernetes.io/name"
    LabelNameAppManagedBy := "app.kubernetes.io/managed-by"
    LabelDefaultContainer := "kubectl.kubernetes.io/default-container"
    ServiceNameSuffix := "-operated"
    DecodeRawToContainers := sampleDecodeRawToContainers
    MergePatchContainers := sampleMergePatchContainers }

/-- The component of `TestComponentStatefulSetBuild`. -/
def sampleComponent : Component :=
  { AppName := "compactor"
    Instance :=
      { Name := "comp"
        Namespace := "ns"
        UID := "uid"
        APIVersion := "monitoring.whizard.io/v1alpha1"
        Kind := "Compactor" }
    CommonSpec :=
      { Image := "comp:1.0"
        ImagePullPolicy := "IfNotPresent"
        Replicas := none
        Affinity := some ⟨""⟩
        Tolerations := some [⟨"key"⟩]
        NodeSelector := some ⟨[("disk", "ssd")]⟩
        Resources := ⟨none, none⟩
        LogLevel := ""
        LogFormat := ""
        Flags := none
        SecurityContext := some ⟨some 2000⟩
        ImagePullSecrets := [⟨"pull-secret"⟩]
        PodMetadata := some ⟨some ⟨[("pod", "label")]⟩, some ⟨[("pod", "anno")]⟩⟩
        Containers := ⟨""⟩ } }

/-- The sample component with a container patch that names another image. -/
def samplePatchedComponent : Component :=
  { sampleComponent with
    CommonSpec := { sampleComponent.CommonSpec with Containers := sampleRaw } }

/-- The sample component with pod labels that bind the key of the application name. -/
def sampleRelabelledComponent : Component :=
  { sampleComponent with
    CommonSpec :=
      { sampleComponent.CommonSpec with
        PodMetadata := some ⟨some ⟨[("app.kubernetes.io/name", "other")]⟩, none⟩ } }

/-- The pod template of the sample component. -/
def sampleTemplate : PodTemplateSpec :=
  (sampleComponent.makePodTemplate sampleBuildEnv).1

/-! ## The options of the controller manager -/

/-- Go `CommonOptions`. -/
structure CommonOptions where
  Image : String
  ImagePullPolicy : String
  Affinity : Option Affinity
  NodeSelector : Option StringMap
  Tolerations : Option (List Toleration)
  Resources : ResourceRequirements
  Replicas : Option Int
  LogLevel : String
  LogFormat : String
  Flags : Option (List String)
  deriving DecidableEq, Repr

/-- The test `r == nil || *r < 0` on a replica count. -/
def nilOrNegative (r : Option Int) : Bool :=
  match r with
  | none => true
  | some n => decide (n < 0)

/-- Go `CommonOptions.Override`, statement by statement. -/
def CommonOptions.Override (o : CommonOptions) (spec : CommonSpec) : CommonSpec :=
  let spec := if spec.Image = "" then { spec with Image := o.Image } else spec
  let spec :=
    if spec.ImagePullPolicy = "" then { spec with ImagePullPolicy := o.ImagePullPolicy }
    else spec
  let spec := if nilOrNegative spec.Replicas then { spec with Replicas := o.Replicas } else spec
  let spec := if spec.Affinity = none then { spec with Affinity := o.Affinity } else spec
  let spec := if spec.Tolerations = none then { spec with Tolerations := o.Tolerations } else spec
  let spec :=
    if spec.NodeSelector = none then { spec with NodeSelector := o.NodeSelector } else spec
  let spec :=
    if spec.Resources.Limits = none then
      { spec with Resources := { spec.Resources with Limits := o.Resources.Limits } }
    else spec
  let spec :=
    if spec.Resources.Requests = none then
      { spec with Resources := { spec.Resources with Requests := o.Resources.Requests } }
    else spec
  let spec := if spec.Replicas = none then { spec with Replicas := o.Replicas } else spec
  let spec := if spec.LogLevel = "" then { spec with LogLevel := o.LogLevel } else spec
  let spec := if spec.LogFormat = "" then { spec with LogFormat := o.LogFormat } else spec
  let spec := if spec.Flags = none then { spec with Flags := o.Flags } else spec
  spec

/-- Sample options, as `NewCommonOptions` makes them, with a log level. -/
def sampleOptions : CommonOptions :=
  { Image := "kubesphere/whizard:latest"
    ImagePullPolicy := ""
    Affinity := none
    NodeSelector := none
    Tolerations := none
    Resources := ⟨none, none⟩
    Replicas := some 1
    LogLevel := "info"
    LogFormat := ""
    Flags := none }

/-- The CommonSpec of the sample component with a negative replica count. -/
def sampleNegativeSpec : CommonSpec :=
  { sampleComponent.CommonSpec with Replicas := some (-1) }

/-! ## The defaults of a Thanos spec -/

/-- The type `CommonThanosFields` of the API package, with the fields the defaulter
reads. -/
structure CommonThanosFields where
  Image : String
  LogLevel : String
  LogFormat : String
  deriving DecidableEq, Repr

/-- The Envoy sidecar of the query component. -/
structure EnvoySpec where
  Image : String
  deriving DecidableEq, Repr

/-- The query component of a Thanos spec. -/
structure Query where
  CommonThanosFields : CommonThanosFields
  Replicas : Option Int
  Envoy : EnvoySpec
  deriving DecidableEq, Repr

/-- The router of the receive component. -/
structure ReceiveRouter where
  CommonThanosFields : CommonThanosFields
  Replicas : Option Int
  deriving DecidableEq, Repr

/-- An ingestor of the receive component. -/
structure ReceiveIngestor where
  Name : String
  CommonThanosFields : CommonThanosFields
  Replicas : Option Int
  deriving DecidableEq, Repr

/-- The receive component of a Thanos spec. -/
structure Receive where
  Router : ReceiveRouter
  Ingestors : List ReceiveIngestor
  deriving DecidableEq, Repr

/-- The store gateway of a Thanos spec. -/
structure StoreGateway where
  CommonThanosFields : CommonThanosFields
  Replicas : Option Int
  deriving DecidableEq, Repr

/-- The compactor of a Thanos spec. -/
structure Compact where
  CommonThanosFields : CommonThanosFields
  Replicas : Option Int
  deriving DecidableEq, Repr

/-- The type `ThanosSpec` of the API package; a component that is not configured is nil. -/
structure ThanosSpec where
  DefaultFields : CommonThanosFields
  Query : Option Query
  Receive : Option Receive
  StoreGateway : Option StoreGateway
  Compact : Option Compact
  deriving DecidableEq, Repr

/-- The two fields of `config.Config` that the defaulter reads. -/
structure Config where
  ThanosDefaultImage : String
  EnvoyDefaultImage : String
  deriving DecidableEq, Repr

/-- The closure `applyDefaultFields` of `CreateThanosDefaulterValidator`. -/
def applyDefaultFields (defaultFields fields : CommonThanosFields) : CommonThanosFields :=
  let fields := if fields.Image = "" then { fields with Image := defaultFields.Image } else fields
  let fields :=
    if fields.LogLevel = "" then { fields with LogLevel := defaultFields.LogLevel } else fields
  let fields :=
    if fields.LogFormat = "" then { fields with LogFormat := defaultFields.LogFormat } else fields
  fields

/-- The statement `if r == nil || *r < 0 { r = &replicas }`, where `replicas` is 1. -/
def defaultReplicas (r : Option Int) : Option Int :=
  if nilOrNegative r then some 1 else r

/-- The loop over the ingestors in `CreateThanosDefaulterValidator`: the ingestors
appended so far, or the error of the first ingestor without a name. -/
def defaultIngestors (defaultFields : CommonThanosFields) :
    List ReceiveIngestor → List ReceiveIngestor → Except String (List ReceiveIngestor)
  | [], ingestors => .ok ingestors
  | i :: rest, ingestors =>
    if i.Name = "" then .error "ingestor->name can not empty"
    else
      let ingestor :=
        { i with CommonThanosFields := applyDefaultFields defaultFields i.CommonThanosFields }
      let ingestor := { ingestor with Replicas := defaultReplicas ingestor.Replicas }
      defaultIngestors defaultFields rest (ingestors ++ [ingestor])

/-- The last two blocks of the validator: the store gateway and the compactor. -/
def defaultStoreAndCompact (spec : ThanosSpec) : ThanosSpec :=
  let spec :=
    match spec.StoreGateway with
    | none => spec
    | some s =>
      { spec with
        StoreGateway :=
          some
            { CommonThanosFields := applyDefaultFields spec.DefaultFields s.CommonThanosFields
              Replicas := defaultReplicas s.Replicas } }
  match spec.Compact with
  | none => spec
  | some c =>
    { spec with
      Compact :=
        some
          { CommonThanosFields := applyDefaultFields spec.DefaultFields c.CommonThanosFields
            Replicas := defaultReplicas c.Replicas } }

/-- The first two blocks of the validator: the default image and the query component. -/
def defaultQuery (cfg : Config) (spec : ThanosSpec) : ThanosSpec :=
  let spec :=
    if spec.DefaultFields.Image = "" then
      { spec with DefaultFields := { spec.DefaultFields with Image := cfg.ThanosDefaultImage } }
    else spec
  match spec.Query with
  | none => spec
  | some q =>
    { spec with
      Query :=
        some
          { CommonThanosFields := applyDefaultFields spec.DefaultFields q.CommonThanosFields
            Replicas := defaultReplicas q.Replicas
            Envoy := if q.Envoy.Image = "" then { q.Envoy with Image := cfg.EnvoyDefaultImage }
              else q.Envoy } }

/-- The function that `CreateThanosDefaulterValidator(cfg)` returns: the spec and the
error it returns. -/
def CreateThanosDefaulterValidator (cfg : Config) (spec : ThanosSpec) :
    ThanosSpec × Option String :=
  let spec := defaultQuery cfg spec
  match spec.Receive with
  | none => (defaultStoreAndCompact spec, none)
  | some r =>
    let router : ReceiveRouter :=
      { CommonThanosFields := applyDefaultFields spec.DefaultFields r.Router.CommonThanosFields
        Replicas := defaultReplicas r.Router.Replicas }
    match defaultIngestors spec.DefaultFields r.Ingestors [] with
    | .error err => ({ spec with Receive := some { r with Router := router } }, some err)
    | .ok ingestors =>
      (defaultStoreAndCompact
        { spec with Receive := some { Router := router, Ingestors := ingestors } }, none)

/-- The replica count the specification asks for: the input when that is set and not
negative, and 1 otherwise. -/
def expectedReplicas (r : Option Int) : Int :=
  match r with
  | some n => if 0 ≤ n then n else 1
  | none => 1

/-- A sample configuration of the controller manager. -/
def sampleConfig : Config :=
  { ThanosDefaultImage := "thanosio/thanos:v0.33.0"
    EnvoyDefaultImage := "envoyproxy/envoy:v1.20.2" }

/-- A sample ingestor with a name and a replica count. -/
def sampleIngestor (name : String) (replicas : Option Int) : ReceiveIngestor :=
  { Name := name
    CommonThanosFields := ⟨"", "", ""⟩
    Replicas := replicas }

/-- A sample Thanos spec: a query component, and a receive component with the given
ingestors. -/
def sampleThanosSpec (ingestors : List ReceiveIngestor) : ThanosSpec :=
  { DefaultFields := ⟨"", "info", ""⟩
    Query := some { CommonThanosFields := ⟨"", "", ""⟩, Replicas := some (-3), Envoy := ⟨""⟩ }
    Receive :=
      some
        { Router := { CommonThanosFields := ⟨"", "", ""⟩, Replicas := some 2 }
          Ingestors := ingestors }
    StoreGateway := none
    Compact := some { CommonThanosFields := ⟨"", "", ""⟩, Replicas := none } }

/-- The sample query request as a POST request whose form asks for the tenant `other`. -/
def samplePostHostileQuery (tenant : Option String) : Request :=
  sampleRequest "POST" "/tenant/api/v1/query" ""
    "query=%7B__name__%3D%22up%22%2Ctenant_id%3D%22other%22%7D" tenant

/-- The sample query request as a POST request whose form holds an expression that does
not parse. -/
def samplePostBadQuery (tenant : Option String) : Request :=
  sampleRequest "POST" "/tenant/api/v1/query" "" "query=%28" tenant

/-- A POST request to the query endpoint without a `query` parameter in the URL, whose
form is not a valid encoding. -/
def sampleBrokenForm (tenant : Option String) : Request :=
  sampleRequest "POST" "/tenant/api/v1/query" "" "%zz" tenant

/-- A POST request to the query endpoint with the expression in the URL and a form
that holds the matcher parameter only. -/
def samplePostUrlQuery (tenant : Option String) : Request :=
  sampleRequest "POST" "/tenant/api/v1/query" "query=up" "match[]=up" tenant

/-- The sample environment with an enforcement step that fails with the given error. -/
def sampleFailingEnv (err : EnforceError) : Env :=
  { sampleEnv with enforceQueryValues := fun _ _ => .error err }

/-! ## The admission registry: lemmas -/

theorem mem_hash_foldl (b acc : List String) (x : String) :
    x ∈ b.foldl (fun hash v => if v ∈ hash then hash else v :: hash) acc ↔ x ∈ acc ∨ x ∈ b := by
  induction b generalizing acc with
  | nil => simp
  | cons v b ih =>
    rw [List.foldl_cons, ih]
    by_cases hv : v ∈ acc
    · simp only [hv, if_true, List.mem_cons]
      constructor
      · rintro (h | h)
        · exact Or.inl h
        · exact Or.inr (Or.inr h)
      · rintro (h | h | h)
        · exact Or.inl h
        · exact Or.inl (h ▸ hv)
        · exact Or.inr h
    · simp only [hv, if_false, List.mem_cons]
      constructor
      · rintro ((h | h) | h)
        · exact Or.inr (Or.inl h)
        · exact Or.inl h
        · exact Or.inr (Or.inr h)
      · rintro (h | h | h)
        · exact Or.inl (Or.inr h)
        · exact Or.inl (Or.inl h)
        · exact Or.inr h

theorem mem_differenceHash (b : List String) (x : String) : x ∈ differenceHash b ↔ x ∈ b := by
  simp [differenceHash, mem_hash_foldl]

theorem difference_foldl (hash a acc : List String) :
    a.foldl (fun set v => if v ∈ hash then set else set ++ [v]) acc =
      acc ++ a.filter (fun v => decide (v ∉ hash)) := by
  induction a generalizing acc with
  | nil => simp
  | cons v a ih =>
    rw [List.foldl_cons, ih]
    by_cases hv : v ∈ hash
    · simp [hv]
    · simp [hv]

/-- The two loops of `difference` compute the filter of `a` by absence from `b`. -/
theorem difference_eq_filter (a b : List String) :
    difference a b = a.filter (fun v => decide (v ∉ b)) := by
  unfold difference
  rw [difference_foldl, List.nil_append]
  apply List.filter_congr
  intro x _
  simp [mem_differenceHash]

theorem mem_difference (a b : List String) (x : String) :
    x ∈ difference a b ↔ x ∈ a ∧ x ∉ b := by
  simp [difference_eq_filter]

theorem storeAll_Load (ts : List String) (m : SyncMap) (k : String) :
    (storeAll m ts).Load k = if k ∈ ts then some (.flag true) else m.Load k := by
  induction ts generalizing m with
  | nil => simp [storeAll]
  | cons t ts ih =>
    have h := ih (m.Store t (.flag true))
    simp only [storeAll, List.foldl_cons] at h ⊢
    rw [h]
    by_cases hk : k ∈ ts
    · simp [hk]
    · by_cases hkt : k = t
      · simp [hkt, SyncMap.Load, SyncMap.Store]
      · simp [hk, hkt, SyncMap.Load, SyncMap.Store]

theorem deleteAll_Load (ts : List String) (m : SyncMap) (k : String) :
    (deleteAll m ts).Load k = if k ∈ ts then none else m.Load k := by
  induction ts generalizing m with
  | nil => simp [deleteAll]
  | cons t ts ih =>
    have h := ih (m.Delete t)
    simp only [deleteAll, List.foldl_cons] at h ⊢
    rw [h]
    by_cases hk : k ∈ ts
    · simp [hk]
    · by_cases hkt : k = t
      · simp [hkt, SyncMap.Load, SyncMap.Delete]
      · simp [hk, hkt, SyncMap.Load, SyncMap.Delete]

theorem Store_Load (m : SyncMap) (k : String) (v : Stored) (k1 : String) :
    (m.Store k v).Load k1 = if k1 = k then some v else m.Load k1 := rfl

/-- The first reload of a fresh handler stores the list under the sentinel key and
every tenant of the list. -/
theorem first_reload (o : Options) (hen : o.EnabledTenantsAdmission = true)
    (old : List String) :
    (NewHandler o).SetAdmissionControlHandler ⟨old⟩ =
      some { NewHandler o with
        tenantsAdmissionMap := storeAll (SyncMap.empty.Store "/-/" (.tenants old)) old } := by
  simp [Handler.SetAdmissionControlHandler, NewHandler, hen, SyncMap.Load, SyncMap.empty]

/-- A reload of a handler whose sentinel key holds a tenant list applies the two
differences and then stores the new list. -/
theorem next_reload (h : Handler) (hen : h.options.EnabledTenantsAdmission = true)
    (tenants new : List String)
    (hs : h.tenantsAdmissionMap.Load "/-/" = some (.tenants tenants)) :
    h.SetAdmissionControlHandler ⟨new⟩ =
      some { h with
        tenantsAdmissionMap :=
          (deleteAll (storeAll h.tenantsAdmissionMap (difference new tenants))
            (difference tenants new)).Store "/-/" (.tenants new) } := by
  simp [Handler.SetAdmissionControlHandler, hen, hs]

/-! ## C1: admission after a reload -/

/-- C1, as stated, fails on the code: after the reloads `[]` and `[]` the lookup of the
sentinel key succeeds although the key is in neither list; and after a reload
whose list names the sentinel key, that key holds `true`, so that the next reload
panics on its type assertion. -/
theorem reload_sentinel_counterexample :
    (reloadTwice admissionOptions [] []).map (fun h => h.admits "/-/") = some true ∧
      "/-/" ∉ ([] : List String) ∧
      (reloadTwice admissionOptions ["/-/"] []).isNone = true := by
  decide

/-- C1, amended: with admission control enabled, for all tenant lists `old` and `new`
where `old` does not name the sentinel key, both reloads of a fresh handler succeed,
and afterwards the lookup of `t` succeeds if and only if `t` is in `new` or `t` is the
sentinel key. -/
theorem reload_admits_iff (o : Options) (hen : o.EnabledTenantsAdmission = true)
    (old new : List String) (hold : "/-/" ∉ old) (t : String) :
    ∃ h2, reloadTwice o old new = some h2 ∧
      (h2.admits t = true ↔ (t ∈ new ∨ t = "/-/")) := by
  have hs : (storeAll (SyncMap.empty.Store "/-/" (.tenants old)) old).Load "/-/" =
      some (.tenants old) := by
    rw [storeAll_Load]; simp [hold, Store_Load]
  have hre := next_reload
    { NewHandler o with
      tenantsAdmissionMap := storeAll (SyncMap.empty.Store "/-/" (.tenants old)) old }
    hen old new hs
  unfold reloadTwice
  rw [first_reload o hen old, Option.some_bind, hre]
  refine ⟨_, rfl, ?_⟩
  · simp only [Handler.admits, Store_Load, deleteAll_Load, storeAll_Load, mem_difference]
    by_cases ht : t = "/-/"
    · simp [ht]
    · by_cases hn : t ∈ new <;> by_cases ho : t ∈ old <;>
        simp [ht, hn, ho, SyncMap.Load, SyncMap.empty]

/-- C1, amended, at `old = ["a", "b"]`, `new = ["b", "c"]` and the removed tenant `a`. -/
theorem reload_admits_iff_witness :
    ∃ h2, reloadTwice admissionOptions ["a", "b"] ["b", "c"] = some h2 ∧
      (h2.admits "a" = true ↔ ("a" ∈ ["b", "c"] ∨ "a" = "/-/")) :=
  reload_admits_iff admissionOptions rfl ["a", "b"] ["b", "c"] (by decide) "a"

/-! ## The write fan-out: reduction of the results -/

/-- The reduction loop from any start: the code never decreases, bounds every result,
and is the start code or the code of a result. -/
theorem reduce_foldl (rs : List result) (acc : Int × Option String) :
    acc.1 ≤ (rs.foldl reduceStep acc).1 ∧
      (∀ r ∈ rs, r.code ≤ (rs.foldl reduceStep acc).1) ∧
      ((rs.foldl reduceStep acc).1 = acc.1 ∨ ∃ r ∈ rs, r.code = (rs.foldl reduceStep acc).1) := by
  induction rs generalizing acc with
  | nil => simp
  | cons r rs ih =>
    obtain ⟨h1, h2, h3⟩ := ih (reduceStep acc r)
    have hstep : acc.1 ≤ (reduceStep acc r).1 ∧ r.code ≤ (reduceStep acc r).1 ∧
        ((reduceStep acc r).1 = acc.1 ∨ (reduceStep acc r).1 = r.code) := by
      unfold reduceStep
      split <;> simp <;> omega
    simp only [List.foldl_cons, List.mem_cons, forall_eq_or_imp, exists_eq_or_imp]
    refine ⟨by omega, ⟨by omega, h2⟩, ?_⟩
    rcases h3 with h3 | h3
    · rcases hstep.2.2 with h4 | h4
      · left; omega
      · right; left; omega
    · right; right; exact h3

theorem httpError_valid (msg : String) (code : Int) (h1 : 100 ≤ code) (h2 : code ≤ 999) :
    httpError msg code = .respond code (msg ++ "\n") := by
  unfold httpError
  rw [if_neg (by omega)]

theorem writeHeader_valid (code : Int) (h1 : 100 ≤ code) (h2 : code ≤ 999) :
    writeHeader code = .respond code "" := by
  unfold writeHeader
  rw [if_neg (by omega)]

theorem httpError_invalid (msg : String) (code : Int) (h : code < 100 ∨ 999 < code) :
    httpError msg code = .panics := by
  unfold httpError
  rw [if_pos (by omega)]

theorem writeHeader_invalid (code : Int) (h : code < 100 ∨ 999 < code) :
    writeHeader code = .panics := by
  unfold writeHeader
  rw [if_pos (by omega)]

/-- The end of `ServeHTTP` writes the code it is given when `WriteHeader` accepts it,
and panics otherwise. -/
theorem writeReduced_status (acc : Int × Option String) :
    (100 ≤ acc.1 → acc.1 ≤ 999 → (writeReduced acc).status = some acc.1) ∧
      (acc.1 ≤ 0 → (writeReduced acc).status = some 204) ∧
      (0 < acc.1 → acc.1 < 100 ∨ 999 < acc.1 → writeReduced acc = .panics) := by
  unfold writeReduced
  refine ⟨fun h1 h2 => ?_, fun h0 => ?_, fun h0 hbad => ?_⟩
  · have hpos : ¬ acc.1 ≤ 0 := by omega
    simp only [hpos, if_false]
    cases acc.2 with
    | none => simp only [writeHeader_valid _ h1 h2, Outcome.status]
    | some e => simp only [httpError_valid _ _ h1 h2, Outcome.status]
  · simp only [h0, if_true]
    cases acc.2 <;> rfl
  · have hpos : ¬ acc.1 ≤ 0 := by omega
    simp only [hpos, if_false]
    cases acc.2 with
    | none => simp only [writeHeader_invalid _ hbad]
    | some e => simp only [httpError_invalid _ _ hbad]

theorem ServeHTTP_content (env : Env) (h : remoteWriteHandler) (req : Request) (body : String)
    (hne : h.writeClients ≠ []) (hb : req.Body = .content body) :
    h.ServeHTTP env req =
      writeReduced (reduceResults (fanoutResults env.canonicalHeaderKey h req body)) := by
  unfold remoteWriteHandler.ServeHTTP
  have : h.writeClients.length ≠ 0 := by simpa using hne
  simp [this, hb]

/-! ## C2: the maximum code wins -/

/-- C2, as stated, fails on the code: a single target whose result has the code 99, the
greatest and a positive one, leaves `ServeHTTP` without a response, since `WriteHeader`
panics for a code below 100; so does a target whose result has the code 1000. -/
theorem ServeHTTP_invalid_code_counterexample :
    remoteWriteHandler.ServeHTTP sampleEnv ⟨[sampleClient "a" 99 none], "WHIZARD-TENANT"⟩
        (sampleRequest "POST" "/api/v1/receive" "" "data" none) = .panics ∧
      (remoteWriteHandler.ServeHTTP sampleEnv ⟨[sampleClient "a" 99 none], "WHIZARD-TENANT"⟩
        (sampleRequest "POST" "/api/v1/receive" "" "data" none)).status = none ∧
      remoteWriteHandler.ServeHTTP sampleEnv
        ⟨[sampleClient "a" 200 none, sampleClient "b" 1000 (some "boom")], "WHIZARD-TENANT"⟩
        (sampleRequest "POST" "/api/v1/receive" "" "data" none) = .panics := by
  decide

/-- C2, amended: for a handler with at least one target and a readable body, when some
result has a positive code the reduction ends with the greatest code `m` among the
results; `ServeHTTP` writes the status `m` when `m` is a code `WriteHeader` accepts
(100 to 999), and panics without a response when it is not. When no result has a
positive code, `ServeHTTP` writes the status 204. -/
theorem ServeHTTP_responds_max (env : Env) (h : remoteWriteHandler) (req : Request)
    (body : String) (hne : h.writeClients ≠ []) (hb : req.Body = .content body) :
    ((∃ r ∈ fanoutResults env.canonicalHeaderKey h req body, 0 < r.code) →
      ∃ m, (∃ r ∈ fanoutResults env.canonicalHeaderKey h req body, r.code = m) ∧
        (∀ r ∈ fanoutResults env.canonicalHeaderKey h req body, r.code ≤ m) ∧
        (100 ≤ m → m ≤ 999 → (h.ServeHTTP env req).status = some m) ∧
        (m < 100 ∨ 999 < m → h.ServeHTTP env req = .panics)) ∧
      ((∀ r ∈ fanoutResults env.canonicalHeaderKey h req body, r.code ≤ 0) →
        (h.ServeHTTP env req).status = some 204) := by
  rw [ServeHTTP_content env h req body hne hb]
  obtain ⟨h1, h2, h3⟩ := reduce_foldl (fanoutResults env.canonicalHeaderKey h req body) (0, none)
  obtain ⟨hvalid, hzero, hbad⟩ :=
    writeReduced_status (reduceResults (fanoutResults env.canonicalHeaderKey h req body))
  constructor
  · rintro ⟨r, hr, hpos⟩
    have hle := h2 r hr
    have hpos2 : 0 < (reduceResults (fanoutResults env.canonicalHeaderKey h req body)).1 := by
      unfold reduceResults; omega
    refine ⟨_, ?_, h2, hvalid, hbad hpos2⟩
    rcases h3 with h3 | h3
    · exfalso
      unfold reduceResults at hpos2
      simp at h3
      omega
    · exact h3
  · intro hall
    apply hzero
    unfold reduceResults
    rcases h3 with h3 | ⟨r, hr, h3⟩
    · simp at h3; omega
    · have := hall r hr; omega

/-- C2, amended, at two targets answering 200 and 503: the status written is 503. -/
theorem ServeHTTP_responds_max_witness :
    (remoteWriteHandler.ServeHTTP sampleEnv
        ⟨[sampleClient "a" 200 none, sampleClient "b" 503 (some "unavailable")], "WHIZARD-TENANT"⟩
        (sampleRequest "POST" "/api/v1/receive" "" "data" none)).status = some 503 := by
  obtain ⟨m, ⟨r, hr, hc⟩, hle, hs, _⟩ := (ServeHTTP_responds_max sampleEnv
    ⟨[sampleClient "a" 200 none, sampleClient "b" 503 (some "unavailable")], "WHIZARD-TENANT"⟩
    (sampleRequest "POST" "/api/v1/receive" "" "data" none) "data"
    (List.cons_ne_nil _ _) rfl).1
    ⟨⟨503, some "forwarding request to endpoint b: unavailable"⟩,
      by simp [fanoutResults, sampleClient, wrapResult], by decide⟩
  have h503 := hle ⟨503, some "forwarding request to endpoint b: unavailable"⟩
    (by simp [fanoutResults, sampleClient, wrapResult])
  simp [fanoutResults, sampleClient, wrapResult] at hr
  simp only at h503
  have hm : m = 503 := by
    rcases hr with hr | hr
    · subst hr
      simp only at hc
      omega
    · subst hr
      simp only at hc
      omega
  subst hm
  exact hs (by decide) (by decide)

/-- The examples of C2, evaluated: codes 200, 500, 204 give 500; 200, 200 give 200;
200, 503 give 503; and codes without a positive one give 204. -/
theorem ServeHTTP_examples :
    (remoteWriteHandler.ServeHTTP sampleEnv
        ⟨[sampleClient "a" 200 none, sampleClient "b" 500 (some "boom"), sampleClient "c" 204 none],
          "WHIZARD-TENANT"⟩
        (sampleRequest "POST" "/api/v1/receive" "" "data" none)).status = some 500 ∧
      (remoteWriteHandler.ServeHTTP sampleEnv
        ⟨[sampleClient "a" 200 none, sampleClient "b" 200 none], "WHIZARD-TENANT"⟩
        (sampleRequest "POST" "/api/v1/receive" "" "data" none)).status = some 200 ∧
      (remoteWriteHandler.ServeHTTP sampleEnv
        ⟨[sampleClient "a" 200 none, sampleClient "b" 503 (some "unavailable")], "WHIZARD-TENANT"⟩
        (sampleRequest "POST" "/api/v1/receive" "" "data" none)).status = some 503 ∧
      (remoteWriteHandler.ServeHTTP sampleEnv
        ⟨[sampleClient "a" 0 (some "refused"), sampleClient "b" (-1) none], "WHIZARD-TENANT"⟩
        (sampleRequest "POST" "/api/v1/receive" "" "data" none)).status = some 204 := by
  decide

/-! ## C3: no targets -/

/-- C3, as stated, fails on the code: without targets `ServeHTTP` returns at its first
guard and writes no status code, 204 or other. -/
theorem ServeHTTP_no_targets_counterexample :
    remoteWriteHandler.ServeHTTP sampleEnv ⟨[], "WHIZARD-TENANT"⟩
        (sampleRequest "POST" "/api/v1/receive" "" "data" none) = .silent ∧
      (remoteWriteHandler.ServeHTTP sampleEnv ⟨[], "WHIZARD-TENANT"⟩
        (sampleRequest "POST" "/api/v1/receive" "" "data" none)).status ≠ some 204 := by
  decide

/-- C3, amended: without targets `ServeHTTP` returns without writing a status code or a
body, whatever the request; 204 is what the reduction writes for an empty list of
results, which the handler only reaches with at least one target. -/
theorem ServeHTTP_no_targets (env : Env) (h : remoteWriteHandler) (req : Request)
    (hnil : h.writeClients = []) :
    h.ServeHTTP env req = .silent ∧ (h.ServeHTTP env req).status = none ∧
      writeReduced (reduceResults []) = writeHeader 204 := by
  have hs : h.ServeHTTP env req = .silent := by
    simp [remoteWriteHandler.ServeHTTP, hnil]
  rw [hs]
  exact ⟨rfl, rfl, rfl⟩

/-- C3, amended, at a handler without targets. -/
theorem ServeHTTP_no_targets_witness :
    remoteWriteHandler.ServeHTTP sampleEnv ⟨[], "WHIZARD-TENANT"⟩
        (sampleRequest "POST" "/api/v1/receive" "" "data" none) = .silent ∧
      (remoteWriteHandler.ServeHTTP sampleEnv ⟨[], "WHIZARD-TENANT"⟩
        (sampleRequest "POST" "/api/v1/receive" "" "data" none)).status = none ∧
      writeReduced (reduceResults []) = writeHeader 204 :=
  ServeHTTP_no_targets sampleEnv ⟨[], "WHIZARD-TENANT"⟩
    (sampleRequest "POST" "/api/v1/receive" "" "data" none) rfl

/-! ## The tenant handlers: when a request reaches an upstream -/

theorem enforceErrorResponse_ne_forward (err : EnforceError) (u : Upstream) (r : Request) :
    enforceErrorResponse err ≠ .forward u r := by
  cases err <;> simp [enforceErrorResponse, httpError]

/-- The tenant checks hand over to the rest of the handler only for a resolved tenant
the registry does not reject. -/
theorem withTenant_forward (h : Handler) (req : Request) (next : RequestInfo → Outcome)
    (u : Upstream) (r : Request) (hw : h.withTenant req next = .forward u r) :
    ∃ ri, req.requestInfo = some ri ∧ ri.TenantId ≠ "" ∧ h.rejects ri.TenantId = false ∧
      next ri = .forward u r := by
  unfold Handler.withTenant at hw
  cases hri : req.requestInfo with
  | none => simp [hri, httpNotFound, httpError] at hw
  | some ri =>
    simp only [hri] at hw
    by_cases ht : ri.TenantId = ""
    · simp [ht, httpNotFound, httpError] at hw
    · by_cases hr : h.rejects ri.TenantId = true
      · simp [ht, hr, forbidden, httpError] at hw
      · simp only [ht, hr, if_false] at hw
        exact ⟨ri, rfl, ht, by simpa using hr, hw⟩

theorem withTenant_admitted (h : Handler) (req : Request) (next : RequestInfo → Outcome)
    (ri : RequestInfo) (hri : req.requestInfo = some ri) (ht : ri.TenantId ≠ "")
    (hr : h.rejects ri.TenantId = false) : h.withTenant req next = next ri := by
  simp [Handler.withTenant, hri, ht, hr]

theorem withTenant_rejected (h : Handler) (req : Request) (next : RequestInfo → Outcome)
    (ri : RequestInfo) (hri : req.requestInfo = some ri) (ht : ri.TenantId ≠ "")
    (hr : h.rejects ri.TenantId = true) : h.withTenant req next = forbidden ri.TenantId := by
  simp [Handler.withTenant, hri, ht, hr]

theorem withTenant_unresolved (h : Handler) (req : Request) (next : RequestInfo → Outcome)
    (hno : unresolved req) : h.withTenant req next = httpNotFound := by
  rcases hno with hno | ⟨ri, hri, ht⟩
  · simp [Handler.withTenant, hno]
  · simp [Handler.withTenant, hri, ht]

theorem queryEnforced_forward (env : Env) (h : Handler) (req : Request) (query : Values)
    (postForm : Option Values) (ri : RequestInfo) (u : Upstream) (r : Request)
    (hq : h.queryEnforced env req query postForm ri = .forward u r) :
    u = .queryProxy ∧ r.requestInfo = req.requestInfo := by
  unfold Handler.queryEnforced at hq
  cases h1 : env.enforceQueryValues (NewEnforcer false [tenantMatcher h ri]) query with
  | error err => simp [h1, enforceErrorResponse_ne_forward] at hq
  | ok qf =>
    obtain ⟨q, found⟩ := qf
    cases postForm with
    | none =>
      simp only [h1, Outcome.forward.injEq] at hq
      obtain ⟨hu, hr⟩ := hq
      subst hr
      refine ⟨hu.symm, ?_⟩
      cases found <;> simp
    | some form =>
      cases h2 : env.enforceQueryValues (NewEnforcer false [tenantMatcher h ri]) form with
      | error err => simp [h1, h2, enforceErrorResponse_ne_forward] at hq
      | ok qf2 =>
        obtain ⟨q2, found2⟩ := qf2
        simp only [h1, h2, Outcome.forward.injEq] at hq
        obtain ⟨hu, hr⟩ := hq
        subst hr
        refine ⟨hu.symm, ?_⟩
        cases found <;> cases found2 <;> simp

/-- The form of a POST request is the parsed one; any other request has none. -/
theorem postFormOf_method (env : Env) (req : Request) :
    (req.Method ≠ "POST" → postFormOf env req = .ok none) ∧
      (∀ form, req.Method = "POST" → env.parseForm req = .ok form →
        postFormOf env req = .ok (some form)) ∧
      (∀ e, req.Method = "POST" → env.parseForm req = .error e →
        postFormOf env req = .error e) := by
  unfold postFormOf
  refine ⟨fun hm => ?_, fun form hm hf => ?_, fun e hm hf => ?_⟩
  · rw [if_neg hm]
  · rw [if_pos hm, hf]
  · rw [if_pos hm, hf]

theorem parsedRequest_requestInfo (env : Env) (req : Request) :
    (parsedRequest env req).requestInfo = req.requestInfo := by
  unfold parsedRequest
  split <;> rfl

theorem query_forward (env : Env) (h : Handler) (req r : Request) (u : Upstream)
    (hq : h.query env req = .forward u r) :
    ∃ ri, req.requestInfo = some ri ∧ ri.TenantId ≠ "" ∧ h.rejects ri.TenantId = false ∧
      ∃ postForm, postFormOf env req = .ok postForm ∧
        h.queryEnforced env (parsedRequest env req) (env.urlQuery req.RawQuery) postForm ri =
          .forward u r := by
  unfold Handler.query at hq
  cases hp : h.queryProxy with
  | none => simp [hp, httpError] at hq
  | some p =>
    cases hf : postFormOf env req with
    | error e => simp [hp, hf, httpError] at hq
    | ok postForm =>
      simp only [hp, hf] at hq
      split at hq
      · simp at hq
      · obtain ⟨ri, h1, h2, h3, h4⟩ := withTenant_forward h req _ u r hq
        exact ⟨ri, h1, h2, h3, postForm, rfl, h4⟩

theorem route_forward (h : Handler) (req r : Request) (u : Upstream)
    (hr : h.route req = .forward u r) : r = req := by
  unfold Handler.route at hr
  split at hr <;> simp at hr <;> exact hr.2.symm

theorem matcherInjected_forward (env : Env) (h : Handler) (mp : String) (req r : Request)
    (ri : RequestInfo) (u : Upstream)
    (hm : h.matcherInjected env mp req ri = .forward u r) :
    r.requestInfo = req.requestInfo := by
  unfold Handler.matcherInjected at hm
  cases h1 : env.injectMatcher (env.urlQuery req.RawQuery) (tenantMatcher h ri) mp with
  | error e => simp [h1] at hm
  | ok q =>
    simp only [h1] at hm
    split at hm
    · split at hm
      · simp at hm
      · split at hm
        · simp at hm
        · rw [route_forward h _ r u hm]
    · rw [route_forward h _ r u hm]

theorem matcher_forward (env : Env) (h : Handler) (mp : String) (req r : Request) (u : Upstream)
    (hm : h.matcher env mp req = .forward u r) :
    ∃ ri, req.requestInfo = some ri ∧ ri.TenantId ≠ "" ∧ h.rejects ri.TenantId = false ∧
      h.matcherInjected env mp req ri = .forward u r := by
  unfold Handler.matcher at hm
  cases hp : h.queryProxy with
  | none => simp [hp, httpError] at hm
  | some p =>
    simp only [hp] at hm
    exact withTenant_forward h req _ u r hm

theorem remoteWrite_forward (env : Env) (h : Handler) (req r : Request) (u : Upstream)
    (hw : h.remoteWrite env req = .forward u r) :
    ∃ ri, req.requestInfo = some ri ∧ ri.TenantId ≠ "" ∧ h.rejects ri.TenantId = false ∧
      u = .remoteWriteHander ∧
      r = { req with
        Header := req.Header.Set env.canonicalHeaderKey h.options.TenantHeader ri.TenantId } := by
  unfold Handler.remoteWrite at hw
  cases hp : h.remoteWriteHander with
  | none => simp [hp, httpError] at hw
  | some p =>
    simp only [hp] at hw
    obtain ⟨ri, h1, h2, h3, h4⟩ := withTenant_forward h req _ u r hw
    simp only [Outcome.forward.injEq] at h4
    exact ⟨ri, h1, h2, h3, h4.1.symm, h4.2.symm⟩

theorem not_rejects (h : Handler) (t : String) (hr : h.rejects t = false)
    (hen : h.options.EnabledTenantsAdmission = true) :
    (h.tenantsAdmissionMap.Load t).isSome = true := by
  unfold Handler.rejects at hr
  simp [hen] at hr
  cases hl : h.tenantsAdmissionMap.Load t with
  | none => simp [hl] at hr
  | some v => rfl

theorem rejects_of_not_loaded (h : Handler) (t : String)
    (hen : h.options.EnabledTenantsAdmission = true)
    (hna : h.tenantsAdmissionMap.Load t = none) : h.rejects t = true := by
  simp [Handler.rejects, hen, hna]

/-- The query handler does not reach its upstream when every resolved tenant of the
request is rejected. -/
theorem query_not_forward_of (env : Env) (h : Handler) (req : Request)
    (hno : ∀ ri, req.requestInfo = some ri → ri.TenantId ≠ "" → h.rejects ri.TenantId = true) :
    (h.query env req).invokesUpstream = false := by
  cases hq : h.query env req with
  | respond c b => rfl
  | silent => rfl
  | panics => rfl
  | forward u r =>
    obtain ⟨ri, h1, h2, h3, _⟩ := query_forward env h req r u hq
    have := hno ri h1 h2
    simp [h3] at this

/-- Past its first guards the query handler is the tenant checks followed by
enforcement. -/
theorem query_present (env : Env) (h : Handler) (req : Request) (p : ReverseProxy)
    (hp : h.queryProxy = some p) (postForm : Option Values)
    (hf : postFormOf env req = .ok postForm)
    (hq : ¬ ((env.urlQuery req.RawQuery).Get queryParam = "" ∧ getOrNil postForm queryParam = "")) :
    h.query env req =
      h.withTenant req fun requestInfo =>
        h.queryEnforced env (parsedRequest env req) (env.urlQuery req.RawQuery) postForm
          requestInfo := by
  unfold Handler.query
  simp only [hp, hf]
  rw [if_neg hq]

/-! ## C4: an upstream only sees a resolved, admitted tenant -/

/-- C4: whenever `query`, `matcher` or `remoteWrite` hands the request to its upstream,
the context of the request (and of the request handed over) carries a RequestInfo with
a non-empty TenantId, and with admission control enabled that TenantId is a key of the
admission registry. -/
theorem upstream_needs_admitted_tenant (env : Env) (h : Handler) (matchersParam : String)
    (req r : Request) (u : Upstream)
    (hfw : h.query env req = .forward u r ∨ h.matcher env matchersParam req = .forward u r ∨
      h.remoteWrite env req = .forward u r) :
    ∃ ri, req.requestInfo = some ri ∧ r.requestInfo = some ri ∧ ri.TenantId ≠ "" ∧
      (h.options.EnabledTenantsAdmission = true →
        (h.tenantsAdmissionMap.Load ri.TenantId).isSome = true) := by
  rcases hfw with hq | hm | hw
  · obtain ⟨ri, h1, h2, h3, pf, _, h5⟩ := query_forward env h req r u hq
    have h6 := (queryEnforced_forward env h _ _ pf ri u r h5).2
    rw [parsedRequest_requestInfo] at h6
    exact ⟨ri, h1, h6.trans h1, h2, not_rejects h _ h3⟩
  · obtain ⟨ri, h1, h2, h3, h4⟩ := matcher_forward env h matchersParam req r u hm
    have h6 := matcherInjected_forward env h matchersParam req r ri u h4
    exact ⟨ri, h1, h6.trans h1, h2, not_rejects h _ h3⟩
  · obtain ⟨ri, h1, h2, h3, _, h5⟩ := remoteWrite_forward env h req r u hw
    subst h5
    exact ⟨ri, h1, h1, h2, not_rejects h _ h3⟩

/-- C4 at the sample query of the admitted tenant `acme`, which reaches the query
upstream. -/
theorem upstream_needs_admitted_tenant_witness :
    sampleHandler.query sampleEnv (sampleQuery (some "acme")) =
        .forward .queryProxy
          { sampleQuery (some "acme") with
            RawQuery := "query=%7B__name__%3D%22up%22%2Ctenant_id%3D%22acme%22%7D" } ∧
      ∃ ri, (sampleQuery (some "acme")).requestInfo = some ri ∧
        ({ sampleQuery (some "acme") with
            RawQuery := "query=%7B__name__%3D%22up%22%2Ctenant_id%3D%22acme%22%7D" } :
          Request).requestInfo = some ri ∧
        ri.TenantId ≠ "" ∧
        (sampleHandler.options.EnabledTenantsAdmission = true →
          (sampleHandler.tenantsAdmissionMap.Load ri.TenantId).isSome = true) :=
  ⟨by decide,
    upstream_needs_admitted_tenant sampleEnv sampleHandler "match[]" (sampleQuery (some "acme"))
      { sampleQuery (some "acme") with
        RawQuery := "query=%7B__name__%3D%22up%22%2Ctenant_id%3D%22acme%22%7D" }
      .queryProxy (Or.inl (by decide))⟩

/-! ## C5: a tenant the registry does not know -/

/-- C5, as stated, fails on the code: with the query upstream configured and admission
control enabled, the query handler answers a request of the unadmitted tenant `evil`
that carries no `query` parameter by returning without writing anything, not with 403. -/
theorem query_unadmitted_counterexample :
    sampleHandler.queryProxy.isSome = true ∧
      sampleHandler.options.EnabledTenantsAdmission = true ∧
      (sampleEmptyQuery (some "evil")).requestInfo = some ⟨"evil"⟩ ∧
      sampleHandler.tenantsAdmissionMap.Load "evil" = none ∧
      sampleHandler.query sampleEnv (sampleEmptyQuery (some "evil")) = .silent ∧
      (sampleHandler.query sampleEnv (sampleEmptyQuery (some "evil"))).status ≠ some 403 := by
  decide

/-- C5, amended: with admission control enabled and a resolved non-empty TenantId that
is not a key of the registry, `matcher` and `remoteWrite` with their upstream
configured answer 403 without invoking it; `query` with its upstream configured never
invokes it, and answers 403 when the request is past the guards that come first (the
form of a POST request parses and the `query` parameter is not empty). -/
theorem unadmitted_tenant_forbidden (env : Env) (h : Handler) (matchersParam : String)
    (req : Request) (ri : RequestInfo)
    (hen : h.options.EnabledTenantsAdmission = true)
    (hri : req.requestInfo = some ri) (hne : ri.TenantId ≠ "")
    (hna : h.tenantsAdmissionMap.Load ri.TenantId = none) :
    (h.queryProxy.isSome = true →
      h.matcher env matchersParam req = forbidden ri.TenantId ∧
      (h.query env req).invokesUpstream = false ∧
      (queryPresent env req → h.query env req = forbidden ri.TenantId)) ∧
    (h.remoteWriteHander.isSome = true → h.remoteWrite env req = forbidden ri.TenantId) ∧
    (forbidden ri.TenantId).status = some 403 ∧
    (forbidden ri.TenantId).invokesUpstream = false := by
  have hr := rejects_of_not_loaded h ri.TenantId hen hna
  refine ⟨?_, ?_, rfl, rfl⟩
  · intro hp
    obtain ⟨p, hp⟩ := Option.isSome_iff_exists.mp hp
    refine ⟨?_, ?_, ?_⟩
    · unfold Handler.matcher
      simp only [hp]
      exact withTenant_rejected h req _ ri hri hne hr
    · apply query_not_forward_of
      intro ri2 h2 _
      rw [hri] at h2
      cases h2
      exact hr
    · rintro ⟨postForm, hf, hq⟩
      rw [query_present env h req p hp postForm hf hq]
      exact withTenant_rejected h req _ ri hri hne hr
  · intro hp
    obtain ⟨p, hp⟩ := Option.isSome_iff_exists.mp hp
    unfold Handler.remoteWrite
    simp only [hp]
    exact withTenant_rejected h req _ ri hri hne hr

/-- C5, amended, at the sample query of the unadmitted tenant `evil`: each of the three
handlers answers with the 403 response. -/
theorem unadmitted_tenant_forbidden_witness :
    sampleHandler.matcher sampleEnv "match[]" (sampleQuery (some "evil")) = forbidden "evil" ∧
      sampleHandler.query sampleEnv (sampleQuery (some "evil")) = forbidden "evil" ∧
      sampleHandler.remoteWrite sampleEnv (sampleQuery (some "evil")) = forbidden "evil" ∧
      (forbidden "evil").status = some 403 :=
  have t := unadmitted_tenant_forbidden sampleEnv sampleHandler "match[]"
    (sampleQuery (some "evil")) ⟨"evil"⟩ rfl rfl (by decide) (by decide)
  ⟨(t.1 rfl).1, (t.1 rfl).2.2 ⟨none, rfl, by decide⟩, t.2.1 rfl, t.2.2.1⟩

/-! ## C6: no resolved tenant -/

/-- C6, as stated, fails on the code: with the query upstream configured, the query
handler answers a request without RequestInfo that carries no `query` parameter by
returning without writing anything, not with 404. -/
theorem query_unresolved_counterexample :
    sampleHandler.queryProxy.isSome = true ∧
      (sampleEmptyQuery none).requestInfo = none ∧
      sampleHandler.query sampleEnv (sampleEmptyQuery none) = .silent ∧
      (sampleHandler.query sampleEnv (sampleEmptyQuery none)).status ≠ some 404 := by
  decide

/-- C6, amended: for a request whose context has no RequestInfo or an empty TenantId,
`matcher` and `remoteWrite` with their upstream configured answer 404 without invoking
it; `query` with its upstream configured never invokes it, and answers 404 when the
request is past the guards that come first (the form of a POST request parses and the
`query` parameter is not empty). -/
theorem unresolved_tenant_not_found (env : Env) (h : Handler) (matchersParam : String)
    (req : Request) (hno : unresolved req) :
    (h.queryProxy.isSome = true →
      h.matcher env matchersParam req = httpNotFound ∧
      (h.query env req).invokesUpstream = false ∧
      (queryPresent env req → h.query env req = httpNotFound)) ∧
    (h.remoteWriteHander.isSome = true → h.remoteWrite env req = httpNotFound) ∧
    httpNotFound.status = some 404 ∧
    httpNotFound.invokesUpstream = false := by
  refine ⟨?_, ?_, rfl, rfl⟩
  · intro hp
    obtain ⟨p, hp⟩ := Option.isSome_iff_exists.mp hp
    refine ⟨?_, ?_, ?_⟩
    · unfold Handler.matcher
      simp only [hp]
      exact withTenant_unresolved h req _ hno
    · apply query_not_forward_of
      intro ri h1 h2
      rcases hno with hno | ⟨ri2, h3, h4⟩
      · rw [hno] at h1; cases h1
      · rw [h3] at h1; cases h1; exact absurd h4 h2
    · rintro ⟨postForm, hf, hq⟩
      rw [query_present env h req p hp postForm hf hq]
      exact withTenant_unresolved h req _ hno
  · intro hp
    obtain ⟨p, hp⟩ := Option.isSome_iff_exists.mp hp
    unfold Handler.remoteWrite
    simp only [hp]
    exact withTenant_unresolved h req _ hno

/-- C6, amended, at the sample query without RequestInfo: each of the three handlers
answers with the 404 response. -/
theorem unresolved_tenant_not_found_witness :
    sampleHandler.matcher sampleEnv "match[]" (sampleQuery none) = httpNotFound ∧
      sampleHandler.query sampleEnv (sampleQuery none) = httpNotFound ∧
      sampleHandler.remoteWrite sampleEnv (sampleQuery none) = httpNotFound ∧
      httpNotFound.status = some 404 :=
  have t := unresolved_tenant_not_found sampleEnv sampleHandler "match[]"
    (sampleQuery none) (Or.inl rfl)
  ⟨(t.1 rfl).1, (t.1 rfl).2.2 ⟨none, rfl, by decide⟩, t.2.1 rfl, t.2.2.1⟩

/-! ## C7: no upstream -/

/-- C7: without the query upstream `query` and `matcher` answer every request with 406,
and without the write handler `remoteWrite` answers every request with 406, whatever
the tenant, the registry and the parameters. -/
theorem unconfigured_not_acceptable (env : Env) (h : Handler) (matchersParam : String)
    (req : Request) :
    (h.queryProxy = none →
      (h.query env req).status = some 406 ∧ (h.matcher env matchersParam req).status = some 406) ∧
    (h.remoteWriteHander = none → (h.remoteWrite env req).status = some 406) := by
  refine ⟨fun hp => ⟨?_, ?_⟩, fun hp => ?_⟩
  · simp [Handler.query, hp, httpError, Outcome.status]
  · simp [Handler.matcher, hp, httpError, Outcome.status]
  · simp [Handler.remoteWrite, hp, httpError, Outcome.status]

/-- C7 at a handler without upstreams and the sample query of an admitted tenant. -/
theorem unconfigured_not_acceptable_witness :
    (bareHandler.query sampleEnv (sampleQuery (some "acme"))).status = some 406 ∧
      (bareHandler.matcher sampleEnv "match[]" (sampleQuery (some "acme"))).status = some 406 ∧
      (bareHandler.remoteWrite sampleEnv (sampleQuery (some "acme"))).status = some 406 :=
  have t := unconfigured_not_acceptable sampleEnv bareHandler "match[]" (sampleQuery (some "acme"))
  ⟨(t.1 rfl).1, (t.1 rfl).2, t.2 rfl⟩

/-! ## What the handlers hand to the upstream -/

theorem queryEnforced_shape (env : Env) (h : Handler) (req : Request) (query : Values)
    (postForm : Option Values) (ri : RequestInfo) (u : Upstream) (r : Request)
    (hq : h.queryEnforced env req query postForm ri = .forward u r) :
    ∃ q found,
      env.enforceQueryValues (NewEnforcer false [tenantMatcher h ri]) query = .ok (q, found) ∧
      (found = true → r.RawQuery = q) ∧
      ∀ form, postForm = some form → ∃ q2 found2,
        env.enforceQueryValues (NewEnforcer false [tenantMatcher h ri]) form = .ok (q2, found2) ∧
        (found2 = true → r.Body = .content q2 ∧ r.ContentLength = (len q2 : Int)) := by
  unfold Handler.queryEnforced at hq
  cases h1 : env.enforceQueryValues (NewEnforcer false [tenantMatcher h ri]) query with
  | error err => simp [h1, enforceErrorResponse_ne_forward] at hq
  | ok qf =>
    obtain ⟨q, found⟩ := qf
    refine ⟨q, found, rfl, ?_⟩
    cases postForm with
    | none =>
      simp only [h1, Outcome.forward.injEq] at hq
      obtain ⟨_, hr⟩ := hq
      subst hr
      refine ⟨fun hf => by simp [hf], fun form hform => by cases hform⟩
    | some form =>
      cases h2 : env.enforceQueryValues (NewEnforcer false [tenantMatcher h ri]) form with
      | error err => simp [h1, h2, enforceErrorResponse_ne_forward] at hq
      | ok qf2 =>
        obtain ⟨q2, found2⟩ := qf2
        simp only [h1, h2, Outcome.forward.injEq] at hq
        obtain ⟨_, hr⟩ := hq
        subst hr
        refine ⟨fun hf => ?_, fun form1 hform => ?_⟩
        · subst hf
          cases found2 <;> simp
        · cases hform
          refine ⟨q2, found2, h2, fun hf => ?_⟩
          subst hf
          simp

theorem matcherInjected_shape (env : Env) (h : Handler) (mp : String) (req r : Request)
    (ri : RequestInfo) (u : Upstream)
    (hm : h.matcherInjected env mp req ri = .forward u r) :
    ∃ q, env.injectMatcher (env.urlQuery req.RawQuery) (tenantMatcher h ri) mp = .ok q ∧
      r.RawQuery = q.Encode ∧
      (req.Method = "POST" → ∃ form q2,
        env.parseForm { req with RawQuery := q.Encode } = .ok form ∧
        env.injectMatcher form (tenantMatcher h ri) mp = .ok q2 ∧
        r.Body = .content q2.Encode ∧ r.ContentLength = (q2.len : Int)) := by
  unfold Handler.matcherInjected at hm
  cases h1 : env.injectMatcher (env.urlQuery req.RawQuery) (tenantMatcher h ri) mp with
  | error e => simp [h1] at hm
  | ok q =>
    refine ⟨q, rfl, ?_⟩
    simp only [h1] at hm
    by_cases hpost : req.Method = "POST"
    · rw [if_pos hpost] at hm
      cases h2 : env.parseForm { req with RawQuery := q.Encode } with
      | error e => simp [h2] at hm
      | ok form =>
        simp only [h2] at hm
        cases h3 : env.injectMatcher form (tenantMatcher h ri) mp with
        | error e => simp [h3] at hm
        | ok q2 =>
          simp only [h3] at hm
          have hr := route_forward h _ r u hm
          subst hr
          exact ⟨rfl, fun _ => ⟨form, q2, rfl, h3, rfl, rfl⟩⟩
    · rw [if_neg hpost] at hm
      have hr := route_forward h _ r u hm
      subst hr
      exact ⟨rfl, fun hp => absurd hp hpost⟩

/-- A POST request with the expression in the URL and no expression in the form: the
form was parsed, so the body handed to the upstream is what parsing left of it (nothing,
for the form-encoded sample), under the ContentLength of the request; the body is
rebuilt only when the form holds an expression. -/
theorem query_post_body_after_parse :
    sampleHandler.query sampleEnv (samplePostUrlQuery (some "acme")) =
      .forward .queryProxy
        { samplePostUrlQuery (some "acme") with
          RawQuery := "query=%7B__name__%3D%22up%22%2Ctenant_id%3D%22acme%22%7D"
          Body := .content ""
          ContentLength := 10 } := by
  decide

/-! ## C8: body and length header of a rewritten POST request -/

/-- C8, evaluated on the code at the sample series request `POST` with the form
`match[]=up` of the admitted tenant `acme`: the request handed to the query upstream
has the encoded, enforced form as its new body, 62 bytes long, and the ContentLength 1,
the number of keys of the form. -/
theorem matcher_post_content_length :
    sampleHandler.matcher sampleEnv "match[]" (sampleSeries (some "acme")) =
        .forward .queryProxy
          { sampleSeries (some "acme") with
            RawQuery := "match%5B%5D=%7Btenant_id%3D%22acme%22%7D"
            Body := .content "match%5B%5D=%7B__name__%3D%22up%22%2Ctenant_id%3D%22acme%22%7D"
            ContentLength := 1 } ∧
      len "match%5B%5D=%7B__name__%3D%22up%22%2Ctenant_id%3D%22acme%22%7D" = 62 := by
  decide

/-! ## `url.Values`: lookups after an assignment -/

theorem lookup_assignEntries_same (k : String) (vs : List String)
    (l : List (String × List String)) :
    (Values.assignEntries k vs l).lookup k = some vs := by
  induction l with
  | nil => simp [Values.assignEntries, List.lookup]
  | cons e l ih =>
    obtain ⟨k1, vs1⟩ := e
    by_cases h : k1 = k
    · simp [Values.assignEntries, h, List.lookup]
    · have h2 : (k == k1) = false := by simpa using fun h3 => h h3.symm
      simp [Values.assignEntries, h, List.lookup, h2, ih]

theorem lookup_assignEntries_other (k k2 : String) (vs : List String)
    (l : List (String × List String)) (hk : k2 ≠ k) :
    (Values.assignEntries k vs l).lookup k2 = l.lookup k2 := by
  induction l with
  | nil =>
    have h2 : (k2 == k) = false := by simpa using hk
    simp [Values.assignEntries, List.lookup, h2]
  | cons e l ih =>
    obtain ⟨k1, vs1⟩ := e
    by_cases h : k1 = k
    · subst h
      have h2 : (k2 == k1) = false := by simpa using hk
      simp [Values.assignEntries, List.lookup, h2]
    · simp only [Values.assignEntries, h, if_false, List.lookup]
      rw [ih]

theorem assignEntries_assignEntries (k : String) (a b : List String)
    (l : List (String × List String)) :
    Values.assignEntries k b (Values.assignEntries k a l) = Values.assignEntries k b l := by
  induction l with
  | nil => simp [Values.assignEntries]
  | cons e l ih =>
    obtain ⟨k1, vs1⟩ := e
    by_cases h : k1 = k
    · simp [Values.assignEntries, h]
    · simp [Values.assignEntries, h, ih]

theorem index_assign_same (v : Values) (k : String) (vs : List String) :
    (v.assign k vs).index k = vs := by
  simp [Values.assign, Values.index, lookup_assignEntries_same]

theorem index_assign_other (v : Values) (k k2 : String) (vs : List String) (hk : k2 ≠ k) :
    (v.assign k vs).index k2 = v.index k2 := by
  simp [Values.assign, Values.index, lookup_assignEntries_other k k2 vs _ hk]

theorem assign_assign (v : Values) (k : String) (a b : List String) :
    (v.assign k a).assign k b = v.assign k b := by
  simp [Values.assign, assignEntries_assignEntries]

theorem Get_Set (v : Values) (k x : String) : (v.Set k x).Get k = x := by
  simp [Values.Set, Values.Get, index_assign_same]

theorem Set_Set (v : Values) (k x y : String) : (v.Set k x).Set k y = v.Set k y := by
  simp [Values.Set, assign_assign]

/-! ## The label enforcer: injection into a matcher set and into an expression -/

theorem overrideMatcher_scoped (m : Matcher) (ms : List Matcher) :
    Scoped m ms (overrideMatcher m ms) := by
  induction ms with
  | nil => simp [Scoped, overrideMatcher]
  | cons x xs ih =>
    by_cases h : x.Name = m.Name
    · simp [Scoped, overrideMatcher, h, List.filter_filter]
    · obtain ⟨h1, h2⟩ := ih
      simp only [Scoped, overrideMatcher, h, if_false]
      simp only [List.filter_cons, h, decide_False, decide_not, Bool.not_false, if_true,
        Bool.false_eq_true, if_false, List.cons.injEq, true_and]
      exact ⟨h1, by simpa using h2⟩

theorem overrideMatcher_idem (m : Matcher) (ms : List Matcher) :
    overrideMatcher m (overrideMatcher m ms) = overrideMatcher m ms := by
  induction ms with
  | nil => simp [overrideMatcher]
  | cons x xs ih =>
    by_cases h : x.Name = m.Name
    · simp [overrideMatcher, h, List.filter_filter]
    · simp [overrideMatcher, h, ih]

theorem EnforceMatchers_override (m : Matcher) (ms : List Matcher) :
    (NewEnforcer false [m]).EnforceMatchers ms = .ok (overrideMatcher m ms) := by
  simp [Enforcer.EnforceMatchers, NewEnforcer, enforceOne]

theorem EnforceNode_override (m : Matcher) (e : Expr) :
    (NewEnforcer false [m]).EnforceNode e = .ok (scopeExpr m e) := by
  induction e with
  | selector ms => simp [Enforcer.EnforceNode, EnforceMatchers_override, scopeExpr]
  | literal t => simp [Enforcer.EnforceNode, scopeExpr]
  | unary op a ih => simp [Enforcer.EnforceNode, scopeExpr, ih]
  | binary op l r ihl ihr => simp [Enforcer.EnforceNode, scopeExpr, ihl, ihr]

theorem scopeExpr_scoped (m : Matcher) (e : Expr) : ScopedExpr m e (scopeExpr m e) := by
  induction e with
  | selector ms => simpa [ScopedExpr, scopeExpr] using overrideMatcher_scoped m ms
  | literal t => simp [ScopedExpr, scopeExpr]
  | unary op a ih => simpa [ScopedExpr, scopeExpr] using ih
  | binary op l r ihl ihr => simpa [ScopedExpr, scopeExpr] using ⟨ihl, ihr⟩

theorem scopeExpr_idem (m : Matcher) (e : Expr) : scopeExpr m (scopeExpr m e) = scopeExpr m e := by
  induction e with
  | selector ms => simp [scopeExpr, overrideMatcher_idem]
  | literal t => simp [scopeExpr]
  | unary op a ih => simp [scopeExpr, ih]
  | binary op l r ihl ihr => simp [scopeExpr, ihl, ihr]


theorem enforceValues_override (L : Lang) (m : Matcher) (v : Values) :
    enforceValues L (NewEnforcer false [m]) v =
      if v.Get queryParam = "" then .ok (v, false)
      else
        match L.ParseExpr (v.Get queryParam) with
        | .error msg => .error (.queryParseError msg)
        | .ok expr => .ok (v.Set queryParam (L.exprString (scopeExpr m expr)), true) := by
  unfold enforceValues
  split
  · rfl
  · cases L.ParseExpr (v.Get queryParam) with
    | error msg => rfl
    | ok expr => simp [EnforceNode_override]

/-- A successful enforcement of a parameter set that carries an expression. -/
theorem enforceQueryValues_found (L : Lang) (m : Matcher) (v : Values) (q : String) (found : Bool)
    (h : enforceQueryValues L (NewEnforcer false [m]) v = .ok (q, found)) :
    (v.Get queryParam = "" → found = false) ∧
    (v.Get queryParam ≠ "" → found = true ∧ ∃ e, L.ParseExpr (v.Get queryParam) = .ok e ∧
      q = (v.Set queryParam (L.exprString (scopeExpr m e))).Encode) := by
  unfold enforceQueryValues at h
  rw [enforceValues_override] at h
  by_cases hg : v.Get queryParam = ""
  · simp [hg] at h
    exact ⟨fun _ => h.2, fun hne => absurd hg hne⟩
  · refine ⟨fun he => absurd he hg, fun _ => ?_⟩
    simp only [hg, if_false] at h
    cases hp : L.ParseExpr (v.Get queryParam) with
    | error msg => simp [hp] at h
    | ok e =>
      simp [hp] at h
      exact ⟨h.2, e, rfl, h.1.symm⟩

theorem injectOccurrences_scoped (L : Lang) (m : Matcher) (l out : List String)
    (h : injectOccurrences L m l = .ok out) :
    List.Forall₂
      (fun s s1 => ∃ ms ms1, L.ParseMetricSelector s = .ok ms ∧ Scoped m ms ms1 ∧
        s1 = L.matchersToString ms1) l out := by
  induction l generalizing out with
  | nil =>
    simp [injectOccurrences] at h
    subst h
    exact List.Forall₂.nil
  | cons s rest ih =>
    unfold injectOccurrences at h
    cases hp : L.ParseMetricSelector s with
    | error msg => simp [hp] at h
    | ok ms =>
      cases hr : injectOccurrences L m rest with
      | error msg => simp [hp, hr] at h
      | ok out1 =>
        simp [hp, hr] at h
        subst h
        exact List.Forall₂.cons ⟨ms, _, hp, overrideMatcher_scoped m ms, rfl⟩ (ih out1 hr)

theorem injectMatcher_injected (L : Lang) (m : Matcher) (mp : String) (q out : Values)
    (h : injectMatcher L q m mp = .ok out) : Injected L m mp q out := by
  unfold injectMatcher at h
  cases hi : q.index mp with
  | nil =>
    simp [hi] at h
    subst h
    refine ⟨fun k hk => ?_, Or.inl ⟨hi, ?_⟩⟩
    · exact index_assign_other q mp k _ hk
    · exact index_assign_same q mp _
  | cons s rest =>
    simp only [hi] at h
    cases ho : injectOccurrences L m (s :: rest) with
    | error msg => simp [ho] at h
    | ok l =>
      simp [ho] at h
      subst h
      refine ⟨fun k hk => ?_, Or.inr ⟨by rw [hi]; simp, ?_⟩⟩
      · exact index_assign_other q mp k _ hk
      · rw [index_assign_same, hi]
        exact injectOccurrences_scoped L m _ _ ho

theorem injectOccurrences_idem (L : Lang) (m : Matcher) (l out : List String)
    (h : injectOccurrences L m l = .ok out)
    (hrt : ∀ s ∈ l, ∀ ms, L.ParseMetricSelector s = .ok ms →
      L.ParseMetricSelector (L.matchersToString (overrideMatcher m ms)) =
        .ok (overrideMatcher m ms)) :
    injectOccurrences L m out = .ok out := by
  induction l generalizing out with
  | nil =>
    simp [injectOccurrences] at h
    subst h
    rfl
  | cons s rest ih =>
    unfold injectOccurrences at h
    cases hp : L.ParseMetricSelector s with
    | error msg => simp [hp] at h
    | ok ms =>
      cases hr : injectOccurrences L m rest with
      | error msg => simp [hp, hr] at h
      | ok out1 =>
        simp [hp, hr] at h
        subst h
        have h1 := hrt s (List.mem_cons_self _ _) ms hp
        have h2 := ih out1 hr (fun s1 hs1 => hrt s1 (List.mem_cons_of_mem _ hs1))
        simp [injectOccurrences, h1, h2, overrideMatcher_idem]

theorem injectOccurrences_length (L : Lang) (m : Matcher) (l out : List String)
    (h : injectOccurrences L m l = .ok out) : out.length = l.length := by
  have := injectOccurrences_scoped L m l out h
  exact this.length_eq.symm

theorem injectMatcher_idem (L : Lang) (m : Matcher) (mp : String) (q out : Values)
    (h : injectMatcher L q m mp = .ok out)
    (hrt0 : q.index mp = [] →
      L.ParseMetricSelector (L.matchersToString [m]) = .ok [m])
    (hrt : ∀ s ∈ q.index mp, ∀ ms, L.ParseMetricSelector s = .ok ms →
      L.ParseMetricSelector (L.matchersToString (overrideMatcher m ms)) =
        .ok (overrideMatcher m ms)) :
    injectMatcher L out m mp = .ok out := by
  unfold injectMatcher at h
  cases hi : q.index mp with
  | nil =>
    simp [hi] at h
    subst h
    have h0 := hrt0 hi
    have hov : overrideMatcher m [m] = [m] := by simp [overrideMatcher]
    simp [injectMatcher, Values.Set, index_assign_same, injectOccurrences, h0, hov, assign_assign]
  | cons s rest =>
    simp only [hi] at h
    cases ho : injectOccurrences L m (s :: rest) with
    | error msg => simp [ho] at h
    | ok l =>
      simp [ho] at h
      subst h
      have hlen := injectOccurrences_length L m _ _ ho
      have hid := injectOccurrences_idem L m _ _ ho (by rw [hi] at hrt; exact hrt)
      cases l with
      | nil => simp at hlen
      | cons s1 rest1 =>
        simp [injectMatcher, index_assign_same, hid, assign_assign]

theorem enforceValues_idem (L : Lang) (m : Matcher) (v v1 : Values) (found : Bool)
    (h : enforceValues L (NewEnforcer false [m]) v = .ok (v1, found))
    (hrt : ∀ e, L.ParseExpr (v.Get queryParam) = .ok e →
      L.exprString (scopeExpr m e) ≠ "" ∧
        L.ParseExpr (L.exprString (scopeExpr m e)) = .ok (scopeExpr m e)) :
    enforceValues L (NewEnforcer false [m]) v1 = .ok (v1, found) := by
  rw [enforceValues_override] at h
  by_cases hg : v.Get queryParam = ""
  · simp [hg] at h
    obtain ⟨h1, h2⟩ := h
    subst h1 h2
    rw [enforceValues_override]
    simp [hg]
  · simp only [hg, if_false] at h
    cases hp : L.ParseExpr (v.Get queryParam) with
    | error msg => simp [hp] at h
    | ok e =>
      simp [hp] at h
      obtain ⟨h1, h2⟩ := h
      subst h1 h2
      obtain ⟨hne, hpp⟩ := hrt e hp
      rw [enforceValues_override]
      simp only [Get_Set, hne, if_false, hpp, scopeExpr_idem, Set_Set]



/-! ## C9: isolation -/

/-- C9, on the enforcement functions modelled from the spec: whenever `query` or
`matcher` hands a request of the resolved tenant `T` to the upstream, the parameters
handed over are the client's with the tenant enforced. For `query`, the expression of
the URL `query` parameter and, for a POST request, of the parsed form is replaced by
the text of an expression of the same shape in which every selector is scoped: its
matchers on `TenantLabelName` are the one equality matcher with value `T`, and its
matchers on every other label are the client's; the enforced form is the body handed
over. For `matcher`, every occurrence of the matcher parameter in the URL and, for a
POST request, in the form is replaced by the text of such a scoped matcher set, and
every other parameter is unchanged. -/
theorem tenant_isolation (L : Lang) (env : Env) (h : Handler) (matchersParam : String)
    (req r : Request) (u : Upstream)
    (henf : env.enforceQueryValues = enforceQueryValues L)
    (hinj : env.injectMatcher = injectMatcher L) :
    (h.query env req = .forward u r →
      ∃ ri, req.requestInfo = some ri ∧
        ((env.urlQuery req.RawQuery).Get queryParam ≠ "" →
          ∃ e out, L.ParseExpr ((env.urlQuery req.RawQuery).Get queryParam) = .ok e ∧
            ScopedExpr ⟨.MatchEqual, h.options.TenantLabelName, ri.TenantId⟩ e out ∧
            r.RawQuery =
              ((env.urlQuery req.RawQuery).Set queryParam (L.exprString out)).Encode) ∧
        (∀ form, req.Method = "POST" → env.parseForm req = .ok form →
          form.Get queryParam ≠ "" →
          ∃ e out, L.ParseExpr (form.Get queryParam) = .ok e ∧
            ScopedExpr ⟨.MatchEqual, h.options.TenantLabelName, ri.TenantId⟩ e out ∧
            r.Body = .content (form.Set queryParam (L.exprString out)).Encode)) ∧
    (h.matcher env matchersParam req = .forward u r →
      ∃ ri q1, req.requestInfo = some ri ∧
        Injected L ⟨.MatchEqual, h.options.TenantLabelName, ri.TenantId⟩ matchersParam
          (env.urlQuery req.RawQuery) q1 ∧
        r.RawQuery = q1.Encode ∧
        (req.Method = "POST" → ∃ form q2,
          env.parseForm { req with RawQuery := q1.Encode } = .ok form ∧
          Injected L ⟨.MatchEqual, h.options.TenantLabelName, ri.TenantId⟩ matchersParam
            form q2 ∧
          r.Body = .content q2.Encode)) := by
  refine ⟨fun hq => ?_, fun hm => ?_⟩
  · obtain ⟨ri, h1, _, _, postForm, hpf, hqe⟩ := query_forward env h req r u hq
    obtain ⟨q, found, he, hraw, hform⟩ := queryEnforced_shape env h _ _ postForm ri u r hqe
    rw [henf] at he hform
    refine ⟨ri, h1, fun hne => ?_, fun form hpost hf hne => ?_⟩
    · obtain ⟨hfound, e, hp, hqv⟩ := (enforceQueryValues_found L _ _ q found he).2 hne
      exact ⟨e, scopeExpr (tenantMatcher h ri) e, hp, scopeExpr_scoped _ e,
        (hraw hfound).trans hqv⟩
    · rw [(postFormOf_method env req).2.1 form hpost hf] at hpf
      cases hpf
      obtain ⟨q2, found2, he2, hbody⟩ := hform form rfl
      obtain ⟨hfound, e, hp, hqv⟩ := (enforceQueryValues_found L _ _ q2 found2 he2).2 hne
      exact ⟨e, scopeExpr (tenantMatcher h ri) e, hp, scopeExpr_scoped _ e, by
        rw [(hbody hfound).1, hqv]⟩
  · obtain ⟨ri, h1, _, _, hmi⟩ := matcher_forward env h matchersParam req r u hm
    obtain ⟨q1, hi, hraw, hpost⟩ := matcherInjected_shape env h matchersParam req r ri u hmi
    rw [hinj] at hi hpost
    refine ⟨ri, q1, h1, injectMatcher_injected L _ _ _ _ hi, hraw, fun hp => ?_⟩
    obtain ⟨form, q2, hf, hi2, hbody, _⟩ := hpost hp
    exact ⟨form, q2, hf, injectMatcher_injected L _ _ _ _ hi2, hbody⟩

/-- C9 at the sample requests of the tenant `acme` whose expression and matcher ask for
the tenant `other`, in the URL of a GET request and in the form of a POST request: what
reaches the upstream asks for `up` of the tenant `acme`. The POST request is handed
over with the enforced form as its body. -/
theorem tenant_isolation_witness :
    (∃ ri, (sampleHostileQuery (some "acme")).requestInfo = some ri ∧
        ((sampleEnv.urlQuery (sampleHostileQuery (some "acme")).RawQuery).Get queryParam ≠ "" →
          ∃ e out,
            sampleLang.ParseExpr
                ((sampleEnv.urlQuery (sampleHostileQuery (some "acme")).RawQuery).Get queryParam) =
              .ok e ∧
            ScopedExpr ⟨.MatchEqual, sampleHandler.options.TenantLabelName, ri.TenantId⟩ e out ∧
            "query=%7B__name__%3D%22up%22%2Ctenant_id%3D%22acme%22%7D" =
              ((sampleEnv.urlQuery (sampleHostileQuery (some "acme")).RawQuery).Set queryParam
                (sampleLang.exprString out)).Encode)) ∧
      (∃ ri q1, (sampleHostileSeries (some "acme")).requestInfo = some ri ∧
        Injected sampleLang ⟨.MatchEqual, sampleHandler.options.TenantLabelName, ri.TenantId⟩
          "match[]" (sampleEnv.urlQuery (sampleHostileSeries (some "acme")).RawQuery) q1 ∧
        "match%5B%5D=%7B__name__%3D%22up%22%2Ctenant_id%3D%22acme%22%7D" = q1.Encode) ∧
      sampleHandler.query sampleEnv (samplePostHostileQuery (some "acme")) =
        .forward .queryProxy
          { samplePostHostileQuery (some "acme") with
            Body := .content "query=%7B__name__%3D%22up%22%2Ctenant_id%3D%22acme%22%7D"
            ContentLength := 56 } ∧
      (∃ ri, (samplePostHostileQuery (some "acme")).requestInfo = some ri ∧
        ∃ e out,
          sampleLang.ParseExpr
              ((sampleValues "query=%7B__name__%3D%22up%22%2Ctenant_id%3D%22other%22%7D").Get
                queryParam) = .ok e ∧
            ScopedExpr ⟨.MatchEqual, sampleHandler.options.TenantLabelName, ri.TenantId⟩ e out ∧
            Body.content "query=%7B__name__%3D%22up%22%2Ctenant_id%3D%22acme%22%7D" =
              .content
                ((sampleValues "query=%7B__name__%3D%22up%22%2Ctenant_id%3D%22other%22%7D").Set
                  queryParam (sampleLang.exprString out)).Encode) :=
  ⟨((tenant_isolation sampleLang sampleEnv sampleHandler "match[]"
      (sampleHostileQuery (some "acme"))
      { sampleHostileQuery (some "acme") with
        RawQuery := "query=%7B__name__%3D%22up%22%2Ctenant_id%3D%22acme%22%7D" }
      .queryProxy rfl rfl).1 (by decide)).imp fun _ hri => ⟨hri.1, hri.2.1⟩,
    ((tenant_isolation sampleLang sampleEnv sampleHandler "match[]"
      (sampleHostileSeries (some "acme"))
      { sampleHostileSeries (some "acme") with
        RawQuery := "match%5B%5D=%7B__name__%3D%22up%22%2Ctenant_id%3D%22acme%22%7D"
        Body := .content "match%5B%5D=%7B__name__%3D%22up%22%2Ctenant_id%3D%22acme%22%7D"
        ContentLength := 1 }
      .queryProxy rfl rfl).2 (by decide)).imp fun _ hri =>
        hri.imp fun _ hq => ⟨hq.1, hq.2.1, hq.2.2.1⟩,
    by decide,
    ((tenant_isolation sampleLang sampleEnv sampleHandler "match[]"
      (samplePostHostileQuery (some "acme"))
      { samplePostHostileQuery (some "acme") with
        Body := .content "query=%7B__name__%3D%22up%22%2Ctenant_id%3D%22acme%22%7D"
        ContentLength := 56 }
      .queryProxy rfl rfl).1 (by decide)).imp fun _ hri =>
        ⟨hri.1, hri.2.2
          (sampleValues "query=%7B__name__%3D%22up%22%2Ctenant_id%3D%22other%22%7D")
          rfl rfl (by decide)⟩⟩

/-! ## C10: idempotent injection -/

/-- C10, on the enforcement functions modelled from the spec: applied to its own
output, the enforcement step of the tenant matcher `m` gives that output again.
`enforceQueryValues` on the parameter set `v1` it rewrote `v` into returns what it
returned for `v`; `injectMatcher` on the parameter set `q1` it rewrote `q` into
returns `q1`; on a matcher set and on an expression a second injection changes
nothing, and the matcher set holds `m` once. The parser of the language is assumed to
read back the text its serializer writes for the enforced values. -/
theorem enforcement_idempotent (L : Lang) (m : Matcher) (v v1 : Values) (found : Bool)
    (q q1 : Values) (matchersParam : String)
    (hv : enforceValues L (NewEnforcer false [m]) v = .ok (v1, found))
    (hrtv : ∀ e, L.ParseExpr (v.Get queryParam) = .ok e →
      L.exprString (scopeExpr m e) ≠ "" ∧
        L.ParseExpr (L.exprString (scopeExpr m e)) = .ok (scopeExpr m e))
    (hq : injectMatcher L q m matchersParam = .ok q1)
    (hrt0 : q.index matchersParam = [] →
      L.ParseMetricSelector (L.matchersToString [m]) = .ok [m])
    (hrtq : ∀ s ∈ q.index matchersParam, ∀ ms, L.ParseMetricSelector s = .ok ms →
      L.ParseMetricSelector (L.matchersToString (overrideMatcher m ms)) =
        .ok (overrideMatcher m ms)) :
    enforceQueryValues L (NewEnforcer false [m]) v1 =
        enforceQueryValues L (NewEnforcer false [m]) v ∧
      enforceQueryValues L (NewEnforcer false [m]) v = .ok (v1.Encode, found) ∧
      injectMatcher L q1 m matchersParam = injectMatcher L q m matchersParam ∧
      (∀ ms, overrideMatcher m (overrideMatcher m ms) = overrideMatcher m ms ∧
        (overrideMatcher m (overrideMatcher m ms)).filter (fun x => decide (x.Name = m.Name)) =
          [m]) ∧
      (∀ e e1, (NewEnforcer false [m]).EnforceNode e = .ok e1 →
        (NewEnforcer false [m]).EnforceNode e1 = .ok e1) := by
  have hv1 := enforceValues_idem L m v v1 found hv hrtv
  have hq1 := injectMatcher_idem L m matchersParam q q1 hq hrt0 hrtq
  refine ⟨?_, ?_, ?_, fun ms => ⟨overrideMatcher_idem m ms, ?_⟩, fun e e1 he => ?_⟩
  · simp [enforceQueryValues, hv, hv1]
  · simp [enforceQueryValues, hv]
  · rw [hq1, hq]
  · rw [overrideMatcher_idem]
    exact (overrideMatcher_scoped m ms).1
  · rw [EnforceNode_override] at he
    cases he
    rw [EnforceNode_override, scopeExpr_idem]


/-- C10 at the sample expression and matcher that ask for the tenant `other`, enforced
for the tenant `acme`. -/
theorem enforcement_idempotent_witness :
    enforceQueryValues sampleLang (NewEnforcer false [acmeMatcher])
        ⟨[("query", [matchersText upAcmeSelector])]⟩ =
        enforceQueryValues sampleLang (NewEnforcer false [acmeMatcher])
          ⟨[("query", [matchersText upOtherSelector])]⟩ ∧
      enforceQueryValues sampleLang (NewEnforcer false [acmeMatcher])
          ⟨[("query", [matchersText upOtherSelector])]⟩ =
        .ok ("query=%7B__name__%3D%22up%22%2Ctenant_id%3D%22acme%22%7D", true) ∧
      injectMatcher sampleLang ⟨[("match[]", [matchersText upAcmeSelector])]⟩ acmeMatcher
          "match[]" =
        injectMatcher sampleLang ⟨[("match[]", ["up"])]⟩ acmeMatcher "match[]" ∧
      (∀ ms, overrideMatcher acmeMatcher (overrideMatcher acmeMatcher ms) =
          overrideMatcher acmeMatcher ms ∧
        (overrideMatcher acmeMatcher (overrideMatcher acmeMatcher ms)).filter
            (fun x => decide (x.Name = acmeMatcher.Name)) = [acmeMatcher]) ∧
      (∀ e e1, (NewEnforcer false [acmeMatcher]).EnforceNode e = .ok e1 →
        (NewEnforcer false [acmeMatcher]).EnforceNode e1 = .ok e1) :=
  enforcement_idempotent sampleLang acmeMatcher
    ⟨[("query", [matchersText upOtherSelector])]⟩
    ⟨[("query", [matchersText upAcmeSelector])]⟩ true
    ⟨[("match[]", ["up"])]⟩ ⟨[("match[]", [matchersText upAcmeSelector])]⟩ "match[]"
    rfl
    (fun e he => by
      have he2 : Except.ok (Expr.selector upOtherSelector) = Except.ok e := he
      cases he2
      exact ⟨by decide, rfl⟩)
    rfl
    (fun hi => by simp [Values.index] at hi)
    (fun s hs ms hms => by
      have hs2 : s ∈ ["up"] := hs
      simp at hs2
      subst hs2
      have hms2 : Except.ok upSelector = Except.ok ms := hms
      cases hms2
      rfl)

/-! ## C11: a reload applied twice -/

theorem difference_self (l : List String) : difference l l = [] := by
  simp [difference_eq_filter]

theorem Store_of_Load (m : SyncMap) (k : String) (v : Stored) (h : m.Load k = some v) :
    m.Store k v = m := by
  cases m with
  | mk f =>
    simp only [SyncMap.Store, SyncMap.Load] at h ⊢
    congr 1
    funext k1
    by_cases hk : k1 = k
    · simp [hk, h]
    · simp [hk]

/-- The second of two reloads with the same list changes nothing, when the first one
left the list under the sentinel key. -/
theorem reload_again (h1 : Handler) (L : List String)
    (hs : h1.options.EnabledTenantsAdmission = true →
      h1.tenantsAdmissionMap.Load "/-/" = some (.tenants L)) :
    h1.SetAdmissionControlHandler ⟨L⟩ = some h1 := by
  by_cases hen : h1.options.EnabledTenantsAdmission = true
  · rw [next_reload h1 hen L L (hs hen)]
    simp only [difference_self, storeAll, deleteAll, List.foldl_nil]
    rw [Store_of_Load _ _ _ (hs hen)]
  · simp [Handler.SetAdmissionControlHandler, hen]

/-- A reload applied a second time changes nothing, for a list that does not name the
sentinel key or a registry whose sentinel key already holds a list. -/
theorem reload_idempotent (h h1 : Handler) (L : List String)
    (hfirst : h.SetAdmissionControlHandler ⟨L⟩ = some h1)
    (hL : "/-/" ∉ L ∨ ∃ T, h.tenantsAdmissionMap.Load "/-/" = some (.tenants T)) :
    h1.SetAdmissionControlHandler ⟨L⟩ = some h1 := by
  apply reload_again
  intro hen1
  by_cases hen : h.options.EnabledTenantsAdmission = true
  · cases hl : h.tenantsAdmissionMap.Load "/-/" with
    | none =>
      have hn : "/-/" ∉ L := by
        rcases hL with hL | ⟨T, hT⟩
        · exact hL
        · rw [hl] at hT; cases hT
      simp [Handler.SetAdmissionControlHandler, hen, hl] at hfirst
      subst hfirst
      simp [storeAll_Load, hn, Store_Load]
    | some v =>
      cases v with
      | tenants T =>
        rw [next_reload h hen T L hl] at hfirst
        simp at hfirst
        subst hfirst
        simp [Store_Load]
      | flag b => simp [Handler.SetAdmissionControlHandler, hen, hl] at hfirst
      | nilValue =>
        have hn : "/-/" ∉ L := by
          rcases hL with hL | ⟨T, hT⟩
          · exact hL
          · rw [hl] at hT; cases hT
        simp [Handler.SetAdmissionControlHandler, hen, hl] at hfirst
        subst hfirst
        simp [storeAll_Load, hn, Store_Load]
  · simp [Handler.SetAdmissionControlHandler, hen] at hfirst
    subst hfirst
    exact absurd hen1 hen

/-- C11, evaluated on the code at the list that names the sentinel key: on a fresh
handler the first reload stores the list under the sentinel key and then overwrites it
with `true` as the entry of the tenant of that name; the second reload of the same
list panics on its type assertion and leaves no registry to compare. -/
theorem reload_twice_sentinel_list :
    ((NewHandler admissionOptions).SetAdmissionControlHandler ⟨["/-/"]⟩).map
        (fun h1 => h1.tenantsAdmissionMap.Load "/-/") = some (some (.flag true)) ∧
      (reloadTwice admissionOptions ["/-/"] ["/-/"]).isNone = true := by
  decide

/-! ## C12: admission control disabled -/

theorem enforceErrorResponse_status (err : EnforceError) :
    (enforceErrorResponse err).status ≠ some 403 := by
  cases err <;> simp [enforceErrorResponse, httpError, Outcome.status]

theorem queryEnforced_status (env : Env) (h : Handler) (req : Request) (query : Values)
    (postForm : Option Values) (ri : RequestInfo) :
    (h.queryEnforced env req query postForm ri).status ≠ some 403 := by
  cases hq : h.queryEnforced env req query postForm ri with
  | forward u r => simp [Outcome.status]
  | silent => simp [Outcome.status]
  | panics => simp [Outcome.status]
  | respond code body =>
    unfold Handler.queryEnforced at hq
    cases h1 : env.enforceQueryValues (NewEnforcer false [tenantMatcher h ri]) query with
    | error err =>
      simp only [h1] at hq
      have := enforceErrorResponse_status err
      rw [hq] at this
      exact this
    | ok qf =>
      obtain ⟨q, found⟩ := qf
      cases postForm with
      | none => simp [h1] at hq
      | some form =>
        cases h2 : env.enforceQueryValues (NewEnforcer false [tenantMatcher h ri]) form with
        | error err =>
          simp only [h1, h2] at hq
          have := enforceErrorResponse_status err
          rw [hq] at this
          exact this
        | ok qf2 => simp [h1, h2] at hq

theorem route_not_respond (h : Handler) (req : Request) (code : Int) (body : String) :
    h.route req ≠ .respond code body := by
  unfold Handler.route
  split <;> simp

theorem matcherInjected_status (env : Env) (h : Handler) (mp : String) (req : Request)
    (ri : RequestInfo) : (h.matcherInjected env mp req ri).status = none := by
  cases hm : h.matcherInjected env mp req ri with
  | forward u r => rfl
  | silent => rfl
  | panics => rfl
  | respond code body =>
    exfalso
    unfold Handler.matcherInjected at hm
    cases h1 : env.injectMatcher (env.urlQuery req.RawQuery) (tenantMatcher h ri) mp with
    | error e => simp [h1] at hm
    | ok q =>
      simp only [h1] at hm
      split at hm
      · split at hm
        · simp at hm
        · split at hm
          · simp at hm
          · exact route_not_respond h _ _ _ hm
      · exact route_not_respond h _ _ _ hm

/-- Without a rejected tenant the tenant checks answer 404 or hand over. -/
theorem withTenant_status (h : Handler) (req : Request) (next : RequestInfo → Outcome)
    (hadm : ∀ t, h.rejects t = false) (hnext : ∀ ri, (next ri).status ≠ some 403) :
    (h.withTenant req next).status ≠ some 403 := by
  unfold Handler.withTenant
  cases req.requestInfo with
  | none => simp [httpNotFound, httpError, Outcome.status]
  | some ri =>
    simp only [hadm ri.TenantId]
    split
    · simp [httpNotFound, httpError, Outcome.status]
    · simpa using hnext ri

/-- C12: with admission control disabled, whatever the registry holds, the admission
test rejects no tenant, the tenant checks hand every request with a non-empty TenantId
over to the rest of the handler, and none of `query`, `matcher` and `remoteWrite`
answers 403. -/
theorem disabled_admits_all (env : Env) (h : Handler) (matchersParam : String) (req : Request)
    (hoff : h.options.EnabledTenantsAdmission = false) :
    (∀ t, h.rejects t = false) ∧
      (∀ ri next, req.requestInfo = some ri → ri.TenantId ≠ "" →
        h.withTenant req next = next ri) ∧
      (h.query env req).status ≠ some 403 ∧
      (h.matcher env matchersParam req).status ≠ some 403 ∧
      (h.remoteWrite env req).status ≠ some 403 := by
  have hadm : ∀ t, h.rejects t = false := fun t => by simp [Handler.rejects, hoff]
  refine ⟨hadm, fun ri next hri hne => withTenant_admitted h req next ri hri hne (hadm _),
    ?_, ?_, ?_⟩
  · unfold Handler.query
    cases h.queryProxy with
    | none => simp [httpError, Outcome.status]
    | some p =>
      simp only
      cases postFormOf env req with
      | error e => simp [httpError, Outcome.status]
      | ok postForm =>
        simp only
        split
        · simp [Outcome.status]
        · exact withTenant_status h req _ hadm fun ri => queryEnforced_status env h _ _ _ ri
  · unfold Handler.matcher
    cases h.queryProxy with
    | none => simp [httpError, Outcome.status]
    | some p =>
      exact withTenant_status h req _ hadm fun ri => by
        rw [matcherInjected_status]; simp
  · unfold Handler.remoteWrite
    cases h.remoteWriteHander with
    | none => simp [httpError, Outcome.status]
    | some p =>
      exact withTenant_status h req _ hadm fun ri => by simp [Outcome.status]


/-- C12 at the handler with admission control disabled and an empty registry, and the
sample query of the tenant `evil`, which reaches the query upstream. -/
theorem disabled_admits_all_witness :
    openHandler.rejects "evil" = false ∧
      (openHandler.query sampleEnv (sampleQuery (some "evil"))).invokesUpstream = true ∧
      (openHandler.query sampleEnv (sampleQuery (some "evil"))).status ≠ some 403 ∧
      (openHandler.matcher sampleEnv "match[]" (sampleQuery (some "evil"))).status ≠ some 403 ∧
      (openHandler.remoteWrite sampleEnv (sampleQuery (some "evil"))).status ≠ some 403 :=
  have t := disabled_admits_all sampleEnv openHandler "match[]" (sampleQuery (some "evil")) rfl
  ⟨t.1 "evil", by decide, t.2.2.1, t.2.2.2.1, t.2.2.2.2⟩

/-! ## C13: a failing target next to a succeeding one -/

/-- C13, evaluated on the code: with two targets, the first answering 200 and the
second failing without a status code (code 0 and an error), `ServeHTTP` writes the
status 200 and no error text; with the failing target alone it writes 204 and no error
text. The reduction takes the error only from a result whose code exceeds the codes
before it. -/
theorem ServeHTTP_hides_error :
    remoteWriteHandler.ServeHTTP sampleEnv
        ⟨[sampleClient "a" 200 none, sampleClient "b" 0 (some "connection refused")],
          "WHIZARD-TENANT"⟩
        (sampleRequest "POST" "/api/v1/receive" "" "data" none) = writeHeader 200 ∧
      remoteWriteHandler.ServeHTTP sampleEnv
        ⟨[sampleClient "b" 0 (some "connection refused")], "WHIZARD-TENANT"⟩
        (sampleRequest "POST" "/api/v1/receive" "" "data" none) = writeHeader 204 := by
  decide

/-! ## C14: the error that is reported -/

/-- The reduction loop from any start: either no result exceeds the start code and the
start is kept, or the loop ends with code and error of the first result that attains
the greatest code. -/
theorem reduce_first_max (rs : List result) (acc : Int × Option String) :
    ((∀ r ∈ rs, r.code ≤ acc.1) ∧ rs.foldl reduceStep acc = acc) ∨
      ∃ pre x post, rs = pre ++ x :: post ∧ acc.1 < x.code ∧
        (∀ r ∈ pre, r.code < x.code) ∧ (∀ r ∈ post, r.code ≤ x.code) ∧
        rs.foldl reduceStep acc = (x.code, x.err) := by
  induction rs generalizing acc with
  | nil => left; simp
  | cons r rs ih =>
    by_cases hr : r.code > acc.1
    · have hstep : reduceStep acc r = (r.code, r.err) := by simp [reduceStep, hr]
      rcases ih (r.code, r.err) with ⟨hall, hf⟩ | ⟨pre, x, post, hsplit, hlt, hpre, hpost, hf⟩
      · right
        refine ⟨[], r, rs, rfl, hr, by simp, hall, ?_⟩
        simp [List.foldl_cons, hstep, hf]
      · right
        refine ⟨r :: pre, x, post, by simp [hsplit], ?_, ?_, hpost, ?_⟩
        · simp only at hlt; omega
        · intro r1 hr1
          rcases List.mem_cons.mp hr1 with h1 | h1
          · subst h1; exact hlt
          · exact hpre r1 h1
        · simp [List.foldl_cons, hstep, hf]
    · have hstep : reduceStep acc r = acc := by simp [reduceStep, hr]
      have hle : r.code ≤ acc.1 := by omega
      rcases ih acc with ⟨hall, hf⟩ | ⟨pre, x, post, hsplit, hlt, hpre, hpost, hf⟩
      · left
        refine ⟨?_, by simp [List.foldl_cons, hstep, hf]⟩
        intro r1 hr1
        rcases List.mem_cons.mp hr1 with h1 | h1
        · subst h1; exact hle
        · exact hall r1 h1
      · right
        refine ⟨r :: pre, x, post, by simp [hsplit], hlt, ?_, hpost, ?_⟩
        · intro r1 hr1
          rcases List.mem_cons.mp hr1 with h1 | h1
          · subst h1; omega
          · exact hpre r1 h1
        · simp [List.foldl_cons, hstep, hf]

/-- C14: for a handler with at least one target and a readable body, when some result
has a positive code the results split, in target order, into the results before `x`,
all with a smaller code, the result `x`, and the results after `x`, none with a greater
code; the reduction ends with the code and the error of `x`, and `ServeHTTP` writes the
text of that error, if `x` has one, with that code. When no result has a positive
code, no error is reported. -/
theorem ServeHTTP_reports_first_max (env : Env) (h : remoteWriteHandler) (req : Request)
    (body : String) (hne : h.writeClients ≠ []) (hb : req.Body = .content body) :
    ((∃ r ∈ fanoutResults env.canonicalHeaderKey h req body, 0 < r.code) →
      ∃ pre x post, fanoutResults env.canonicalHeaderKey h req body = pre ++ x :: post ∧
        0 < x.code ∧ (∀ r ∈ pre, r.code < x.code) ∧ (∀ r ∈ post, r.code ≤ x.code) ∧
        reduceResults (fanoutResults env.canonicalHeaderKey h req body) = (x.code, x.err) ∧
        h.ServeHTTP env req =
          match x.err with
          | some e => httpError e x.code
          | none => writeHeader x.code) ∧
    ((∀ r ∈ fanoutResults env.canonicalHeaderKey h req body, r.code ≤ 0) →
      reduceResults (fanoutResults env.canonicalHeaderKey h req body) = (0, none) ∧
        h.ServeHTTP env req = writeHeader 204) := by
  rw [ServeHTTP_content env h req body hne hb]
  refine ⟨fun hpos => ?_, fun hall => ?_⟩
  · rcases reduce_first_max (fanoutResults env.canonicalHeaderKey h req body) (0, none) with
      ⟨hall, _⟩ | ⟨pre, x, post, hsplit, hlt, hpre, hpost, hf⟩
    · obtain ⟨r, hr, hp⟩ := hpos
      have := hall r hr
      simp only at this
      omega
    · refine ⟨pre, x, post, hsplit, hlt, hpre, hpost, hf, ?_⟩
      have hf2 : reduceResults (fanoutResults env.canonicalHeaderKey h req body) =
          (x.code, x.err) := hf
      rw [hf2]
      simp only at hlt
      have hx : ¬ x.code ≤ 0 := by omega
      simp [writeReduced, hx]
  · rcases reduce_first_max (fanoutResults env.canonicalHeaderKey h req body) (0, none) with
      ⟨_, hf⟩ | ⟨pre, x, post, hsplit, hlt, _, _, _⟩
    · have hf2 : reduceResults (fanoutResults env.canonicalHeaderKey h req body) = (0, none) := hf
      rw [hf2]
      exact ⟨rfl, rfl⟩
    · have := hall x (by rw [hsplit]; simp)
      simp only at hlt
      omega

/-- C14 at three targets answering 500 with the error `first`, 500 with the error
`second` and 200: the text written is that of `first`. -/
theorem ServeHTTP_reports_first_max_witness :
    sampleTargets.ServeHTTP sampleEnv (sampleRequest "POST" "/api/v1/receive" "" "data" none) =
        httpError "forwarding request to endpoint a: first" 500 ∧
      ∃ pre x post,
        fanoutResults sampleEnv.canonicalHeaderKey sampleTargets
            (sampleRequest "POST" "/api/v1/receive" "" "data" none) "data" = pre ++ x :: post ∧
          0 < x.code ∧ (∀ r ∈ pre, r.code < x.code) ∧ (∀ r ∈ post, r.code ≤ x.code) ∧
          reduceResults (fanoutResults sampleEnv.canonicalHeaderKey sampleTargets
            (sampleRequest "POST" "/api/v1/receive" "" "data" none) "data") = (x.code, x.err) ∧
          sampleTargets.ServeHTTP sampleEnv
              (sampleRequest "POST" "/api/v1/receive" "" "data" none) =
            match x.err with
            | some e => httpError e x.code
            | none => writeHeader x.code :=
  ⟨by decide,
    (ServeHTTP_reports_first_max sampleEnv sampleTargets
      (sampleRequest "POST" "/api/v1/receive" "" "data" none) "data"
      (List.cons_ne_nil _ _) rfl).1
      ⟨⟨500, some "forwarding request to endpoint a: first"⟩,
        by simp [fanoutResults, sampleTargets, sampleClient, wrapResult], by decide⟩⟩

/-! ## C15: every target is attempted once -/

theorem set_append_length (done rest : List result) (a b : result) :
    (done ++ a :: rest).set done.length b = done ++ b :: rest := by
  induction done with
  | nil => rfl
  | cons d done ih => simp [ih]

/-- The fan-out loop from a state in which the clients before `cs` are done. -/
theorem fanout_foldl (body : String) (header : Header) (cs : List remoteWriteClient)
    (done : List result) (log : List (Nat × String × Header)) :
    cs.foldl (fanoutStep body header)
        ⟨done.length, done ++ List.replicate cs.length ⟨0, none⟩, log⟩ =
      ⟨done.length + cs.length,
        done ++ cs.map (fun c => wrapResult c.Endpoint (c.Send body header)),
        log ++ (List.range' done.length cs.length).map (fun k => (k, body, header))⟩ := by
  induction cs generalizing done log with
  | nil => simp
  | cons c cs ih =>
    have h := ih (done ++ [wrapResult c.Endpoint (c.Send body header)])
      (log ++ [(done.length, body, header)])
    simp only [List.length_append, List.length_singleton, List.append_assoc,
      List.singleton_append] at h
    simp only [List.foldl_cons, fanoutStep, List.length_cons, List.replicate_succ,
      set_append_length, List.map_cons, List.range'_succ]
    rw [h]
    simp [Nat.add_assoc, Nat.add_comm 1]

theorem fanoutLoop_eq (canon : String → String) (h : remoteWriteHandler) (req : Request)
    (body : String) :
    fanoutLoop canon h req body =
      ⟨h.writeClients.length, fanoutResults canon h req body,
        (List.range h.writeClients.length).map
          (fun k => (k, body, fanoutHeader canon h req))⟩ := by
  have h0 := fanout_foldl body (fanoutHeader canon h req) h.writeClients [] []
  simp only [List.length_nil, List.nil_append, Nat.zero_add] at h0
  unfold fanoutLoop
  rw [h0, List.range_eq_range']
  rfl

theorem wrapResult_code (ep : String) (r : result) : (wrapResult ep r).code = r.code := by
  unfold wrapResult
  cases r.err <;> rfl

/-- C15: for a handler with at least one target and a readable body, the fan-out loop
starts exactly one `Send` per client, client `k` of the list in round `k`, each with
the body read from the request and the same header set; `results` has one slot per
client, slot `i` holds the result of `Send` of client `i` (its code unchanged, its
error wrapped with the endpoint), whatever the other clients return; and these are the
results `ServeHTTP` reduces. -/
theorem fanout_complete (env : Env) (h : remoteWriteHandler) (req : Request) (body : String)
    (hne : h.writeClients ≠ []) (hb : req.Body = .content body) :
    (fanoutLoop env.canonicalHeaderKey h req body).sends =
        (List.range h.writeClients.length).map
          (fun k => (k, body, fanoutHeader env.canonicalHeaderKey h req)) ∧
      (fanoutLoop env.canonicalHeaderKey h req body).results.length = h.writeClients.length ∧
      (∀ i (hi : i < h.writeClients.length),
        (fanoutLoop env.canonicalHeaderKey h req body).results[i]? =
          some (wrapResult (h.writeClients.get ⟨i, hi⟩).Endpoint
            ((h.writeClients.get ⟨i, hi⟩).Send body
              (fanoutHeader env.canonicalHeaderKey h req)))) ∧
      (∀ ep r, (wrapResult ep r).code = r.code) ∧
      h.ServeHTTP env req =
        writeReduced (reduceResults (fanoutLoop env.canonicalHeaderKey h req body).results) := by
  rw [fanoutLoop_eq]
  refine ⟨rfl, by simp [fanoutResults], fun i hi => ?_, wrapResult_code, ?_⟩
  · simp [fanoutResults, List.getElem?_map, List.getElem?_eq_getElem hi]
  · exact ServeHTTP_content env h req body hne hb

/-- C15 at the three sample targets, two of which fail: three calls, three results. -/
theorem fanout_complete_witness :
    (fanoutLoop sampleEnv.canonicalHeaderKey sampleTargets
        (sampleRequest "POST" "/api/v1/receive" "" "data" none) "data").sends =
        (List.range sampleTargets.writeClients.length).map
          (fun k => (k, "data", fanoutHeader sampleEnv.canonicalHeaderKey sampleTargets
            (sampleRequest "POST" "/api/v1/receive" "" "data" none))) ∧
      (fanoutLoop sampleEnv.canonicalHeaderKey sampleTargets
        (sampleRequest "POST" "/api/v1/receive" "" "data" none) "data").results.length =
        sampleTargets.writeClients.length ∧
      sampleTargets.writeClients.length = 3 :=
  have t := fanout_complete sampleEnv sampleTargets
    (sampleRequest "POST" "/api/v1/receive" "" "data" none) "data" (List.cons_ne_nil _ _) rfl
  ⟨t.1, t.2.1, rfl⟩


/-! ## C16 and C17: enforcement errors -/

/-- With the enforcer of the handlers, the enforcement modelled from the spec fails
only on an expression that does not parse, with a query parse error. -/
theorem enforceQueryValues_error (L : Lang) (m : Matcher) (v : Values) (err : EnforceError)
    (h : enforceQueryValues L (NewEnforcer false [m]) v = .error err) :
    ∃ msg, err = .queryParseError msg := by
  unfold enforceQueryValues at h
  rw [enforceValues_override] at h
  by_cases hg : v.Get queryParam = ""
  · simp [hg] at h
  · simp only [hg, if_false] at h
    cases hp : L.ParseExpr (v.Get queryParam) with
    | error msg =>
      simp [hp] at h
      exact ⟨msg, h.symm⟩
    | ok e => simp [hp] at h

/-- What `queryEnforced` answers when enforcement fails, on the URL parameters or on
the form. -/
theorem queryEnforced_error (env : Env) (h : Handler) (req : Request) (query : Values)
    (postForm : Option Values) (ri : RequestInfo) (err : EnforceError)
    (herr : env.enforceQueryValues (NewEnforcer false [tenantMatcher h ri]) query = .error err ∨
      ∃ q found form,
        env.enforceQueryValues (NewEnforcer false [tenantMatcher h ri]) query = .ok (q, found) ∧
        postForm = some form ∧
        env.enforceQueryValues (NewEnforcer false [tenantMatcher h ri]) form = .error err) :
    h.queryEnforced env req query postForm ri = enforceErrorResponse err := by
  unfold Handler.queryEnforced
  rcases herr with h1 | ⟨q, found, form, h1, hf, h2⟩
  · simp [h1]
  · subst hf
    simp [h1, h2]

theorem enforceErrorResponse_not_forward (err : EnforceError) :
    (enforceErrorResponse err).invokesUpstream = false := by
  cases err <;> rfl

/-- C16, as stated, fails on the code: the type switch of the query handler has a case
for each of the three error types and no default case, so an error of any other type
that enforcement returns is not answered with 500: the handler returns without writing
a status, for the sample GET request and for the sample POST request alike. -/
theorem query_error_of_other_type_unanswered :
    sampleHandler.query (sampleFailingEnv (.otherError "boom")) (sampleQuery (some "acme")) =
        .silent ∧
      (sampleHandler.query (sampleFailingEnv (.otherError "boom"))
        (sampleQuery (some "acme"))).status = none ∧
      (sampleHandler.query (sampleFailingEnv (.otherError "boom"))
        (samplePostHostileQuery (some "acme"))).status = none := by
  decide

/-- C16, amended: in the query handler, for a request that reaches enforcement (the
upstream is configured, the form of a POST request parses, the `query` parameter is not
empty in the URL or in the form, and the tenant is resolved and not rejected), an error
returned by the enforcement of the URL parameters, or of the form of a POST request
after the URL parameters went through, is answered by its type: a query parse error and
an illegal label matcher error with the status 400 and the text of the error, an
enforce label error with the status 500 and the text of the error, and an error of any
other type with nothing (no status is written); the upstream is not invoked. -/
theorem query_enforcement_error_status (env : Env) (h : Handler) (req : Request)
    (p : ReverseProxy) (postForm : Option Values) (ri : RequestInfo) (err : EnforceError)
    (hp : h.queryProxy = some p)
    (hform : (req.Method ≠ "POST" ∧ postForm = none) ∨
      (req.Method = "POST" ∧ ∃ form, env.parseForm req = .ok form ∧ postForm = some form))
    (hq : ¬ ((env.urlQuery req.RawQuery).Get queryParam = "" ∧
      getOrNil postForm queryParam = ""))
    (hri : req.requestInfo = some ri) (hne : ri.TenantId ≠ "")
    (hadm : h.rejects ri.TenantId = false)
    (herr : env.enforceQueryValues (NewEnforcer false [tenantMatcher h ri])
          (env.urlQuery req.RawQuery) = .error err ∨
      ∃ q found form,
        env.enforceQueryValues (NewEnforcer false [tenantMatcher h ri])
          (env.urlQuery req.RawQuery) = .ok (q, found) ∧
        postForm = some form ∧
        env.enforceQueryValues (NewEnforcer false [tenantMatcher h ri]) form = .error err) :
    h.query env req =
        (match err with
        | .IllegalLabelMatcherError msg => .respond 400 (msg ++ "\n")
        | .queryParseError msg => .respond 400 (msg ++ "\n")
        | .enforceLabelError msg => .respond 500 (msg ++ "\n")
        | .otherError _ => .silent) ∧
      (h.query env req).invokesUpstream = false := by
  have hf : postFormOf env req = .ok postForm := by
    rcases hform with ⟨hm, hnone⟩ | ⟨hm, form, hparse, hsome⟩
    · rw [hnone]
      exact (postFormOf_method env req).1 hm
    · rw [hsome]
      exact (postFormOf_method env req).2.1 form hm hparse
  have hq1 : h.query env req = enforceErrorResponse err := by
    rw [query_present env h req p hp postForm hf hq,
      withTenant_admitted h req _ ri hri hne hadm]
    exact queryEnforced_error env h _ _ postForm ri err herr
  rw [hq1]
  cases err <;> exact ⟨rfl, rfl⟩

/-- C16, amended, at the sample requests of the tenant `acme`: an expression that does
not parse, in the URL of a GET request and in the form of a POST request, is answered
with 400, and an enforce label error with 500. -/
theorem query_enforcement_error_status_witness :
    sampleHandler.query sampleEnv (sampleBadQuery (some "acme")) =
        .respond 400 "parse error\n" ∧
      sampleHandler.query sampleEnv (samplePostBadQuery (some "acme")) =
        .respond 400 "parse error\n" ∧
      sampleHandler.query (sampleFailingEnv (.enforceLabelError "boom"))
          (sampleQuery (some "acme")) = .respond 500 "boom\n" ∧
      sampleHandler.query (sampleFailingEnv (.IllegalLabelMatcherError "illegal"))
          (sampleQuery (some "acme")) = .respond 400 "illegal\n" :=
  ⟨(query_enforcement_error_status sampleEnv sampleHandler
      (sampleBadQuery (some "acme")) ⟨"query"⟩ none ⟨"acme"⟩ (.queryParseError "parse error")
      rfl (Or.inl ⟨by decide, rfl⟩) (by decide) rfl (by decide) rfl (Or.inl rfl)).1,
    (query_enforcement_error_status sampleEnv sampleHandler
      (samplePostBadQuery (some "acme")) ⟨"query"⟩ (some (sampleValues "query=%28")) ⟨"acme"⟩
      (.queryParseError "parse error")
      rfl (Or.inr ⟨rfl, sampleValues "query=%28", rfl, rfl⟩) (by decide) rfl (by decide) rfl
      (Or.inr ⟨"", false, sampleValues "query=%28", rfl, rfl, rfl⟩)).1,
    (query_enforcement_error_status (sampleFailingEnv (.enforceLabelError "boom")) sampleHandler
      (sampleQuery (some "acme")) ⟨"query"⟩ none ⟨"acme"⟩ (.enforceLabelError "boom")
      rfl (Or.inl ⟨by decide, rfl⟩) (by decide) rfl (by decide) rfl (Or.inl rfl)).1,
    (query_enforcement_error_status (sampleFailingEnv (.IllegalLabelMatcherError "illegal"))
      sampleHandler (sampleQuery (some "acme")) ⟨"query"⟩ none ⟨"acme"⟩
      (.IllegalLabelMatcherError "illegal")
      rfl (Or.inl ⟨by decide, rfl⟩) (by decide) rfl (by decide) rfl (Or.inl rfl)).1⟩

/-- C17: in the query handler an error of the enforcement of the URL parameters or of
the POST form, and in the matcher handler an error of the injection into the URL
parameters or into the POST form, leaves the upstream uninvoked, whatever the error
is. -/
theorem enforcement_error_terminal (env : Env) (h : Handler) (matchersParam : String)
    (req : Request) (ri : RequestInfo) (hri : req.requestInfo = some ri) :
    (∀ err, env.enforceQueryValues (NewEnforcer false [tenantMatcher h ri])
        (env.urlQuery req.RawQuery) = .error err →
      (h.query env req).invokesUpstream = false) ∧
    (∀ err form, postFormOf env req = .ok (some form) →
      env.enforceQueryValues (NewEnforcer false [tenantMatcher h ri]) form = .error err →
      (h.query env req).invokesUpstream = false) ∧
    (∀ e, env.injectMatcher (env.urlQuery req.RawQuery) (tenantMatcher h ri) matchersParam =
        .error e →
      (h.matcher env matchersParam req).invokesUpstream = false) ∧
    (∀ e q form, req.Method = "POST" →
      env.injectMatcher (env.urlQuery req.RawQuery) (tenantMatcher h ri) matchersParam = .ok q →
      env.parseForm { req with RawQuery := q.Encode } = .ok form →
      env.injectMatcher form (tenantMatcher h ri) matchersParam = .error e →
      (h.matcher env matchersParam req).invokesUpstream = false) := by
  refine ⟨fun err herr => ?_, fun err form hf herr => ?_, fun e herr => ?_,
    fun e q form hpost hq hform herr => ?_⟩
  · cases hout : h.query env req with
    | respond c b => rfl
    | silent => rfl
    | panics => rfl
    | forward u r =>
      obtain ⟨ri2, h1, _, _, postForm, _, hqe⟩ := query_forward env h req r u hout
      rw [hri] at h1; cases h1
      obtain ⟨q, found, hok, _⟩ := queryEnforced_shape env h _ _ postForm ri u r hqe
      rw [herr] at hok; cases hok
  · cases hout : h.query env req with
    | respond c b => rfl
    | silent => rfl
    | panics => rfl
    | forward u r =>
      obtain ⟨ri2, h1, _, _, postForm, hpf, hqe⟩ := query_forward env h req r u hout
      rw [hri] at h1; cases h1
      rw [hf] at hpf; cases hpf
      obtain ⟨q, found, _, _, hform⟩ := queryEnforced_shape env h _ _ (some form) ri u r hqe
      obtain ⟨q2, found2, hok, _⟩ := hform form rfl
      rw [herr] at hok; cases hok
  · cases hout : h.matcher env matchersParam req with
    | respond c b => rfl
    | silent => rfl
    | panics => rfl
    | forward u r =>
      obtain ⟨ri2, h1, _, _, hmi⟩ := matcher_forward env h matchersParam req r u hout
      rw [hri] at h1; cases h1
      obtain ⟨q, hok, _⟩ := matcherInjected_shape env h matchersParam req r ri u hmi
      rw [herr] at hok; cases hok
  · cases hout : h.matcher env matchersParam req with
    | respond c b => rfl
    | silent => rfl
    | panics => rfl
    | forward u r =>
      obtain ⟨ri2, h1, _, _, hmi⟩ := matcher_forward env h matchersParam req r u hout
      rw [hri] at h1; cases h1
      obtain ⟨q1, hok, _, hp⟩ := matcherInjected_shape env h matchersParam req r ri u hmi
      rw [hq] at hok; cases hok
      obtain ⟨form1, q2, hf1, hok2, _⟩ := hp hpost
      rw [hform] at hf1; cases hf1
      rw [herr] at hok2; cases hok2

/-- C17 at the sample query and the sample series request of the tenant `acme` whose
expression and matcher do not parse. -/
theorem enforcement_error_terminal_witness :
    (sampleHandler.query sampleEnv (sampleBadQuery (some "acme"))).invokesUpstream = false ∧
      (sampleHandler.matcher sampleEnv "match[]"
        (sampleBadSeries (some "acme"))).invokesUpstream = false :=
  ⟨(enforcement_error_terminal sampleEnv sampleHandler "match[]"
      (sampleBadQuery (some "acme")) ⟨"acme"⟩ rfl).1 (.queryParseError "parse error") rfl,
    (enforcement_error_terminal sampleEnv sampleHandler "match[]"
      (sampleBadSeries (some "acme")) ⟨"acme"⟩ rfl).2.2.1 "parse error" rfl⟩

/-! ## C18: the tenant header -/

theorem Header_Get_Set (canon : String → String) (hd : Header) (k x : String) :
    (hd.Set canon k x).Get canon k = x := by
  simp [Header.Set, Header.Get, lookup_assignEntries_same]

/-- C18: whenever `remoteWrite` hands a request to the write handler, the tenant was
resolved to a non-empty `T`, and the tenant header of the request handed over reads
`T`, whatever header the client sent. For a fan-out handler that uses the same header
name, the header set built from that request reads `T` under that name, and so does
the header set of every `Send` the fan-out starts. -/
theorem tenant_header_stamped (env : Env) (h : Handler) (req r : Request) (u : Upstream)
    (hfw : h.remoteWrite env req = .forward u r) :
    ∃ ri, req.requestInfo = some ri ∧ ri.TenantId ≠ "" ∧
      r.Header.Get env.canonicalHeaderKey h.options.TenantHeader = ri.TenantId ∧
      ∀ hw : remoteWriteHandler, hw.tenantHeader = h.options.TenantHeader →
        (fanoutHeader env.canonicalHeaderKey hw r).Get env.canonicalHeaderKey hw.tenantHeader =
            ri.TenantId ∧
          ∀ body, ∀ call ∈ (fanoutLoop env.canonicalHeaderKey hw r body).sends,
            call.2.2.Get env.canonicalHeaderKey hw.tenantHeader = ri.TenantId := by
  obtain ⟨ri, h1, h2, _, _, h5⟩ := remoteWrite_forward env h req r u hfw
  have hget : r.Header.Get env.canonicalHeaderKey h.options.TenantHeader = ri.TenantId := by
    rw [h5]
    exact Header_Get_Set _ _ _ _
  refine ⟨ri, h1, h2, hget, fun hw hname => ?_⟩
  have hfan : (fanoutHeader env.canonicalHeaderKey hw r).Get env.canonicalHeaderKey
      hw.tenantHeader = ri.TenantId := by
    unfold fanoutHeader
    rw [hname, hget]
    simp [h2, Header_Get_Set]
  refine ⟨hfan, fun body call hcall => ?_⟩
  rw [fanoutLoop_eq] at hcall
  simp only [List.mem_map] at hcall
  obtain ⟨k, _, hk⟩ := hcall
  rw [← hk]
  exact hfan

/-- C18 at the sample write request of the tenant `acme` whose client sent the tenant
header `other`. -/
theorem tenant_header_stamped_witness :
    ∃ ri, (sampleWrite (some "acme")).requestInfo = some ri ∧ ri.TenantId ≠ "" ∧
      Header.Get sampleEnv.canonicalHeaderKey (⟨[("WHIZARD-TENANT", ["acme"])]⟩ : Header)
          sampleHandler.options.TenantHeader = ri.TenantId ∧
      ∀ hw : remoteWriteHandler, hw.tenantHeader = sampleHandler.options.TenantHeader →
        (fanoutHeader sampleEnv.canonicalHeaderKey hw
            { sampleWrite (some "acme") with Header := ⟨[("WHIZARD-TENANT", ["acme"])]⟩ }).Get
            sampleEnv.canonicalHeaderKey hw.tenantHeader = ri.TenantId ∧
          ∀ body, ∀ call ∈ (fanoutLoop sampleEnv.canonicalHeaderKey hw
              { sampleWrite (some "acme") with Header := ⟨[("WHIZARD-TENANT", ["acme"])]⟩ }
              body).sends,
            call.2.2.Get sampleEnv.canonicalHeaderKey hw.tenantHeader = ri.TenantId :=
  tenant_header_stamped sampleEnv sampleHandler (sampleWrite (some "acme"))
    { sampleWrite (some "acme") with Header := ⟨[("WHIZARD-TENANT", ["acme"])]⟩ }
    .remoteWriteHander (by decide)

/-! ## C19: the upstream of the matcher handler -/

/-- C19: in the matcher handler, for a request that passes the checks and whose
enforcement succeeds (on the URL parameters and, for a POST request, on the form), the
request is handed to one upstream, with its path unchanged: to `rulesQueryProxy` if and
only if `rulesQueryProxy` is configured and the path ends with `/rules` or `/alerts`,
and to `queryProxy` if and only if not. -/
theorem matcher_routes (env : Env) (h : Handler) (matchersParam : String) (req : Request)
    (p : ReverseProxy) (ri : RequestInfo) (q : Values)
    (hp : h.queryProxy = some p)
    (hri : req.requestInfo = some ri) (hne : ri.TenantId ≠ "")
    (hadm : h.rejects ri.TenantId = false)
    (hq : env.injectMatcher (env.urlQuery req.RawQuery) (tenantMatcher h ri) matchersParam =
      .ok q)
    (hpost : req.Method = "POST" → ∃ form q2,
      env.parseForm { req with RawQuery := q.Encode } = .ok form ∧
      env.injectMatcher form (tenantMatcher h ri) matchersParam = .ok q2) :
    ∃ u r, h.matcher env matchersParam req = .forward u r ∧ r.Path = req.Path ∧
      (u = .rulesQueryProxy ↔
        h.rulesQueryProxy.isSome = true ∧
          (HasSuffix req.Path "/rules" = true ∨ HasSuffix req.Path "/alerts" = true)) ∧
      (u = .queryProxy ↔
        ¬ (h.rulesQueryProxy.isSome = true ∧
          (HasSuffix req.Path "/rules" = true ∨ HasSuffix req.Path "/alerts" = true))) := by
  have hroute : ∀ r1 : Request, r1.Path = req.Path →
      ∃ u, h.route r1 = .forward u r1 ∧
        (u = .rulesQueryProxy ↔
          h.rulesQueryProxy.isSome = true ∧
            (HasSuffix req.Path "/rules" = true ∨ HasSuffix req.Path "/alerts" = true)) ∧
        (u = .queryProxy ↔
          ¬ (h.rulesQueryProxy.isSome = true ∧
            (HasSuffix req.Path "/rules" = true ∨ HasSuffix req.Path "/alerts" = true))) := by
    intro r1 hpath
    unfold Handler.route
    rw [hpath]
    by_cases hc : ((HasSuffix req.Path "/rules" || HasSuffix req.Path "/alerts") &&
        h.rulesQueryProxy.isSome) = true
    · rw [if_pos hc]
      simp only [Bool.and_eq_true, Bool.or_eq_true] at hc
      exact ⟨.rulesQueryProxy, rfl, by simp [hc.1, hc.2], by simp [hc.1, hc.2]⟩
    · rw [if_neg hc]
      simp only [Bool.and_eq_true, Bool.or_eq_true] at hc
      refine ⟨.queryProxy, rfl, ?_, ?_⟩
      · constructor
        · intro h0; cases h0
        · intro h0; exact absurd ⟨h0.2, h0.1⟩ hc
      · constructor
        · intro _ h0; exact hc ⟨h0.2, h0.1⟩
        · intro _; rfl
  have hm : h.matcher env matchersParam req = h.matcherInjected env matchersParam req ri := by
    unfold Handler.matcher
    simp only [hp]
    exact withTenant_admitted h req _ ri hri hne hadm
  rw [hm]
  unfold Handler.matcherInjected
  simp only [hq]
  by_cases hmeth : req.Method = "POST"
  · obtain ⟨form, q2, hf, hq2⟩ := hpost hmeth
    rw [if_pos hmeth]
    simp only [hf, hq2]
    obtain ⟨u, hu, hiff⟩ := hroute
      { req with RawQuery := q.Encode, Body := .content q2.Encode, ContentLength := (q2.len : Int) }
      rfl
    exact ⟨u, _, hu, rfl, hiff⟩
  · rw [if_neg hmeth]
    obtain ⟨u, hu, hiff⟩ := hroute { req with RawQuery := q.Encode } rfl
    exact ⟨u, _, hu, rfl, hiff⟩

/-- C19 at the sample rules request of the tenant `acme`, which goes to the rules
upstream of the sample handler. -/
theorem matcher_routes_witness :
    sampleHandler.matcher sampleEnv "match[]" (sampleRules (some "acme")) =
        .forward .rulesQueryProxy
          { sampleRules (some "acme") with
            RawQuery := "match%5B%5D=%7B__name__%3D%22up%22%2Ctenant_id%3D%22acme%22%7D" } ∧
      ∃ u r, sampleHandler.matcher sampleEnv "match[]" (sampleRules (some "acme")) =
          .forward u r ∧
        r.Path = (sampleRules (some "acme")).Path ∧
        (u = .rulesQueryProxy ↔
          sampleHandler.rulesQueryProxy.isSome = true ∧
            (HasSuffix (sampleRules (some "acme")).Path "/rules" = true ∨
              HasSuffix (sampleRules (some "acme")).Path "/alerts" = true)) ∧
        (u = .queryProxy ↔
          ¬ (sampleHandler.rulesQueryProxy.isSome = true ∧
            (HasSuffix (sampleRules (some "acme")).Path "/rules" = true ∨
              HasSuffix (sampleRules (some "acme")).Path "/alerts" = true))) :=
  ⟨by decide,
    matcher_routes sampleEnv sampleHandler "match[]" (sampleRules (some "acme")) ⟨"query"⟩
      ⟨"acme"⟩ ⟨[("match[]", [matchersText upAcmeSelector])]⟩ rfl rfl (by decide) rfl rfl
      (fun hpost => absurd hpost (by decide))⟩

/-! ## C20: the UI handler -/

theorem containsAt_iff (sub l : List Char) : containsAt sub l = true ↔ sub <:+: l := by
  induction l with
  | nil =>
    simp [containsAt, List.isPrefixOf]
  | cons c cs ih =>
    simp only [containsAt, Bool.or_eq_true, ih, List.isPrefixOf_iff_prefix]
    rw [List.infix_cons_iff]

theorem Contains_iff (s substr : String) :
    Contains s substr = true ↔ substr.toList <:+: s.toList := by
  unfold Contains
  exact containsAt_iff _ _

theorem CutPrefix_append (pre rest : String) : CutPrefix (pre ++ rest) pre = (rest, true) := by
  unfold CutPrefix
  have h1 : (pre ++ rest).toList = pre.toList ++ rest.toList := by
    simp [String.toList]
  rw [h1]
  simp [List.isPrefixOf_iff_prefix, String.toList]

theorem CutPrefix_of_not (s pre : String) (h : ¬ pre.toList <+: s.toList) :
    CutPrefix s pre = (s, false) := by
  unfold CutPrefix
  rw [if_neg]
  simpa [List.isPrefixOf_iff_prefix] using h

/-- C20: the handler built by `queryUIHander` replaces the path of the request by
`path`, which is the rest of the path when the path is the prefix followed by a rest,
and the path itself when it does not start with the prefix; it then dispatches to the
query handler when `path` contains `/api/v1`, and to the UI handler when it does not. -/
theorem queryUIHander_dispatch (pre : String) (req : Request) :
    ∃ path, (∀ rest : String, req.Path = pre ++ rest → path = rest) ∧
      (¬ pre.toList <+: req.Path.toList → path = req.Path) ∧
      ("/api/v1".toList <:+: path.toList →
        queryUIHander pre req = .queryHanler { req with Path := path }) ∧
      (¬ "/api/v1".toList <:+: path.toList →
        queryUIHander pre req = .uiHandler { req with Path := path }) := by
  refine ⟨(CutPrefix req.Path pre).1, fun rest hrest => ?_, fun hnot => ?_, fun hc => ?_,
    fun hc => ?_⟩
  · rw [hrest, CutPrefix_append]
  · rw [CutPrefix_of_not _ _ hnot]
  · unfold queryUIHander
    simp only
    rw [if_pos ((Contains_iff _ _).mpr hc)]
  · unfold queryUIHander
    simp only
    rw [if_neg (fun h => hc ((Contains_iff _ _).mp h))]

/-- C20 at the UI prefix and a path under it that names the query API. -/
theorem queryUIHander_dispatch_witness :
    queryUIHander apiUIPrefix (sampleRequest "GET" "/-/ui/api/v1/query" "" "" none) =
      .queryHanler (sampleRequest "GET" "/api/v1/query" "" "" none) := by
  obtain ⟨path, h1, _, h3, _⟩ :=
    queryUIHander_dispatch apiUIPrefix (sampleRequest "GET" "/-/ui/api/v1/query" "" "" none)
  have hp : path = "/api/v1/query" := h1 "/api/v1/query" (by decide)
  rw [hp] at h3
  exact h3 ⟨[], "/query".toList, rfl⟩

/-! ## C25: `difference` -/

/-- C25: `difference(a, b)` is the list of the elements of `a` that do not occur in
`b`, in their order in `a`; so `x` is in it if and only if `x` is in `a` and not in `b`,
an element outside `b` occurs in it as often as in `a`, and it is a sublist of `a`. The
reload of a registry that holds the list `old` stores the tenants of
`difference(new, old)` and deletes those of `difference(old, new)`. -/
theorem difference_spec (a b : List String) :
    difference a b = a.filter (fun v => decide (v ∉ b)) ∧
      (∀ x, x ∈ difference a b ↔ x ∈ a ∧ x ∉ b) ∧
      (∀ x, (difference a b).count x = if x ∈ b then 0 else a.count x) ∧
      (difference a b).Sublist a ∧
      ∀ (h : Handler) (old : List String),
        h.options.EnabledTenantsAdmission = true →
        h.tenantsAdmissionMap.Load "/-/" = some (.tenants old) →
        h.SetAdmissionControlHandler ⟨a⟩ =
          some { h with
            tenantsAdmissionMap :=
              (deleteAll (storeAll h.tenantsAdmissionMap (difference a old))
                (difference old a)).Store "/-/" (.tenants a) } := by
  refine ⟨difference_eq_filter a b, mem_difference a b, fun x => ?_, ?_,
    fun h old hen hs => next_reload h hen old a hs⟩
  · rw [difference_eq_filter]
    by_cases hx : x ∈ b
    · simp only [hx, if_true]
      rw [List.count_eq_zero]
      simp [hx]
    · simp only [hx, if_false]
      rw [List.count_filter]
      simpa using hx
  · rw [difference_eq_filter]
    exact List.filter_sublist _

/-! ## C26: the registry during a reload -/

theorem runSteps_append (m : SyncMap) (xs ys : List RegistryStep) :
    runSteps m (xs ++ ys) = runSteps (runSteps m xs) ys := by
  simp [runSteps, List.foldl_append]

theorem runSteps_store (m : SyncMap) (ts : List String) :
    runSteps m (ts.map (fun tenant => .store tenant (.flag true))) = storeAll m ts := by
  induction ts generalizing m with
  | nil => rfl
  | cons t ts ih =>
    simp only [List.map_cons, runSteps, List.foldl_cons, storeAll] at ih ⊢
    exact ih _

theorem runSteps_delete (m : SyncMap) (ts : List String) :
    runSteps m (ts.map .delete) = deleteAll m ts := by
  induction ts generalizing m with
  | nil => rfl
  | cons t ts ih =>
    simp only [List.map_cons, runSteps, List.foldl_cons, deleteAll] at ih ⊢
    exact ih _

/-- The steps are the reload: run from the registry of the handler they end in the
registry `SetAdmissionControlHandler` leaves. -/
theorem reload_eq_runSteps (h : Handler) (hen : h.options.EnabledTenantsAdmission = true)
    (old new : List String) (hs : h.tenantsAdmissionMap.Load "/-/" = some (.tenants old)) :
    h.SetAdmissionControlHandler ⟨new⟩ =
      some { h with tenantsAdmissionMap := runSteps h.tenantsAdmissionMap (reloadSteps old new) } := by
  rw [next_reload h hen old new hs]
  simp only [reloadSteps, runSteps_append, runSteps_store, runSteps_delete]
  rfl

/-- A step on another key leaves the entry of `t` as it is. -/
theorem apply_other (m : SyncMap) (s : RegistryStep) (t : String)
    (hk : ∀ k v, s = .store k v → k ≠ t) (hd : ∀ k, s = .delete k → k ≠ t) :
    (s.apply m).Load t = m.Load t := by
  cases s with
  | store k v =>
    have := hk k v rfl
    simp [RegistryStep.apply, SyncMap.Store, SyncMap.Load, Ne.symm this]
  | delete k =>
    have := hd k rfl
    simp [RegistryStep.apply, SyncMap.Delete, SyncMap.Load, Ne.symm this]

theorem runSteps_other (m : SyncMap) (steps : List RegistryStep) (t : String)
    (hk : ∀ k v, .store k v ∈ steps → k ≠ t) (hd : ∀ k, .delete k ∈ steps → k ≠ t) :
    (runSteps m steps).Load t = m.Load t := by
  induction steps generalizing m with
  | nil => rfl
  | cons s steps ih =>
    simp only [runSteps, List.foldl_cons]
    have h1 := ih (s.apply m) (fun k v hm => hk k v (List.mem_cons_of_mem _ hm))
      (fun k hm => hd k (List.mem_cons_of_mem _ hm))
    simp only [runSteps] at h1
    rw [h1]
    exact apply_other m s t (fun k v he => hk k v (by simp [he]))
      (fun k he => hd k (by simp [he]))


/-- Steps that do not delete the key of `t` leave `t` present. -/
theorem runSteps_isSome (m : SyncMap) (steps : List RegistryStep) (t : String)
    (hd : ∀ k, .delete k ∈ steps → k ≠ t) (hadm : (m.Load t).isSome = true) :
    ((runSteps m steps).Load t).isSome = true := by
  induction steps generalizing m with
  | nil => exact hadm
  | cons s steps ih =>
    simp only [runSteps, List.foldl_cons]
    apply ih (s.apply m) (fun k hm => hd k (List.mem_cons_of_mem _ hm))
    cases s with
    | store k v =>
      by_cases hk : t = k
      · simp [RegistryStep.apply, SyncMap.Store, SyncMap.Load, hk]
      · simpa [RegistryStep.apply, SyncMap.Store, SyncMap.Load, hk] using hadm
    | delete k =>
      have := hd k (by simp)
      simpa [RegistryStep.apply, SyncMap.Delete, SyncMap.Load, Ne.symm this] using hadm

theorem mem_reloadSteps_store (old new : List String) (k : String) (v : Stored)
    (h : .store k v ∈ reloadSteps old new) : (k ∈ new ∧ k ∉ old) ∨ k = "/-/" := by
  simp only [reloadSteps, List.mem_append, List.mem_map, List.mem_singleton] at h
  rcases h with (⟨t, ht, he⟩ | ⟨t, _, he⟩) | he
  · cases he
    exact Or.inl ((mem_difference _ _ _).mp ht)
  · cases he
  · cases he
    exact Or.inr rfl

theorem mem_reloadSteps_delete (old new : List String) (k : String)
    (h : .delete k ∈ reloadSteps old new) : k ∈ old ∧ k ∉ new := by
  simp only [reloadSteps, List.mem_append, List.mem_map, List.mem_singleton] at h
  rcases h with (⟨t, _, he⟩ | ⟨t, ht, he⟩) | he
  · cases he
  · cases he
    exact (mem_difference _ _ _).mp ht
  · cases he

/-- C26, as stated, fails on the code for a tenant that has the name of the sentinel
key: after the reloads `[]` and then the list of that name alone, the key holds that
list; in the reload to a list that keeps the name and adds `x`, the last step replaces
the entry under the key by the new list. -/
theorem reload_changes_sentinel_entry :
    (reloadTwice admissionOptions [] ["/-/"]).map
        (fun h => h.tenantsAdmissionMap.Load "/-/") = some (some (.tenants ["/-/"])) ∧
      "/-/" ∈ ["/-/"] ∧ "/-/" ∈ ["/-/", "x"] ∧
      (reloadTwice admissionOptions [] ["/-/"]).map
        (fun h => (runSteps h.tenantsAdmissionMap
          (reloadSteps ["/-/"] ["/-/", "x"])).Load "/-/") =
        some (some (.tenants ["/-/", "x"])) := by
  decide

/-- C26, amended: in a reload of a registry that holds the list `old` to the list
`new`, after every initial part `pre` of the steps of the reload, a tenant that is in
both lists and was admitted is still admitted, and unless it has the name of the
sentinel key its entry is the one it had before the reload. -/
theorem reload_keeps_common (h : Handler) (old new : List String) (t : String)
    (pre rest : List RegistryStep)
    (hen : h.options.EnabledTenantsAdmission = true)
    (hs : h.tenantsAdmissionMap.Load "/-/" = some (.tenants old))
    (hold : t ∈ old) (hnew : t ∈ new)
    (hadm : (h.tenantsAdmissionMap.Load t).isSome = true)
    (hsplit : reloadSteps old new = pre ++ rest) :
    h.SetAdmissionControlHandler ⟨new⟩ =
        some { h with
          tenantsAdmissionMap := runSteps h.tenantsAdmissionMap (reloadSteps old new) } ∧
      ((runSteps h.tenantsAdmissionMap pre).Load t).isSome = true ∧
      (t ≠ "/-/" → (runSteps h.tenantsAdmissionMap pre).Load t = h.tenantsAdmissionMap.Load t) := by
  have hmem : ∀ s, s ∈ pre → s ∈ reloadSteps old new := fun s hsx => by
    rw [hsplit]; exact List.mem_append_left _ hsx
  have hdel : ∀ k, .delete k ∈ pre → k ≠ t := fun k hk hkt => by
    have := mem_reloadSteps_delete old new k (hmem _ hk)
    rw [hkt] at this
    exact this.2 hnew
  refine ⟨reload_eq_runSteps h hen old new hs, runSteps_isSome _ pre t hdel hadm, fun hne => ?_⟩
  apply runSteps_other _ pre t _ hdel
  intro k v hk hkt
  rcases mem_reloadSteps_store old new k v (hmem _ hk) with ⟨_, hno⟩ | hsent
  · rw [hkt] at hno
    exact hno hold
  · rw [hkt] at hsent
    exact hne hsent

/-- C26, amended, at the sample handler (list `acme`), the new list `acme`, `beta` and
the state after the store of `beta`. -/
theorem reload_keeps_common_witness :
    sampleHandler.SetAdmissionControlHandler ⟨["acme", "beta"]⟩ =
        some { sampleHandler with
          tenantsAdmissionMap :=
            runSteps sampleHandler.tenantsAdmissionMap (reloadSteps ["acme"] ["acme", "beta"]) } ∧
      ((runSteps sampleHandler.tenantsAdmissionMap
        [.store "beta" (.flag true)]).Load "acme").isSome = true ∧
      ("acme" ≠ "/-/" →
        (runSteps sampleHandler.tenantsAdmissionMap [.store "beta" (.flag true)]).Load "acme" =
          sampleHandler.tenantsAdmissionMap.Load "acme") :=
  reload_keeps_common sampleHandler ["acme"] ["acme", "beta"] "acme"
    [.store "beta" (.flag true)] [.store "/-/" (.tenants ["acme", "beta"])]
    rfl (by decide) (by decide) (by decide) (by decide) (by decide)

/-! ## C27: a query request without an expression -/

/-- C27, as stated, fails on the code: a POST request without a `query` parameter whose
form does not parse is answered with the status 400 and the text of the parse error,
since the form is parsed before the `query` parameter is looked at. -/
theorem query_broken_form_counterexample :
    sampleHandler.queryProxy.isSome = true ∧
      (sampleEnv.urlQuery (sampleBrokenForm (some "acme")).RawQuery).Get queryParam = "" ∧
      sampleHandler.query sampleEnv (sampleBrokenForm (some "acme")) =
        .respond 400 "invalid URL escape \"%zz\"\n" ∧
      (sampleHandler.query sampleEnv (sampleBrokenForm (some "acme"))).status ≠ none := by
  decide

/-- C27, amended: in the query handler with its upstream configured, for a request
whose `query` parameter is empty or absent in the URL: a request of a method other than
POST, and a POST request whose form parses and has an empty or absent `query`
parameter, return without invoking the upstream and without writing a status or a
body, whatever the context says about the tenant; a POST request whose form does not
parse is answered with the status 400 and the text of the parse error, and the upstream
is not invoked. -/
theorem query_without_expression (env : Env) (h : Handler) (req : Request) (p : ReverseProxy)
    (hp : h.queryProxy = some p)
    (hurl : (env.urlQuery req.RawQuery).Get queryParam = "") :
    (req.Method ≠ "POST" → h.query env req = .silent) ∧
      (∀ form, req.Method = "POST" → env.parseForm req = .ok form →
        form.Get queryParam = "" → h.query env req = .silent) ∧
      (∀ e, req.Method = "POST" → env.parseForm req = .error e →
        h.query env req = .respond 400 (e ++ "\n")) ∧
      Outcome.silent.status = none ∧ Outcome.silent.invokesUpstream = false := by
  refine ⟨fun hm => ?_, fun form hm hf hform => ?_, fun e hm hf => ?_, rfl, rfl⟩
  · unfold Handler.query
    simp only [hp, (postFormOf_method env req).1 hm]
    rw [if_pos ⟨hurl, rfl⟩]
  · unfold Handler.query
    simp only [hp, (postFormOf_method env req).2.1 form hm hf]
    rw [if_pos ⟨hurl, hform⟩]
  · unfold Handler.query
    simp only [hp, (postFormOf_method env req).2.2 e hm hf]
    rfl

/-- C27, amended, at the sample query without `query` parameter, for an unadmitted
tenant and without a tenant, and at the sample POST request whose form holds the
matcher parameter only. -/
theorem query_without_expression_witness :
    sampleHandler.query sampleEnv (sampleEmptyQuery (some "evil")) = .silent ∧
      sampleHandler.query sampleEnv (sampleEmptyQuery none) = .silent ∧
      sampleHandler.query sampleEnv (sampleSeries (some "evil")) = .silent ∧
      sampleHandler.query sampleEnv (sampleBrokenForm (some "evil")) =
        .respond 400 ("invalid URL escape \"%zz\"" ++ "\n") :=
  ⟨(query_without_expression sampleEnv sampleHandler (sampleEmptyQuery (some "evil")) ⟨"query"⟩
      rfl (by decide)).1 (by decide),
    (query_without_expression sampleEnv sampleHandler (sampleEmptyQuery none) ⟨"query"⟩
      rfl (by decide)).1 (by decide),
    (query_without_expression sampleEnv sampleHandler (sampleSeries (some "evil")) ⟨"query"⟩
      rfl (by decide)).2.1 (sampleValues "match[]=up") rfl rfl (by decide),
    (query_without_expression sampleEnv sampleHandler (sampleBrokenForm (some "evil")) ⟨"query"⟩
      rfl (by decide)).2.2.1 "invalid URL escape \"%zz\"" rfl rfl⟩

/-! ## C30: `indexByteNth` -/

/-- C30, evaluated on the code: asked for the first `a` (byte 97) of `a/b` the function
returns 1, the index of the first slash, and not 0; asked for the first `a` of `abc` it
returns -1; asked for the second `b` (byte 98) of `a/b/c` it returns 3, the index of
the second slash. -/
theorem indexByteNth_ignores_byte :
    indexByteNth "a/b" 97 1 = 1 ∧ indexByteNth "abc" 97 1 = -1 ∧
      indexByteNth "a/b/c" 98 2 = 3 ∧ indexByteNth "a/b" 47 1 = 1 := by
  decide

/-- C25 at lists with a repeated element: both occurrences of `a` are kept, `b` is
dropped, and a reload of the sample registry to the list `beta` stores `beta` and
deletes `acme`. -/
theorem difference_spec_witness :
    difference ["a", "b", "a", "c"] ["b"] = ["a", "a", "c"] ∧
      sampleHandler.SetAdmissionControlHandler ⟨["beta"]⟩ =
        some { sampleHandler with
          tenantsAdmissionMap :=
            (deleteAll (storeAll sampleHandler.tenantsAdmissionMap (difference ["beta"] ["acme"]))
              (difference ["acme"] ["beta"])).Store "/-/" (.tenants ["beta"]) } :=
  ⟨(difference_spec ["a", "b", "a", "c"] ["b"]).1.trans (by decide),
    (difference_spec ["beta"] []).2.2.2.2 sampleHandler ["acme"] rfl (by decide)⟩

/-! ## String maps: lemmas -/

theorem lookup_cons_if (k k2 v2 : String) (rest : List (String × String)) :
    List.lookup k ((k2, v2) :: rest) = if k = k2 then some v2 else rest.lookup k := by
  by_cases h : k = k2
  · subst h
    simp [List.lookup]
  · have hb : (k == k2) = false := by simpa using h
    simp [List.lookup, hb, h]

theorem lookup_setEntries (k v k1 : String) (l : List (String × String)) :
    (StringMap.setEntries k v l).lookup k1 = if k1 = k then some v else l.lookup k1 := by
  induction l with
  | nil =>
    by_cases h : k1 = k
    · simp [StringMap.setEntries, lookup_cons_if, h]
    · simp [StringMap.setEntries, lookup_cons_if, h]
  | cons e rest ih =>
    obtain ⟨k2, v2⟩ := e
    by_cases h2 : k2 = k
    · by_cases h : k1 = k
      · simp [StringMap.setEntries, lookup_cons_if, h2, h]
      · simp [StringMap.setEntries, lookup_cons_if, h2, h]
    · by_cases h : k1 = k
      · subst h
        have h3 : ¬ k1 = k2 := fun e => h2 e.symm
        simp [StringMap.setEntries, lookup_cons_if, h2, h3, ih]
      · by_cases h3 : k1 = k2
        · simp [StringMap.setEntries, lookup_cons_if, h2, h3]
        · simp [StringMap.setEntries, lookup_cons_if, h2, h3, ih, h]

theorem get?_set (m : StringMap) (k v k1 : String) :
    (m.set k v).get? k1 = if k1 = k then some v else m.get? k1 :=
  lookup_setEntries k v k1 m.entries

theorem lookup_eq_none_of_not_mem (k : String) (l : List (String × String))
    (h : k ∉ l.map Prod.fst) : l.lookup k = none := by
  induction l with
  | nil => rfl
  | cons e rest ih =>
    obtain ⟨k2, v2⟩ := e
    simp only [List.map_cons, List.mem_cons, not_or] at h
    simp [lookup_cons_if, h.1, ih h.2]

theorem get?_eq_none_of_not_mem_keys (m : StringMap) (k : String) (h : k ∉ m.keys) :
    m.get? k = none := by
  apply lookup_eq_none_of_not_mem
  simpa [StringMap.keys] using h

theorem copyLoop_get? (s : StringMap) (k : String) (ks : List String) (d : StringMap) :
    (ks.foldl
      (fun d k =>
        match s.get? k with
        | some v => d.set k v
        | none => d) d).get? k =
      if k ∈ ks then
        (match s.get? k with
        | some v => some v
        | none => d.get? k)
      else d.get? k := by
  induction ks generalizing d with
  | nil => simp
  | cons a rest ih =>
    rw [List.foldl_cons, ih]
    by_cases ha : k = a
    · subst ha
      cases hs : s.get? k with
      | none => simp
      | some v => simp [get?_set]
    · cases hs : s.get? a with
      | none => simp [ha]
      | some v => simp [ha, get?_set]

theorem copyInto_get? (d : StringMap) (src : Option StringMap) (k : String) :
    (copyInto d src).get? k =
      match lookupLabel src k with
      | some v => some v
      | none => d.get? k := by
  cases src with
  | none => rfl
  | some s =>
    simp only [copyInto, lookupLabel]
    rw [copyLoop_get?]
    by_cases hk : k ∈ s.keys
    · simp [hk]
    · simp [hk, get?_eq_none_of_not_mem_keys s k hk]

theorem mergeStringMap_get? (dst src : Option StringMap) (k : String) :
    (mergeStringMap dst [src]).get? k =
      match lookupLabel src k with
      | some v => some v
      | none => lookupLabel dst k := by
  simp only [mergeStringMap, List.foldl_cons, List.foldl_nil]
  rw [copyInto_get?]
  cases dst with
  | none => simp [lookupLabel, StringMap.get?]
  | some d => simp [lookupLabel]

/-! ## The component builders -/

theorem makePodTemplate_meta (env : BuildEnv) (c : Component) :
    (c.makePodTemplate env).1.ObjectMeta = (c.labelledPodTemplate env).ObjectMeta := by
  unfold Component.makePodTemplate
  simp only []
  split
  · split
    · rfl
    · split <;> rfl
  · rfl

theorem labelledPodTemplate_spec (env : BuildEnv) (c : Component) :
    (c.labelledPodTemplate env).Spec = (c.basePodTemplate env).Spec := by
  unfold Component.labelledPodTemplate
  cases c.CommonSpec.PodMetadata <;> rfl

theorem makePodTemplate_plain (env : BuildEnv) (c : Component)
    (h : len c.CommonSpec.Containers.Raw = 0) :
    c.makePodTemplate env = (c.labelledPodTemplate env, none) := by
  unfold Component.makePodTemplate
  simp [h]

theorem makePodTemplate_spec (env : BuildEnv) (c : Component)
    (h : (c.makePodTemplate env).2 = none) :
    (c.makePodTemplate env).1.Spec =
      { (c.basePodTemplate env).Spec with
        Containers := (c.makePodTemplate env).1.Spec.Containers } := by
  revert h
  unfold Component.makePodTemplate
  simp only []
  split
  · split
    · intro h
      cases h
    · split
      · intro h
        cases h
      · intro _
        simp only [labelledPodTemplate_spec]
  · intro _
    simp only [labelledPodTemplate_spec]

theorem makePodTemplate_patched (env : BuildEnv) (c : Component)
    (h : (c.makePodTemplate env).2 = none) (hraw : 0 < len c.CommonSpec.Containers.Raw) :
    ∃ embedded, env.DecodeRawToContainers c.CommonSpec.Containers = .ok embedded ∧
      env.MergePatchContainers [c.mainContainer] embedded =
        .ok (c.makePodTemplate env).1.Spec.Containers := by
  revert h
  unfold Component.makePodTemplate
  simp only [gt_iff_lt, hraw, if_true]
  cases h1 : env.DecodeRawToContainers c.CommonSpec.Containers with
  | error e =>
    intro h
    cases h
  | ok embedded =>
    simp only [labelledPodTemplate_spec]
    cases h2 : env.MergePatchContainers (c.basePodTemplate env).Spec.Containers embedded with
    | error e =>
      intro h
      cases h
    | ok containers =>
      intro _
      exact ⟨embedded, rfl, h2⟩

theorem MakeStatefulset_ok (env : BuildEnv) (c : Component) (sts : StatefulSet)
    (h : c.MakeStatefulset env = .ok sts) :
    (c.makePodTemplate env).2 = none ∧
      sts =
        { ObjectMeta := c.MakeObjectMeta env
          Spec :=
            { Replicas := c.CommonSpec.Replicas
              MatchLabels := (c.MakeObjectMeta env).Labels
              Template := (c.makePodTemplate env).1
              VolumeClaimTemplates := []
              ServiceName := (c.MakeService env).ObjectMeta.Name } } := by
  unfold Component.MakeStatefulset at h
  simp only [] at h
  cases hp : c.makePodTemplate env with
  | mk t e =>
    rw [hp] at h
    cases e with
    | some err => cases h
    | none =>
      simp only [Except.ok.injEq] at h
      exact ⟨rfl, h.symm⟩

theorem MakeDeployment_ok (env : BuildEnv) (c : Component) (d : Deployment)
    (h : c.MakeDeployment env = .ok d) :
    (c.makePodTemplate env).2 = none ∧
      d =
        { ObjectMeta := c.MakeObjectMeta env
          Spec :=
            { Replicas := c.CommonSpec.Replicas
              MatchLabels := (c.MakeObjectMeta env).Labels
              Template := (c.makePodTemplate env).1 } } := by
  unfold Component.MakeDeployment at h
  simp only [] at h
  cases hp : c.makePodTemplate env with
  | mk t e =>
    rw [hp] at h
    cases e with
    | some err => cases h
    | none =>
      simp only [Except.ok.injEq] at h
      exact ⟨rfl, h.symm⟩

theorem MakeStatefulset_plain (env : BuildEnv) (c : Component)
    (h : len c.CommonSpec.Containers.Raw = 0) :
    c.MakeStatefulset env =
      .ok
        { ObjectMeta := c.MakeObjectMeta env
          Spec :=
            { Replicas := c.CommonSpec.Replicas
              MatchLabels := (c.MakeObjectMeta env).Labels
              Template := c.labelledPodTemplate env
              VolumeClaimTemplates := []
              ServiceName := (c.MakeService env).ObjectMeta.Name } } := by
  unfold Component.MakeStatefulset
  simp only [makePodTemplate_plain env c h]

/-! ## C21: the StatefulSet of a component -/

/-- C21, at a component whose container patch names another image: `MakeStatefulset`
returns a StatefulSet whose only container is named `compactor` and has the image
`other:2.0` of the patch, not the image `comp:1.0` of the CommonSpec. -/
theorem MakeStatefulset_patched_image :
    samplePatchedComponent.AppName = "compactor" ∧
      samplePatchedComponent.CommonSpec.Image = "comp:1.0" ∧
      (samplePatchedComponent.MakeStatefulset sampleBuildEnv).toOption.map
          (fun sts => sts.Spec.Template.Spec.Containers.map (fun c => (c.Name, c.Image))) =
        some [("compactor", "other:2.0")] := by
  decide

/-- C21, amended: every StatefulSet that `MakeStatefulset` returns has the name and
the namespace of the instance, exactly one owner reference, which carries the UID and
the name of the instance and is marked as controller, the name of the Service of
`MakeService` as its ServiceName, and a pod spec with the node selector, tolerations,
security context and image pull secrets of the CommonSpec; its containers are what
`MergePatchContainers` makes of the main container (named `AppName`, with the image and
pull policy of the CommonSpec) and the decoded container patches. When the CommonSpec
has no container patches, `MakeStatefulset` returns a StatefulSet and the main container
is its only container. -/
theorem MakeStatefulset_spec (env : BuildEnv) (c : Component) :
    (∀ sts, c.MakeStatefulset env = .ok sts →
      sts.ObjectMeta.Name = c.Instance.Name ∧
      sts.ObjectMeta.Namespace = c.Instance.Namespace ∧
      sts.ObjectMeta.OwnerReferences =
        [{ APIVersion := c.Instance.APIVersion
           Kind := c.Instance.Kind
           Name := c.Instance.Name
           UID := c.Instance.UID
           Controller := some true }] ∧
      sts.Spec.ServiceName = (c.MakeService env).ObjectMeta.Name ∧
      sts.Spec.Template.Spec.NodeSelector = c.CommonSpec.NodeSelector ∧
      sts.Spec.Template.Spec.Tolerations = c.CommonSpec.Tolerations ∧
      sts.Spec.Template.Spec.SecurityContext = c.CommonSpec.SecurityContext ∧
      sts.Spec.Template.Spec.ImagePullSecrets = c.CommonSpec.ImagePullSecrets ∧
      (0 < len c.CommonSpec.Containers.Raw →
        ∃ embedded, env.DecodeRawToContainers c.CommonSpec.Containers = .ok embedded ∧
          env.MergePatchContainers [c.mainContainer] embedded =
            .ok sts.Spec.Template.Spec.Containers)) ∧
      (len c.CommonSpec.Containers.Raw = 0 →
        ∃ sts, c.MakeStatefulset env = .ok sts ∧
          sts.Spec.Template.Spec.Containers = [c.mainContainer] ∧
          c.mainContainer.Name = c.AppName ∧
          c.mainContainer.Image = c.CommonSpec.Image ∧
          c.mainContainer.ImagePullPolicy = c.CommonSpec.ImagePullPolicy) := by
  constructor
  · intro sts h
    obtain ⟨herr, hsts⟩ := MakeStatefulset_ok env c sts h
    have hspec := makePodTemplate_spec env c herr
    subst hsts
    refine ⟨rfl, rfl, rfl, rfl, ?_, ?_, ?_, ?_, ?_⟩
    · simp only []
      rw [hspec]
      rfl
    · simp only []
      rw [hspec]
      rfl
    · simp only []
      rw [hspec]
      rfl
    · simp only []
      rw [hspec]
      rfl
    · intro hraw
      exact makePodTemplate_patched env c herr hraw
  · intro h
    refine ⟨_, MakeStatefulset_plain env c h, ?_, rfl, rfl, rfl⟩
    simp only [labelledPodTemplate_spec]
    rfl

/-- C21 at the component of `TestComponentStatefulSetBuild`: the StatefulSet is
returned, is named `comp` in the namespace `ns`, is served by `comp-operated`, and its
only container is the main container `compactor` with the image `comp:1.0`. -/
theorem MakeStatefulset_spec_witness :
    ∃ sts, sampleComponent.MakeStatefulset sampleBuildEnv = .ok sts ∧
      sts.ObjectMeta.Name = "comp" ∧
      sts.ObjectMeta.Namespace = "ns" ∧
      sts.Spec.ServiceName = "comp-operated" ∧
      sts.Spec.Template.Spec.Containers = [sampleComponent.mainContainer] ∧
      sampleComponent.mainContainer.Image = "comp:1.0" := by
  obtain ⟨sts, h, hc, _, hi, _⟩ :=
    (MakeStatefulset_spec sampleBuildEnv sampleComponent).2 (by decide)
  obtain ⟨h1, h2, _, h4, _⟩ := (MakeStatefulset_spec sampleBuildEnv sampleComponent).1 sts h
  exact ⟨sts, h, h1, h2, h4.trans (by decide), hc, hi⟩

/-! ## C22: merging labels and annotations -/

/-- C22: label and annotation merging is a right-biased union. After `WithPodLabels L`
on a template with the labels `D`, the labels bind a key `k` to `L[k]` when `L` binds
it, and otherwise to `D[k]` when `D` binds it, and to nothing else (`unionAt D L k`);
likewise the annotations after `WithPodAnnotations`, and the labels and annotations of
the template of `makePodTemplate` over those of the base template when the CommonSpec
has a `PodMetadata`. -/
theorem merge_right_biased (k : String) :
    (∀ (L : Option StringMap) (t : PodTemplateSpec),
      lookupLabel (WithPodLabels L t).ObjectMeta.Labels k = unionAt t.ObjectMeta.Labels L k) ∧
    (∀ (L : Option StringMap) (t : PodTemplateSpec),
      lookupLabel (WithPodAnnotations L t).ObjectMeta.Annotations k =
        unionAt t.ObjectMeta.Annotations L k) ∧
    (∀ (env : BuildEnv) (c : Component) (pm : EmbeddedObjectMetadata),
      c.CommonSpec.PodMetadata = some pm →
      lookupLabel (c.makePodTemplate env).1.ObjectMeta.Labels k =
          unionAt (c.basePodTemplate env).ObjectMeta.Labels pm.Labels k ∧
        lookupLabel (c.makePodTemplate env).1.ObjectMeta.Annotations k =
          unionAt (c.basePodTemplate env).ObjectMeta.Annotations pm.Annotations k) := by
  refine ⟨fun L t => ?_, fun L t => ?_, fun env c pm hpm => ?_⟩
  · exact mergeStringMap_get? t.ObjectMeta.Labels L k
  · exact mergeStringMap_get? t.ObjectMeta.Annotations L k
  · rw [makePodTemplate_meta]
    unfold Component.labelledPodTemplate
    simp only [hpm]
    constructor
    · exact mergeStringMap_get? _ pm.Labels k
    · exact mergeStringMap_get? _ pm.Annotations k

/-- C22 at the maps of `TestComponentStatefulSetBuild`: the template of the sample
component has the pod label `pod` of its `PodMetadata` and keeps the label of the
application name, and `WithPodLabels` adds the label `extra`. -/
theorem merge_right_biased_witness :
    lookupLabel (WithPodLabels (some ⟨[("extra", "label")]⟩) sampleTemplate).ObjectMeta.Labels
        "extra" = some "label" ∧
      lookupLabel (sampleComponent.makePodTemplate sampleBuildEnv).1.ObjectMeta.Labels "pod" =
        some "label" :=
  ⟨((merge_right_biased "extra").1 (some ⟨[("extra", "label")]⟩) sampleTemplate).trans
      (by decide),
    (((merge_right_biased "pod").2.2 sampleBuildEnv sampleComponent _ rfl).1).trans
      (by decide)⟩

/-! ## C28: the selector of a workload and the labels of its pods -/

theorem lookup_pair (a x b y k v : String)
    (h : lookupLabel (some ⟨[(a, x), (b, y)]⟩) k = some v) : k = a ∨ k = b := by
  simp only [lookupLabel, StringMap.get?, lookup_cons_if] at h
  by_cases h1 : k = a
  · exact Or.inl h1
  · by_cases h2 : k = b
    · exact Or.inr h2
    · simp [h1, h2] at h

/-- The selector of a workload matches the labels of its pod template when the
`PodMetadata` of the CommonSpec binds neither of the two keys of the selector. -/
theorem selector_matches_unless_relabelled (env : BuildEnv) (c : Component)
    (h : ∀ pm, c.CommonSpec.PodMetadata = some pm →
      lookupLabel pm.Labels env.LabelNameAppName = none ∧
        lookupLabel pm.Labels env.LabelNameAppManagedBy = none)
    (k v : String) (hk : lookupLabel (c.MakeObjectMeta env).Labels k = some v) :
    lookupLabel (c.makePodTemplate env).1.ObjectMeta.Labels k = some v := by
  rw [makePodTemplate_meta]
  unfold Component.labelledPodTemplate
  cases hpm : c.CommonSpec.PodMetadata with
  | none => exact hk
  | some pm =>
    simp only []
    have hu : lookupLabel (some (mergeStringMap (c.basePodTemplate env).ObjectMeta.Labels
        [pm.Labels])) k = unionAt (c.basePodTemplate env).ObjectMeta.Labels pm.Labels k :=
      mergeStringMap_get? _ pm.Labels k
    have hb : lookupLabel (c.basePodTemplate env).ObjectMeta.Labels k = some v := hk
    have hnone : lookupLabel pm.Labels k = none := by
      rcases lookup_pair _ _ _ _ k v hk with h1 | h1
      · rw [h1]
        exact (h pm hpm).1
      · rw [h1]
        exact (h pm hpm).2
    have : mergedInPlace (c.basePodTemplate env).ObjectMeta.Labels [pm.Labels] =
        some (mergeStringMap (c.basePodTemplate env).ObjectMeta.Labels [pm.Labels]) := rfl
    rw [this, hu]
    simp only [unionAt, hnone, hb]

/-- C28, at a component whose `PodMetadata` labels bind the key of the application
name: the StatefulSet and the Deployment are returned, their selectors ask for the
label value `compactor`, and the labels of their pod templates bind the key to `other`. -/
theorem selector_misses_relabelled_pods :
    (sampleRelabelledComponent.MakeStatefulset sampleBuildEnv).toOption.map
        (fun sts =>
          (lookupLabel sts.Spec.MatchLabels "app.kubernetes.io/name",
            lookupLabel sts.Spec.Template.ObjectMeta.Labels "app.kubernetes.io/name")) =
        some (some "compactor", some "other") ∧
      (sampleRelabelledComponent.MakeDeployment sampleBuildEnv).toOption.map
        (fun d =>
          (lookupLabel d.Spec.MatchLabels "app.kubernetes.io/name",
            lookupLabel d.Spec.Template.ObjectMeta.Labels "app.kubernetes.io/name")) =
        some (some "compactor", some "other") := by
  decide

/-! ## C23: `ForContainer` -/

theorem getElem?_append_cons_length (l1 l2 : List Container) (a : Container) :
    (l1 ++ a :: l2)[l1.length]? = some a := by
  induction l1 with
  | nil => simp
  | cons b rest ih => simpa using ih

theorem set_append_cons_length (l1 l2 : List Container) (a b : Container) :
    (l1 ++ a :: l2).set l1.length b = l1 ++ b :: l2 := by
  induction l1 with
  | nil => rfl
  | cons c rest ih => simp [ih]

/-- The loop of `ForContainer` after `n` rounds: the first `n` containers are done. -/
theorem forContainer_loop (name : String) (mutators : List (Option (Container → Container)))
    (cs : List Container) (n : Nat) (hn : n ≤ cs.length) :
    (List.range n).foldl (forContainerStep name mutators) cs =
      (cs.take n).map
          (fun c => if c.Name = name then applyContainerMutators mutators c else c) ++
        cs.drop n := by
  induction n with
  | zero => simp
  | succ n ih =>
    have hlt : n < cs.length := hn
    rw [List.range_succ, List.foldl_append, ih (Nat.le_of_lt hlt)]
    simp only [List.foldl_cons, List.foldl_nil]
    have hdrop : cs.drop n = cs[n] :: cs.drop (n + 1) := List.drop_eq_getElem_cons hlt
    have htake : cs.take (n + 1) = cs.take n ++ [cs[n]] := by
      rw [List.take_succ]
      simp [List.getElem?_eq_getElem hlt]
    rw [hdrop, htake]
    generalize hl1 : (cs.take n).map
        (fun c => if c.Name = name then applyContainerMutators mutators c else c) = l1
    have hlen : l1.length = n := by
      rw [← hl1]
      simp [Nat.min_eq_left (Nat.le_of_lt hlt)]
    unfold forContainerStep
    have hget := getElem?_append_cons_length l1 (cs.drop (n + 1)) cs[n]
    rw [hlen] at hget
    rw [hget]
    simp only [ne_eq, ite_not, List.map_append, List.map_cons, List.map_nil, List.append_assoc,
      List.singleton_append, hl1]
    by_cases hname : cs[n].Name = name
    · simp only [hname, if_true]
      have hset := set_append_cons_length l1 (cs.drop (n + 1)) cs[n]
        (applyContainerMutators mutators cs[n])
      rw [hlen] at hset
      rw [hset]
    · simp only [hname, if_false]

theorem ForContainer_map (name : String) (mutators : List (Option (Container → Container)))
    (spec : PodSpec) :
    ForContainer name mutators spec =
      { spec with
        Containers :=
          spec.Containers.map
            (fun c => if c.Name = name then applyContainerMutators mutators c else c) } := by
  unfold ForContainer
  rw [forContainer_loop name mutators spec.Containers _ (Nat.le_refl _)]
  simp

theorem applyContainerMutators_filterMap (mutators : List (Option (Container → Container)))
    (c : Container) :
    applyContainerMutators mutators c = (mutators.filterMap id).foldl (fun c f => f c) c := by
  unfold applyContainerMutators
  induction mutators generalizing c with
  | nil => rfl
  | cons m rest ih =>
    cases m with
    | none => simpa using ih c
    | some f => simpa using ih (f c)

/-- C23: `ForContainer(name, mutators...)` keeps the number and the order of the
containers; the container at every index is the one that was there, with the mutators
that are not nil applied to it in their order when its name is `name`, and unchanged
otherwise; every other field of the pod spec is unchanged; and when no container has
the name, the pod spec is unchanged. -/
theorem ForContainer_spec (name : String) (mutators : List (Option (Container → Container)))
    (spec : PodSpec) :
    (ForContainer name mutators spec).Containers.length = spec.Containers.length ∧
      (∀ (i : Nat) (c : Container), spec.Containers[i]? = some c →
        (ForContainer name mutators spec).Containers[i]? =
          some (if c.Name = name then (mutators.filterMap id).foldl (fun c f => f c) c else c)) ∧
      { ForContainer name mutators spec with Containers := spec.Containers } = spec ∧
      ((∀ c ∈ spec.Containers, c.Name ≠ name) → ForContainer name mutators spec = spec) := by
  rw [ForContainer_map]
  refine ⟨by simp, fun i c hc => ?_, rfl, fun h => ?_⟩
  · simp only [List.getElem?_map, hc, Option.map_some', applyContainerMutators_filterMap]
  · have hmap : spec.Containers.map
        (fun c => if c.Name = name then applyContainerMutators mutators c else c) =
        spec.Containers := by
      conv_rhs => rw [← List.map_id spec.Containers]
      apply List.map_congr_left
      intro c hc
      simp [h c hc]
    rw [hmap]

/-- C23 at the pod spec of the sample component, as in `TestComponentStatefulSetBuild`:
the container `compactor` gets the liveness probe and then the port (the nil mutator is
skipped), and for a name that no container has the pod spec is returned as it was. -/
theorem ForContainer_spec_witness :
    (ForContainer "compactor"
        [some (WithLivenessProbe (some ⟨5⟩)), none, some (AppendPorts [⟨"http", 8080⟩])]
        sampleTemplate.Spec).Containers[0]? =
        some { sampleComponent.mainContainer with
          LivenessProbe := some ⟨5⟩
          Ports := [⟨"http", 8080⟩] } ∧
      ForContainer "sidecar" [some (WithLivenessProbe none)] sampleTemplate.Spec =
        sampleTemplate.Spec :=
  ⟨((ForContainer_spec "compactor"
      [some (WithLivenessProbe (some ⟨5⟩)), none, some (AppendPorts [⟨"http", 8080⟩])]
      sampleTemplate.Spec).2.1 0 sampleComponent.mainContainer (by decide)).trans (by decide),
    (ForContainer_spec "sidecar" [some (WithLivenessProbe none)] sampleTemplate.Spec).2.2.2
      (by decide)⟩

/-! ## C24: `CommonOptions.Override` -/

/-- C24, at a replica count that is set and negative: the spec asks for `-1` replicas,
which is not nil, and after `Override` it asks for the `1` of the options. -/
theorem Override_replaces_negative_replicas :
    sampleNegativeSpec.Replicas = some (-1) ∧
      (sampleOptions.Override sampleNegativeSpec).Replicas = some 1 := by
  decide

/-- C24, amended: after `o.Override(s)` each of Image, ImagePullPolicy, LogLevel and
LogFormat is the value of `s` when that is not the empty string and the value of `o`
when it is; each of Affinity, Tolerations, NodeSelector, Resources.Limits,
Resources.Requests and Flags is the value of `s` when that is not nil and the value of
`o` when it is; Replicas is the value of `s` when that is neither nil nor negative, and
the value of `o` when it is nil or negative; every other field of `s` is unchanged. -/
theorem Override_spec (o : CommonOptions) (s : CommonSpec) :
    (o.Override s).Image = (if s.Image = "" then o.Image else s.Image) ∧
      (o.Override s).ImagePullPolicy =
        (if s.ImagePullPolicy = "" then o.ImagePullPolicy else s.ImagePullPolicy) ∧
      (o.Override s).Replicas =
        (match s.Replicas with
        | none => o.Replicas
        | some n => if n < 0 then o.Replicas else some n) ∧
      (o.Override s).Affinity = (if s.Affinity = none then o.Affinity else s.Affinity) ∧
      (o.Override s).Tolerations =
        (if s.Tolerations = none then o.Tolerations else s.Tolerations) ∧
      (o.Override s).NodeSelector =
        (if s.NodeSelector = none then o.NodeSelector else s.NodeSelector) ∧
      (o.Override s).Resources.Limits =
        (if s.Resources.Limits = none then o.Resources.Limits else s.Resources.Limits) ∧
      (o.Override s).Resources.Requests =
        (if s.Resources.Requests = none then o.Resources.Requests else s.Resources.Requests) ∧
      (o.Override s).LogLevel = (if s.LogLevel = "" then o.LogLevel else s.LogLevel) ∧
      (o.Override s).LogFormat = (if s.LogFormat = "" then o.LogFormat else s.LogFormat) ∧
      (o.Override s).Flags = (if s.Flags = none then o.Flags else s.Flags) ∧
      (o.Override s).SecurityContext = s.SecurityContext ∧
      (o.Override s).ImagePullSecrets = s.ImagePullSecrets ∧
      (o.Override s).PodMetadata = s.PodMetadata ∧
      (o.Override s).Containers = s.Containers := by
  refine ⟨?_, ?_, ?_, ?_, ?_, ?_, ?_, ?_, ?_, ?_, ?_, ?_, ?_, ?_, ?_⟩
  · simp only [CommonOptions.Override, apply_ite CommonSpec.Image, ite_self]
  · simp only [CommonOptions.Override, apply_ite CommonSpec.ImagePullPolicy, ite_self]
  · simp only [CommonOptions.Override, apply_ite CommonSpec.Replicas, ite_self]
    cases hr : s.Replicas with
    | none => simp [nilOrNegative]
    | some n =>
      by_cases hn : n < 0
      · cases ho : o.Replicas <;> simp [nilOrNegative, hn]
      · simp [nilOrNegative, hn]
  · simp only [CommonOptions.Override, apply_ite CommonSpec.Affinity, ite_self]
  · simp only [CommonOptions.Override, apply_ite CommonSpec.Tolerations, ite_self]
  · simp only [CommonOptions.Override, apply_ite CommonSpec.NodeSelector, ite_self]
  · simp only [CommonOptions.Override, apply_ite CommonSpec.Resources,
      apply_ite ResourceRequirements.Limits, ite_self]
  · simp only [CommonOptions.Override, apply_ite CommonSpec.Resources,
      apply_ite ResourceRequirements.Requests, ite_self]
  · simp only [CommonOptions.Override, apply_ite CommonSpec.LogLevel, ite_self]
  · simp only [CommonOptions.Override, apply_ite CommonSpec.LogFormat, ite_self]
  · simp only [CommonOptions.Override, apply_ite CommonSpec.Flags, ite_self]
  · simp only [CommonOptions.Override, apply_ite CommonSpec.SecurityContext, ite_self]
  · simp only [CommonOptions.Override, apply_ite CommonSpec.ImagePullSecrets, ite_self]
  · simp only [CommonOptions.Override, apply_ite CommonSpec.PodMetadata, ite_self]
  · simp only [CommonOptions.Override, apply_ite CommonSpec.Containers, ite_self]

/-- C24 at the sample options and the CommonSpec of the sample component, with two
replicas asked for: the image and the replica count of the spec are kept, and the empty
log level takes the value of the options. -/
theorem Override_spec_witness :
    (sampleOptions.Override { sampleComponent.CommonSpec with Replicas := some 2 }).Image =
        "comp:1.0" ∧
      (sampleOptions.Override { sampleComponent.CommonSpec with Replicas := some 2 }).Replicas =
        some 2 ∧
      (sampleOptions.Override { sampleComponent.CommonSpec with Replicas := some 2 }).LogLevel =
        "info" :=
  ⟨(Override_spec sampleOptions { sampleComponent.CommonSpec with Replicas := some 2 }).1.trans
      (by decide),
    (Override_spec sampleOptions
      { sampleComponent.CommonSpec with Replicas := some 2 }).2.2.1.trans (by decide),
    (Override_spec sampleOptions
      { sampleComponent.CommonSpec with Replicas := some 2 }).2.2.2.2.2.2.2.2.1.trans
      (by decide)⟩

/-! ## C29: the defaults and the validation of a Thanos spec -/

theorem defaultReplicas_expected (r : Option Int) :
    defaultReplicas r = some (expectedReplicas r) := by
  cases r with
  | none => rfl
  | some n =>
    by_cases hn : n < 0
    · have h0 : ¬ 0 ≤ n := by omega
      simp [defaultReplicas, nilOrNegative, expectedReplicas, hn, h0]
    · have h0 : 0 ≤ n := by omega
      simp [defaultReplicas, nilOrNegative, expectedReplicas, hn, h0]

theorem expectedReplicas_nonneg (r : Option Int) : 0 ≤ expectedReplicas r := by
  cases r with
  | none => decide
  | some n =>
    by_cases hn : 0 ≤ n
    · simp [expectedReplicas, hn]
    · simp [expectedReplicas, hn]

theorem defaultIngestors_error (d : CommonThanosFields) (l acc : List ReceiveIngestor) :
    (∃ err, defaultIngestors d l acc = .error err) ↔ ∃ i ∈ l, i.Name = "" := by
  induction l generalizing acc with
  | nil => simp [defaultIngestors]
  | cons i rest ih =>
    by_cases hi : i.Name = ""
    · simp [defaultIngestors, hi]
    · simp only [defaultIngestors, hi, if_false, ih, List.mem_cons, exists_eq_or_imp, false_or]

theorem defaultIngestors_ok (d : CommonThanosFields) (l acc out : List ReceiveIngestor)
    (h : defaultIngestors d l acc = .ok out) :
    ∃ rest, out = acc ++ rest ∧
      List.Forall₂
        (fun i o => o.Name = i.Name ∧ o.Replicas = some (expectedReplicas i.Replicas)) l rest := by
  induction l generalizing acc with
  | nil =>
    simp only [defaultIngestors, Except.ok.injEq] at h
    exact ⟨[], by simp [h], List.Forall₂.nil⟩
  | cons i rest ih =>
    by_cases hi : i.Name = ""
    · simp [defaultIngestors, hi] at h
    · simp only [defaultIngestors, hi, if_false] at h
      obtain ⟨tail, hout, hall⟩ := ih _ h
      refine ⟨{ Name := i.Name
                CommonThanosFields := applyDefaultFields d i.CommonThanosFields
                Replicas := defaultReplicas i.Replicas } :: tail,
        by simpa using hout, List.Forall₂.cons ⟨rfl, ?_⟩ hall⟩
      exact defaultReplicas_expected i.Replicas

theorem defaultQuery_receive (cfg : Config) (spec : ThanosSpec) :
    (defaultQuery cfg spec).Receive = spec.Receive ∧
      (defaultQuery cfg spec).StoreGateway = spec.StoreGateway ∧
      (defaultQuery cfg spec).Compact = spec.Compact := by
  unfold defaultQuery
  simp only []
  split <;> split <;> simp_all

theorem defaultQuery_query (cfg : Config) (spec : ThanosSpec) (q : Query)
    (h : spec.Query = some q) :
    ∃ q1, (defaultQuery cfg spec).Query = some q1 ∧
      q1.Replicas = some (expectedReplicas q.Replicas) := by
  unfold defaultQuery
  by_cases hd : spec.DefaultFields.Image = ""
  · simp [hd, h, defaultReplicas_expected]
  · simp [hd, h, defaultReplicas_expected]

theorem defaultStoreAndCompact_spec (spec : ThanosSpec) :
    (defaultStoreAndCompact spec).Query = spec.Query ∧
      (defaultStoreAndCompact spec).Receive = spec.Receive ∧
      (∀ s, spec.StoreGateway = some s →
        ∃ s1, (defaultStoreAndCompact spec).StoreGateway = some s1 ∧
          s1.Replicas = some (expectedReplicas s.Replicas)) ∧
      (∀ c, spec.Compact = some c →
        ∃ c1, (defaultStoreAndCompact spec).Compact = some c1 ∧
          c1.Replicas = some (expectedReplicas c.Replicas)) := by
  unfold defaultStoreAndCompact
  cases hs : spec.StoreGateway with
  | none =>
    cases hc : spec.Compact with
    | none => simp [hs, hc]
    | some c => simp [hs, hc, defaultReplicas_expected]
  | some s =>
    cases hc : spec.Compact with
    | none => simp [hs, hc, defaultReplicas_expected]
    | some c => simp [hs, hc, defaultReplicas_expected]

theorem validator_without_receive (cfg : Config) (spec : ThanosSpec)
    (hr : spec.Receive = none) :
    CreateThanosDefaulterValidator cfg spec =
      (defaultStoreAndCompact (defaultQuery cfg spec), none) := by
  have hrec := (defaultQuery_receive cfg spec).1
  rw [hr] at hrec
  unfold CreateThanosDefaulterValidator
  simp only [hrec]

theorem validator_with_receive (cfg : Config) (spec : ThanosSpec) (r : Receive)
    (hr : spec.Receive = some r) :
    CreateThanosDefaulterValidator cfg spec =
      match defaultIngestors (defaultQuery cfg spec).DefaultFields r.Ingestors [] with
      | .error err =>
        ({ defaultQuery cfg spec with
          Receive :=
            some
              { r with
                Router :=
                  { CommonThanosFields :=
                      applyDefaultFields (defaultQuery cfg spec).DefaultFields
                        r.Router.CommonThanosFields
                    Replicas := defaultReplicas r.Router.Replicas } } }, some err)
      | .ok ingestors =>
        (defaultStoreAndCompact
          { defaultQuery cfg spec with
            Receive :=
              some
                { Router :=
                    { CommonThanosFields :=
                        applyDefaultFields (defaultQuery cfg spec).DefaultFields
                          r.Router.CommonThanosFields
                      Replicas := defaultReplicas r.Router.Replicas }
                  Ingestors := ingestors } }, none) := by
  have hrec := (defaultQuery_receive cfg spec).1
  rw [hr] at hrec
  unfold CreateThanosDefaulterValidator
  simp only [hrec]

/-- C29: the validator of `CreateThanosDefaulterValidator` returns an error if and only
if the receive component is configured and one of its ingestors has an empty name. When
it returns no error, every configured component of the spec it returns (the query
component, the router and every ingestor of the receive component, the store gateway
and the compactor) has a replica count that is set and equals `expectedReplicas` of its
input value, which is the input value when that was set and not negative and 1
otherwise, and is never negative; and the ingestors correspond one to one, in order
and with their names, to those of the input. -/
theorem validator_spec (cfg : Config) (spec : ThanosSpec) :
    (((CreateThanosDefaulterValidator cfg spec).2.isSome = true) ↔
        ∃ r, spec.Receive = some r ∧ ∃ i ∈ r.Ingestors, i.Name = "") ∧
      ((CreateThanosDefaulterValidator cfg spec).2 = none →
        (∀ q, spec.Query = some q →
          ∃ q1, (CreateThanosDefaulterValidator cfg spec).1.Query = some q1 ∧
            q1.Replicas = some (expectedReplicas q.Replicas)) ∧
        (∀ r, spec.Receive = some r →
          ∃ r1, (CreateThanosDefaulterValidator cfg spec).1.Receive = some r1 ∧
            r1.Router.Replicas = some (expectedReplicas r.Router.Replicas) ∧
            List.Forall₂
              (fun i o => o.Name = i.Name ∧ o.Replicas = some (expectedReplicas i.Replicas))
              r.Ingestors r1.Ingestors) ∧
        (∀ s, spec.StoreGateway = some s →
          ∃ s1, (CreateThanosDefaulterValidator cfg spec).1.StoreGateway = some s1 ∧
            s1.Replicas = some (expectedReplicas s.Replicas)) ∧
        (∀ c, spec.Compact = some c →
          ∃ c1, (CreateThanosDefaulterValidator cfg spec).1.Compact = some c1 ∧
            c1.Replicas = some (expectedReplicas c.Replicas))) ∧
      (∀ r : Option Int, 0 ≤ expectedReplicas r ∧
        ∀ n : Int, r = some n → 0 ≤ n → expectedReplicas r = n) := by
  obtain ⟨_, hsg, hcomp⟩ := defaultQuery_receive cfg spec
  refine ⟨?_, ?_, fun r => ⟨expectedReplicas_nonneg r, fun n hn h0 => ?_⟩⟩
  · cases hr : spec.Receive with
    | none => simp [validator_without_receive cfg spec hr]
    | some r =>
      rw [validator_with_receive cfg spec r hr]
      have herr := defaultIngestors_error (defaultQuery cfg spec).DefaultFields r.Ingestors []
      cases hl : defaultIngestors (defaultQuery cfg spec).DefaultFields r.Ingestors [] with
      | error err =>
        have : ∃ i ∈ r.Ingestors, i.Name = "" := herr.1 ⟨err, hl⟩
        simpa using this
      | ok ingestors =>
        have : ¬ ∃ i ∈ r.Ingestors, i.Name = "" := by
          intro h
          obtain ⟨err, he⟩ := herr.2 h
          rw [hl] at he
          cases he
        simpa using this
  · cases hr : spec.Receive with
    | none =>
      rw [validator_without_receive cfg spec hr]
      intro _
      obtain ⟨hq, _, hs, hc⟩ := defaultStoreAndCompact_spec (defaultQuery cfg spec)
      refine ⟨fun q h => ?_, fun r h => (by cases h), fun s h => ?_, fun c h => ?_⟩
      · simp only [hq]
        exact defaultQuery_query cfg spec q h
      · exact hs s (hsg.trans h)
      · exact hc c (hcomp.trans h)
    | some r =>
      rw [validator_with_receive cfg spec r hr]
      cases hl : defaultIngestors (defaultQuery cfg spec).DefaultFields r.Ingestors [] with
      | error err =>
        intro h
        cases h
      | ok ingestors =>
        intro _
        obtain ⟨rest, hrest, hall⟩ := defaultIngestors_ok _ _ _ _ hl
        simp only [List.nil_append] at hrest
        subst hrest
        obtain ⟨hq, hrcv, hs, hc⟩ := defaultStoreAndCompact_spec
          { defaultQuery cfg spec with
            Receive :=
              some
                { Router :=
                    { CommonThanosFields :=
                        applyDefaultFields (defaultQuery cfg spec).DefaultFields
                          r.Router.CommonThanosFields
                      Replicas := defaultReplicas r.Router.Replicas }
                  Ingestors := ingestors } }
        refine ⟨fun q h => ?_, fun r2 h => ?_, fun s h => ?_, fun c h => ?_⟩
        · simp only [hq]
          exact defaultQuery_query cfg spec q h
        · cases h
          simp only [hrcv]
          exact ⟨_, rfl, defaultReplicas_expected _, hall⟩
        · exact hs s (hsg.trans h)
        · exact hc c (hcomp.trans h)
  · subst hn
    simp [expectedReplicas, h0]

/-- C29 at the sample spec: with the ingestors `a` (no replica count) and `b` (three
replicas) the validator returns no error, and the ingestors it returns are `a` with one
replica and `b` with three; with an ingestor without a name it returns an error. -/
theorem validator_spec_witness :
    (CreateThanosDefaulterValidator sampleConfig
        (sampleThanosSpec [sampleIngestor "a" none, sampleIngestor "b" (some 3)])).2 = none ∧
      ((CreateThanosDefaulterValidator sampleConfig
        (sampleThanosSpec [sampleIngestor "a" none, sampleIngestor "" (some 3)])).2.isSome =
          true) ∧
      ∃ q1, (CreateThanosDefaulterValidator sampleConfig
          (sampleThanosSpec [sampleIngestor "a" none, sampleIngestor "b" (some 3)])).1.Query =
            some q1 ∧ q1.Replicas = some 1 :=
  ⟨by decide,
    (validator_spec sampleConfig
      (sampleThanosSpec [sampleIngestor "a" none, sampleIngestor "" (some 3)])).1.2
      ⟨_, rfl, sampleIngestor "" (some 3), by decide, rfl⟩,
    ((validator_spec sampleConfig
      (sampleThanosSpec [sampleIngestor "a" none, sampleIngestor "b" (some 3)])).2.1
      (by decide)).1 _ rfl⟩

end Whizard
